import Mathlib

/-!
# gypsocat/SQL storage core: a shallow embedding

The development embeds, definition by definition, the storage core of the
repository:

* `MTB::IDAllocator` (`src/base/util/mtb-id-allocator.{hxx,cpp}`),
* `MTB::FileMapper` (`src/base/linux/filemapper.cpp`),
* `IndexFile`, `StorageTable` and `StorageTable::Entry`
  (`src/storage/storage-table.{hxx,cpp}`).

Conventions of the embedding.

* C++ containers indexed with `operator[]` have no bounds check; an access
  outside the container (or outside a file mapping) is undefined behaviour, and
  so is a call through a null `unique_ptr`.  Every operation therefore returns
  an `Option`, and `none` stands for "the C++ code did not return normally":
  it performed such an access, or it left through the
  `FileMapper::Exception` that the file mapper throws (nothing in the storage
  core catches it).  The places where the exception is thrown are the
  definitions `CreateFileMapper` and `resizeAppend`.
* `int`/`int32_t` indices of the allocator are `Int`; the deque would have to
  hold `2^31` entries before they wrap, so no wrap-around is modelled there.
  Values that are written to a file go through `htobe32`, which is modelled
  with an explicit `% 2^32`.
* Loops whose trip count is data dependent take a fuel argument.
-/

set_option autoImplicit false

/-- One octet of a mapped file or of a `std::string`. -/
abbrev Byte := Fin 256

namespace MTB

/-! ## IDAllocator -/

/-- The source constant `UNREACHABLE = -1`, the null link. -/
def UNREACHABLE : Int := -1

/-- `struct IDAllocator::Entry { int32_t prev, next; bool allocated; }`. -/
structure IDAllocator.Entry where
  prev : Int
  next : Int
  allocated : Bool
deriving DecidableEq

/-- `class IDAllocator`: the entry deque and `_cur_max_id`. -/
structure IDAllocator where
  _entry_list : List IDAllocator.Entry
  _cur_max_id : Int
deriving DecidableEq

namespace IDAllocator

/-- Read `_entry_list[i]`; `none` when `i` is outside the deque. -/
def entryAt (l : List Entry) (i : Int) : Option Entry :=
  if 0 ≤ i then l[i.toNat]? else none

/-- Assign `_entry_list[i] = e`; `none` when `i` is outside the deque. -/
def entryStore (l : List Entry) (i : Int) (e : Entry) : Option (List Entry) :=
  if 0 ≤ i ∧ i.toNat < l.length then some (l.set i.toNat e) else none

/-- Assign `_entry_list[i].next = v`. -/
def setNext (l : List Entry) (i : Int) (v : Int) : Option (List Entry) :=
  (entryAt l i).bind fun e => entryStore l i { e with next := v }

/-- Assign `_entry_list[i].prev = v`. -/
def setPrev (l : List Entry) (i : Int) (v : Int) : Option (List Entry) :=
  (entryAt l i).bind fun e => entryStore l i { e with prev := v }

/-- The default constructor `IDAllocator::IDAllocator()`: two list heads,
`[0]` for the free list and `[1]` for the live list, and `_cur_max_id(2)`. -/
def empty : IDAllocator :=
  { _entry_list := [⟨UNREACHABLE, UNREACHABLE, false⟩, ⟨UNREACHABLE, UNREACHABLE, true⟩],
    _cur_max_id := 2 }

/-- The method `IDAllocator::allocate()`; returns the id and the new state. -/
def allocate (self : IDAllocator) : Option (Int × IDAllocator) := do
  let l := self._entry_list
  let head ← entryAt l 0
  let (l, cur_max) ←
    (if head.next = -1 then do
      let current_id : Int := (l.length : Int)
      let l := l ++ [⟨0, -1, false⟩]
      let l ← setNext l 0 current_id
      pure (l, self._cur_max_id + 1)
    else pure (l, self._cur_max_id) : Option (List Entry × Int))
  -- remove the first "unused" id
  let ret := (← entryAt l 0).next
  let ret_next := (← entryAt l ret).next
  let l ← setNext l 0 ret_next
  let l ← (if ret_next ≠ -1 then setPrev l ret_next ret else pure l : Option (List Entry))
  -- and let it join in the "used" list
  let ret_next := (← entryAt l 1).next
  let l ← entryStore l ret ⟨1, ret_next, true⟩
  let l ← (if ret_next ≠ -1 then setPrev l ret_next ret else pure l : Option (List Entry))
  let l ← setNext l 1 ret
  pure (ret - 2, { _entry_list := l, _cur_max_id := cur_max })

/-- The method `IDAllocator::isAllocated(int id)`. -/
def isAllocated (self : IDAllocator) (id : Int) : Option Bool :=
  let id := id + 2
  if id < 2 ∨ id > self._cur_max_id then some false
  else (entryAt self._entry_list id).map fun e => e.allocated

/-- The method `IDAllocator::free(int id)`.  As in the source, the guard calls
`isAllocated` with the already shifted `id` and returns when it answers
`true`. -/
def free (self : IDAllocator) (id : Int) : Option IDAllocator := do
  let id := id + 2
  if (← self.isAllocated id) then pure self else
  let l := self._entry_list
  -- remove the target id
  let prev := (← entryAt l id).prev
  let next := (← entryAt l id).next
  let l ← setNext l prev next
  let l ← (if next ≠ -1 then setPrev l next prev else pure l : Option (List Entry))
  -- and let it join in the "unused" list
  let next := (← entryAt l 0).next
  let l ← entryStore l id ⟨0, next, false⟩
  let l ← (if next ≠ -1 then setPrev l next UNREACHABLE else pure l : Option (List Entry))
  let l ← setNext l 0 id
  pure { self with _entry_list := l }

/-- The constructor `IDAllocator(bool8vec const &allocated_list)`: allocate one
id per item, then `free(id)` every id whose item is false, in order. -/
def ofBool8vec (allocated_list : List Bool) : Option IDAllocator := do
  let a ← allocated_list.foldlM (fun (a : IDAllocator) _ => (fun r => r.2) <$> a.allocate) empty
  let r ← allocated_list.foldlM
    (fun (st : IDAllocator × Int) (is_allocated : Bool) => do
      let a ← (if !is_allocated then st.1.free st.2 else pure st.1 : Option IDAllocator)
      pure (a, st.2 + 1))
    (a, 0)
  pure r.1

/-- `struct IDAllocator::Iterator` (the `instance` reference is passed to the
operations that need it). -/
structure Iterator where
  current_id : Int
deriving DecidableEq

/-- `IDAllocator::begin()`: `{*this, _entry_list[1].next}`. -/
def begin (self : IDAllocator) : Option Iterator :=
  (entryAt self._entry_list 1).map fun e => ⟨e.next⟩

/-- `IDAllocator::end()`: `{*this, -1}`. -/
def «end» (_self : IDAllocator) : Iterator := ⟨-1⟩

/-- `Iterator::operator++`. -/
def Iterator.advance (self : IDAllocator) (it : Iterator) : Option Iterator :=
  if it.current_id ≠ -1 then (entryAt self._entry_list it.current_id).map fun e => ⟨e.next⟩
  else some it

/-- `Iterator::operator*`: `current_id - 2`. -/
def Iterator.deref (it : Iterator) : Int := it.current_id - 2

/-- The range-for loop `for (int id : allocator)` from iterator `it` on,
collecting the ids it yields; `none` when `fuel` steps do not reach `end()` or
an entry outside the deque is read. -/
def iterateFrom (self : IDAllocator) : Nat → Iterator → Option (List Int)
  | 0, _ => none
  | fuel + 1, it =>
    if it ≠ self.end then do
      let it' ← it.advance self
      let rest ← iterateFrom self fuel it'
      pure (it.deref :: rest)
    else some []

/-- The live iteration `begin() .. end()`. -/
def liveIteration (self : IDAllocator) (fuel : Nat) : Option (List Int) :=
  self.begin.bind (iterateFrom self fuel)

/-- The loop shared by `traverseAllocated` and `traverseUnallocated`:
`for (i = start; i != UNREACHABLE; i = _entry_list[i].next) fn(i)`, collecting
the arguments passed to `fn`. -/
def traverseFrom (self : IDAllocator) : Nat → Int → Option (List Int)
  | 0, _ => none
  | fuel + 1, i =>
    if i ≠ UNREACHABLE then do
      let e ← entryAt self._entry_list i
      let rest ← traverseFrom self fuel e.next
      pure (i :: rest)
    else some []

/-- The method `IDAllocator::traverseAllocated(fn)`. -/
def traverseAllocated (self : IDAllocator) (fuel : Nat) : Option (List Int) :=
  (entryAt self._entry_list 1).bind fun h => traverseFrom self fuel h.next

/-- The method `IDAllocator::traverseUnallocated(fn)`. -/
def traverseUnallocated (self : IDAllocator) (fuel : Nat) : Option (List Int) :=
  (entryAt self._entry_list 0).bind fun h => traverseFrom self fuel h.next

/-- One call made by a client of the allocator. -/
inductive Call where
  | allocate
  | free (id : Int)
deriving DecidableEq

/-- Run a sequence of calls, discarding the ids `allocate` returns. -/
def runCalls (self : IDAllocator) : List Call → Option IDAllocator
  | [] => some self
  | Call.allocate :: cs => self.allocate.bind fun r => runCalls r.2 cs
  | Call.free id :: cs => (self.free id).bind fun a => runCalls a cs

end IDAllocator

end MTB


/-! ## Machine integers, files and FileMapper -/

namespace MTB

/-- Conversion of an integer value to `int` / `int32_t` (two's complement). -/
def toInt32 (x : Int) : Int := (x + 2147483648) % 4294967296 - 2147483648

/-- Conversion of an integer value to `uint32_t`. -/
def toUInt32 (x : Int) : Nat := (x % 4294967296).toNat

/-- Conversion of an integer value to the 64-bit `size_t`. -/
def toSizeT (x : Int) : Nat := (x % 18446744073709551616).toNat

/-- The octet with value `n % 256`. -/
def byteOf (n : Nat) : Byte := ⟨n % 256, Nat.mod_lt _ (by decide)⟩

/-- The four octets `htobe32(v)` leaves in memory, lowest address first. -/
def be32Bytes (v : Nat) : List Byte :=
  [byteOf (v / 16777216), byteOf (v / 65536), byteOf (v / 256), byteOf v]

/-- A regular file on disk: its length and its contents. -/
structure File where
  size : Nat
  bytes : Nat → Byte

/-- `class LinuxFileMapper`: the mapping `_memory`, its length `_size`, the
block size `_logical_block` captured at construction and the member
`_file_stat`.  Addresses are offsets from the base of the mapping.
`_file_stat` is `some st_size` when the constructor's `stat()` filled it with
the data of a regular file, and `none` when `stat()` failed with `ENOENT` and
the member, which has no initialiser, was never written. -/
structure FileMapper where
  _memory : Nat → Byte
  _size : Nat
  _logical_block : Nat
  _file_stat : Option Nat

namespace FileMapper

/-- The object `LinuxFileMapper(filename)` leaves when the file did not exist:
`_createFile` has made it one zero-filled block long, and `_file_stat` is
unset. -/
def ofCreated (logical_block_size : Nat) : FileMapper :=
  { _memory := fun _ => 0, _size := logical_block_size,
    _logical_block := logical_block_size, _file_stat := none }

/-- The object `LinuxFileMapper(filename)` leaves when the file existed: it is
mapped with its current size, `_size = _file_stat.st_size`.  (A file of size 0
makes `mmap` fail; its result `MAP_FAILED` is not the `nullptr` the constructor
tests for, and no address of such a mapping is valid.) -/
def ofExisting (f : File) (logical_block_size : Nat) : FileMapper :=
  { _memory := f.bytes, _size := f.size, _logical_block := logical_block_size,
    _file_stat := some f.size }

/-- `CreateFileMapper(filename)`, i.e. `new LinuxFileMapper(filename)`, with the
process-wide `logical_block_size`.  A missing file is created by `_createFile`
with `fallocate(_fd, 0, 0, _logical_block)`, which fails with `EINVAL` when the
length is 0: the constructor then throws `FileMapper::Exception` (`none`).
An existing file is a regular file here, so `check_file_state` passes.  What
a system call answers because of the state of the machine (a full disk, a file
system without `fallocate`) is not modelled: `fallocate` with a positive length
succeeds, and so does `mmap`, whose failure the constructor would not notice
anyway, since it tests the result against `nullptr` and not `MAP_FAILED`. -/
def CreateFileMapper (existing : Option File) (logical_block_size : Nat) : Option FileMapper :=
  match existing with
  | none => if logical_block_size = 0 then none else some (ofCreated logical_block_size)
  | some f => some (ofExisting f logical_block_size)

/-- `int get_file_size() override { return _size; }`. -/
def get_file_size (m : FileMapper) : Int := toInt32 m._size

/-- `resizeAppend()` / `_doResizeAppend()`.  `fallocate(_fd, 0, _size,
_logical_block)` fails with `EINVAL` for a block of 0 bytes, and
`check_file_state(_file_stat, *this)` inspects `_file_stat.st_mode`, which was
never written when the mapper created its file: in both cases the call ends in
`throw FileMapper::Exception` (`none`).  Otherwise the file grows by one logical
block of zero bytes and is mapped again (`fallocate` with a positive length and
`mmap` are taken to succeed, as in `CreateFileMapper`); `_file_stat` is not
refreshed. -/
def resizeAppend (m : FileMapper) : Option FileMapper :=
  if m._logical_block = 0 then none
  else
    match m._file_stat with
    | none => none
    | some _ =>
      some { m with
        _memory := fun x => if x < m._size then m._memory x else 0
        _size := m._size + m._logical_block }

/-- The result of `n` successive calls of `resizeAppend()`. -/
def resizeAppends : Nat → FileMapper → Option FileMapper
  | 0, m => some m
  | n + 1, m => m.resizeAppend.bind (resizeAppends n)

/-- The file left on disk when the mapper is destroyed. -/
def close (m : FileMapper) : File := { size := m._size, bytes := m._memory }

/-- Read `len` octets at `addr`; `none` when the range leaves the mapping. -/
def readBytes (m : FileMapper) (addr : Int) (len : Nat) : Option (List Byte) :=
  if 0 ≤ addr ∧ addr + len ≤ m._size then
    some ((List.range len).map fun i => m._memory (addr.toNat + i))
  else none

/-- The mapping after the octets `bs` have been copied to offset `a`. -/
def poke (m : FileMapper) (a : Nat) (bs : List Byte) : FileMapper :=
  { m with
    _memory := fun x => if a ≤ x ∧ x < a + bs.length then bs.getD (x - a) 0 else m._memory x }

/-- The effect of `memcpy(addr, bs.data(), bs.length())` on the mapping;
`none` when the range leaves the mapping. -/
def writeBytes (m : FileMapper) (addr : Int) (bs : List Byte) : Option FileMapper :=
  if 0 ≤ addr ∧ addr + bs.length ≤ m._size then some (m.poke addr.toNat bs) else none

/-- The value `be32toh(*(uint32_t*)addr)`. -/
def load32 (m : FileMapper) (addr : Int) : Option Nat :=
  if 0 ≤ addr ∧ addr + 4 ≤ m._size then
    some ((m._memory addr.toNat).val * 16777216 + (m._memory (addr.toNat + 1)).val * 65536
      + (m._memory (addr.toNat + 2)).val * 256 + (m._memory (addr.toNat + 3)).val)
  else none

/-- The assignment `*(uint32_t*)addr = htobe32(v)`. -/
def store32 (m : FileMapper) (addr : Int) (v : Nat) : Option FileMapper :=
  m.writeBytes addr (be32Bytes v)

end FileMapper

end MTB

/-! ## Values -/

namespace mygsql

open MTB

/-- `enum class Value::Type : int32_t { NONE = -1, INT = 0, STRING }`, kept by
its underlying value because `IndexFile::LoadFromBuffer` casts an arbitrary
32-bit word to it. -/
structure ValueType where
  tag : Int
deriving DecidableEq

/-- The enumerator `Value::Type::NONE`. -/
def ValueType.NONE : ValueType := ⟨-1⟩
/-- The enumerator `Value::Type::INT`. -/
def ValueType.INT : ValueType := ⟨0⟩
/-- The enumerator `Value::Type::STRING`. -/
def ValueType.STRING : ValueType := ⟨1⟩

/-- The polymorphic `Value` hierarchy: `IntValue` holds an `int32_t`,
`StringValue` a `std::string`. -/
inductive Value where
  | IntValue (_value : Int)
  | StringValue (_value : List Byte)
deriving DecidableEq

/-- `Value::get_value_type()`. -/
def Value.get_value_type : Value → ValueType
  | Value.IntValue _ => ValueType.INT
  | Value.StringValue _ => ValueType.STRING

/-- `constexpr size_t DataTypeGetSize(const Value::Type self)`. -/
def DataTypeGetSize (self : ValueType) : Nat :=
  if self = ValueType.INT then 4
  else if self = ValueType.STRING then 260
  else 0

/-- `constexpr uint32_t i32size = DataTypeGetSize(Value::Type::INT)`. -/
def i32size : Nat := DataTypeGetSize ValueType.INT

/-- `constexpr uint32_t unit_size = i32size * 3`. -/
def unit_size : Nat := i32size * 3

/-- `mtb_ptr_advance(ptr, int offset)`: the argument is converted to `int`
before it is added to the address. -/
def mtb_ptr_advance (ptr : Int) (offset : Int) : Int := ptr + toInt32 offset

end mygsql
/-! ## The global logical block size -/

namespace MTB.FileMapper

/-- `FileMapper::GetLogicalBlockSize()`; the argument is the value of the
global `logical_block_size`. -/
def GetLogicalBlockSize (logical_block_size : Nat) : Nat := logical_block_size

/-- `FileMapper::SetLogicalBlockSize(uint32_t block_size)`: the result and the
value the global `logical_block_size` has afterwards.  `block_size - 1` is
computed in `uint32_t`. -/
def SetLogicalBlockSize (logical_block_size : Nat) (block_size : Nat) : Bool × Nat :=
  if block_size &&& ((block_size + 4294967295) % 4294967296) ≠ 0 then (false, logical_block_size)
  else (true, block_size)

end MTB.FileMapper

/-! ## Comparing values -/

namespace mygsql

open MTB

/-- `strcmp` on the C strings of two `std::string`s: the first differing pair
of unsigned characters decides, the end of a string counts as the terminating
0, and a 0 inside a string ends the comparison.  Only the sign of the result is
specified; the difference of the two characters is returned. -/
def strcmp : List Byte → List Byte → Int
  | [], [] => 0
  | [], b :: _ => 0 - (b.val : Int)
  | a :: _, [] => (a.val : Int) - 0
  | a :: as, b :: bs =>
    if a.val ≠ b.val then (a.val : Int) - (b.val : Int)
    else if a.val = 0 then 0
    else strcmp as bs

/-- The virtual `Value::compare(const Value *another)`: `IntValue::compare`
returns `_value - ival->_value`, an `int` subtraction whose overflow is
undefined (`none`); `StringValue::compare` returns `strcmp`; both return
`0xFFFFFFFF` when the types differ. -/
def Value.compare (self another : Value) : Option Int :=
  match self, another with
  | Value.IntValue a, Value.IntValue b =>
    if -2147483648 ≤ a - b ∧ a - b < 2147483648 then some (a - b) else none
  | Value.StringValue a, Value.StringValue b => some (strcmp a b)
  | _, _ => some 0xFFFFFFFF

/-- `enum class TotalOrderRelation : int8_t`. -/
inductive TotalOrderRelation where
  | NONE | LT | GT | EQ | LE | GE | NE
deriving DecidableEq

/-- The underlying bit mask of a relation. -/
def TotalOrderRelation.mask : TotalOrderRelation → Nat
  | TotalOrderRelation.NONE => 0b0000
  | TotalOrderRelation.LT => 0b0001
  | TotalOrderRelation.GT => 0b0010
  | TotalOrderRelation.EQ => 0b0100
  | TotalOrderRelation.LE => 0b0101
  | TotalOrderRelation.GE => 0b0110
  | TotalOrderRelation.NE => 0b0011

/-- How a call of `ValueMeetsCondition` ends: it returns a `bool` or throws
`InconsistantTypeException(required, real)`. -/
inductive MeetsResult where
  | returned (b : Bool)
  | thrown (required real : ValueType)
deriving DecidableEq

/-- `ValueMeetsCondition(contition, left, right)`; the result of `compare` is
stored in an `int`. -/
def ValueMeetsCondition (contition : TotalOrderRelation) (left right : Value) :
    Option MeetsResult :=
  if left.get_value_type ≠ right.get_value_type then
    some (MeetsResult.thrown left.get_value_type right.get_value_type)
  else do
    let compare_result := toInt32 (← left.compare right)
    if contition.mask &&& TotalOrderRelation.EQ.mask ≠ 0 ∧ compare_result = 0 then
      pure (MeetsResult.returned true)
    else if contition.mask &&& TotalOrderRelation.LT.mask ≠ 0 ∧ compare_result < 0 then
      pure (MeetsResult.returned true)
    else if contition.mask &&& TotalOrderRelation.GT.mask ≠ 0 ∧ compare_result > 0 then
      pure (MeetsResult.returned true)
    else pure (MeetsResult.returned false)

end mygsql

namespace mygsql

/-- The meaning of a relation on integers. -/
def TotalOrderRelation.holds : TotalOrderRelation → Int → Int → Bool
  | TotalOrderRelation.NONE, _, _ => false
  | TotalOrderRelation.LT, a, b => decide (a < b)
  | TotalOrderRelation.GT, a, b => decide (a > b)
  | TotalOrderRelation.EQ, a, b => decide (a = b)
  | TotalOrderRelation.LE, a, b => decide (a ≤ b)
  | TotalOrderRelation.GE, a, b => decide (a ≥ b)
  | TotalOrderRelation.NE, a, b => decide (a ≠ b)

end mygsql

/-! ## IndexFile -/

namespace mygsql

open MTB

/-- `struct StorageTypeItem { name; type; is_primary; offset; }`.  The
`string_view` name is kept by value. -/
structure StorageTypeItem where
  name : List Byte
  type : ValueType
  is_primary : Bool
  offset : Nat
deriving DecidableEq

/-- `struct IndexFile::IndexUnit`. -/
structure IndexFile.IndexUnit where
  name_index : Nat
  name_length : Nat
  data_type : ValueType
  name : List Byte
deriving DecidableEq

/-- `struct IndexFile`.  The members `index_units_raw` and `string_area_raw`
are addresses that no function reads back; they are left out. -/
structure IndexFile where
  index_size : Nat
  primary_index : Nat
  index_units : List IndexFile.IndexUnit
deriving DecidableEq

namespace IndexFile

/-- The body of the loop of `IndexFile::CreateFromTypeList`, with the counter
`cnt`. -/
def CreateFromTypeList.step (st : IndexFile × Int) (i : StorageTypeItem) : IndexFile × Int :=
  let ret : IndexFile :=
    { st.1 with index_units := st.1.index_units ++ [⟨0, 0, i.type, i.name⟩] }
  let ret : IndexFile :=
    if i.is_primary = true ∧ ret.primary_index = 0xFFFFFFFF then
      { ret with primary_index := toUInt32 st.2 }
    else ret
  (ret, toInt32 (st.2 + 1))

/-- `IndexFile::CreateFromTypeList(item_list)`. -/
def CreateFromTypeList (item_list : List StorageTypeItem) : IndexFile :=
  (item_list.foldl CreateFromTypeList.step
    ({ index_size := toUInt32 item_list.length, primary_index := 0xFFFFFFFF,
       index_units := [] }, 0)).1

/-- The first loop of `IndexFile::saveToBuffer`: starting from
`int cur_index`, give every unit its `name_index` and `name_length`. -/
def assignNameIndexes : Int → List IndexUnit → List IndexUnit
  | _, [] => []
  | cur_index, i :: rest =>
    let name_length := toUInt32 i.name.length
    { i with name_index := toUInt32 cur_index, name_length := name_length } ::
      assignNameIndexes (toInt32 (cur_index + name_length)) rest

/-- The second loop of `IndexFile::saveToBuffer`: write the descriptors at
`u32unit` and copy the names into the string area. -/
def writeUnits (string_area : Int) : FileMapper → Int → List IndexUnit → Option FileMapper
  | m, _, [] => some m
  | m, u32unit, i :: rest => do
    let m ← m.store32 u32unit i.name_index
    let m ← m.store32 (u32unit + 4) i.name_length
    let m ← m.store32 (u32unit + 8) (toUInt32 i.data_type.tag)
    let m ← m.writeBytes (string_area + i.name_index) (i.name.take i.name_length)
    writeUnits string_area m (u32unit + 12) rest

/-- `IndexFile::saveToBuffer(start)`, writing into the mapping `m` at address
`start`; returns the index file (whose units were updated in place) and the
mapping. -/
def saveToBuffer (self : IndexFile) (m : FileMapper) (start : Int) :
    Option (IndexFile × FileMapper) := do
  let units := assignNameIndexes 0 self.index_units
  let m ← m.store32 start self.index_size
  let m ← m.store32 (start + 4) self.primary_index
  let u32unit := start + 8
  let string_area := u32unit + ((unit_size * self.index_size) % 4294967296 : Nat)
  let m ← writeUnits string_area m u32unit units
  pure ({ self with index_units := units }, m)

/-- The loop of `IndexFile::LoadFromBuffer` that reads `count` descriptors
starting at `start`. -/
def readUnits (m : FileMapper) (string_area : Int) : Nat → Int → Option (List IndexUnit)
  | 0, _ => some []
  | count + 1, start => do
    let name_index ← m.load32 start
    let name_length ← m.load32 (start + 4)
    let data_type ← m.load32 (start + 8)
    let name ← m.readBytes (string_area + name_index) name_length
    let rest ← readUnits m string_area count (mtb_ptr_advance start unit_size)
    pure (⟨name_index, name_length, ⟨toInt32 data_type⟩, name⟩ :: rest)

/-- `IndexFile::LoadFromBuffer(start)`, reading the mapping `m`. -/
def LoadFromBuffer (m : FileMapper) (start : Int) : Option IndexFile := do
  let index_size ← m.load32 start
  let primary_index ← m.load32 (start + 4)
  let start := mtb_ptr_advance start (i32size * 2)
  let string_area := start + ((index_size * unit_size) % 4294967296 : Nat)
  let units ← readUnits m string_area index_size start
  pure { index_size := index_size, primary_index := primary_index, index_units := units }

/-- `IndexFile::get_storage_size()`, a `uint32_t`. -/
def get_storage_size (self : IndexFile) : Nat :=
  self.index_units.foldl (fun size i => (size + i.name.length) % 4294967296)
    ((i32size + i32size + self.index_units.length * unit_size) % 4294967296)

end IndexFile

/-! ## StorageTable -/

/-- `std::unordered_map::insert`: an existing key keeps its value. -/
def mapInsert {V : Type} (m : List (List Byte × V)) (k : List Byte) (v : V) :
    List (List Byte × V) :=
  if (m.lookup k).isSome then m else m ++ [(k, v)]

/-- `class StorageTable`.  `_type_item_map` maps a name to the position of the
item it points to in `_type_item_list`; a null `unique_ptr` is `none`.  The
members `_name`, `_work_dir`, `_type_item_name_buffer` (a copy of the names) and
`_entry_allocated_num` (a counter nothing reads) are left out. -/
structure StorageTable where
  _entry_mapper : Option FileMapper
  _index_mapper : Option FileMapper
  _type_item_map : List (List Byte × Nat)
  _type_item_list : List StorageTypeItem
  _entry_size : Nat
  _entry_list_num : Nat
  _primary_index_order : Nat
  _entry_allocator : Option IDAllocator
  _type_item_index_map : List (List Byte × Int)
  _has_error : Bool

/-- `class StorageTable::Entry`: the handle `(table, _header_index)`; the table
reference is passed to the operations. -/
structure StorageTable.Entry where
  _header_offset : Nat
  _header_index : Nat
deriving DecidableEq

namespace StorageTable

/-- `StorageTable::_getEntryStartMemory()`. -/
def _getEntryStartMemory (_self : StorageTable) : Int := mtb_ptr_advance 0 i32size

/-- `StorageTable::_getEntryMemory(size_t index)`. -/
def _getEntryMemory (self : StorageTable) (index : Nat) : Int :=
  mtb_ptr_advance self._getEntryStartMemory (self._entry_size * index)

/-- `StorageTable::_getEntryOffset(size_t index)`. -/
def _getEntryOffset (self : StorageTable) (index : Nat) : Nat :=
  i32size + index * self._entry_size

/-- `StorageTable::_initKeyIndexMap()`. -/
def _initKeyIndexMap (self : StorageTable) : StorageTable :=
  { self with
    _type_item_index_map :=
      (self._type_item_list.foldl
        (fun (st : List (List Byte × Int) × Int) i => (mapInsert st.1 i.name st.2, st.2 + 1))
        (self._type_item_index_map, 0)).1 }

/-- The body of the offset loop of the creating constructor.  The state is
`(int offset, position of the item, table)`; `cnt` stays 0 because the loop
never increments it. -/
def createStep (st : Int × Nat × StorageTable) (item : StorageTypeItem) :
    Int × Nat × StorageTable :=
  let offset := st.1
  let pos := st.2.1
  let self := st.2.2
  let cnt : Int := 0
  let item := { item with offset := toUInt32 (offset + i32size) }
  let self := { self with
    _type_item_list := self._type_item_list.set pos item
    _type_item_map := mapInsert self._type_item_map item.name pos }
  let self :=
    if self._primary_index_order = 0xFFFFFFFF ∧ item.is_primary = true then
      { self with _primary_index_order := toUInt32 cnt }
    else self
  (toInt32 (offset + DataTypeGetSize item.type), pos + 1, self)

/-- The loop `while (_index_mapper->get_file_size() <= mapper_size)
resizeAppend()` of `_createIndexFile`. -/
def growIndexMapper (mapper_size : Nat) : Nat → FileMapper → Option FileMapper
  | 0, _ => none
  | fuel + 1, m =>
    if toSizeT m.get_file_size ≤ mapper_size then
      m.resizeAppend.bind (growIndexMapper mapper_size fuel)
    else some m

/-- `StorageTable::_createIndexFile(path)`; the file does not exist yet. -/
def _createIndexFile (self : StorageTable) (logical_block_size : Nat) : Option StorageTable := do
  let index_file := IndexFile.CreateFromTypeList self._type_item_list
  let m ← FileMapper.CreateFileMapper none logical_block_size
  let mapper_size := index_file.get_storage_size
  let m ← growIndexMapper mapper_size (mapper_size + 1) m
  let r ← index_file.saveToBuffer m 0
  pure { self with _index_mapper := some r.2 }

/-- `StorageTable::_createEntryFile(path)`: map the new file and write a zero
`slot_count`. -/
def _createEntryFile (self : StorageTable) (logical_block_size : Nat) : Option StorageTable := do
  let m ← FileMapper.CreateFileMapper none logical_block_size
  let m ← m.store32 0 0
  pure { self with _entry_mapper := some m }

/-- The creating constructor `StorageTable(dir, name, type_items)`.
`idx_exists` and `dat_exists` say whether the two files are already there;
`logical_block_size` is the process-wide block size at that moment. -/
def create (idx_exists dat_exists : Bool) (logical_block_size : Nat)
    (type_items : List StorageTypeItem) : Option StorageTable := do
  let self : StorageTable :=
    { _entry_mapper := none, _index_mapper := none, _type_item_map := [],
      _type_item_list := type_items, _entry_size := 0, _entry_list_num := 0,
      _primary_index_order := 0xFFFFFFFF, _entry_allocator := some IDAllocator.empty,
      _type_item_index_map := [], _has_error := false }
  if idx_exists || dat_exists then
    pure { self with _has_error := true }
  else
    let st := type_items.foldl createStep (0, 0, self)
    let self := { st.2.2 with _entry_size := toUInt32 st.1 }
    let self := self._initKeyIndexMap
    let self ← self._createIndexFile logical_block_size
    self._createEntryFile logical_block_size

/-- The loop of `_loadIndexFile` over the decoded units; the flag in the
result is true when a duplicate name made the function return early. -/
def loadUnits : StorageTable → Nat → List IndexFile.IndexUnit → StorageTable × Nat × Bool
  | self, current_offset, [] => (self, current_offset, false)
  | self, current_offset, i :: rest =>
    if (self._type_item_map.lookup i.name).isSome then
      ({ self with _has_error := true }, current_offset, true)
    else
      let self := { self with
        _type_item_list := self._type_item_list ++ [⟨i.name, i.data_type, false, current_offset⟩]
        _type_item_map := mapInsert self._type_item_map i.name self._type_item_list.length }
      loadUnits self ((current_offset + DataTypeGetSize i.data_type) % 4294967296) rest

/-- `StorageTable::_loadIndexFile(path)` on the existing file `idx`. -/
def _loadIndexFile (self : StorageTable) (idx : File) (logical_block_size : Nat) :
    Option StorageTable := do
  let m ← FileMapper.CreateFileMapper (some idx) logical_block_size
  let self := { self with _index_mapper := some m }
  let index_file ← IndexFile.LoadFromBuffer m 0
  let r := loadUnits self (DataTypeGetSize ValueType.INT) index_file.index_units
  if r.2.2 then pure r.1
  else
    let self := r.1
    let list ←
      (if index_file.primary_index ≠ 0xFFFFFFFF then
        (self._type_item_list[index_file.primary_index]?).map fun item =>
          self._type_item_list.set index_file.primary_index { item with is_primary := true }
      else some self._type_item_list : Option (List StorageTypeItem))
    pure { self with
      _type_item_list := list
      _primary_index_order := index_file.primary_index
      _entry_size := r.2.1 }

/-- The loop of `_loadEntryFile` that collects the allocation flags of slots
`i .. i + count - 1`. -/
def loadFlags (self : StorageTable) (m : FileMapper) : Nat → Nat → Option (List Bool)
  | 0, _ => some []
  | count + 1, i => do
    let entry_is_allocated ← m.load32 (self._getEntryMemory i)
    let rest ← loadFlags self m count (i + 1)
    pure ((entry_is_allocated != 0) :: rest)

/-- `StorageTable::_loadEntryFile(path)` on the existing file `dat`.  The flag
word is read without byte swap; being non-zero does not depend on byte order. -/
def _loadEntryFile (self : StorageTable) (dat : File) (logical_block_size : Nat) :
    Option StorageTable := do
  let file_header_size := i32size
  let m ← FileMapper.CreateFileMapper (some dat) logical_block_size
  let self := { self with _entry_mapper := some m }
  let entry_list_num ← m.load32 0
  let self := { self with _entry_list_num := entry_list_num }
  let file_least_size := (self._entry_list_num * self._entry_size) % 4294967296 + file_header_size
  if file_least_size > toSizeT m.get_file_size then
    pure { self with _has_error := true }
  else
    let vec ← loadFlags self m self._entry_list_num 0
    let a ← IDAllocator.ofBool8vec vec
    pure { self with _entry_allocator := some a }

/-- The opening constructor `StorageTable(dir, name)`.  `idx` and `dat` are the
two files when they exist; `uninit` stands for the indeterminate value of the
members the constructor does not initialise. -/
def «open» (dir_exists : Bool) (idx dat : Option File) (logical_block_size : Nat)
    (uninit : Nat) : Option StorageTable := do
  let self : StorageTable :=
    { _entry_mapper := none, _index_mapper := none, _type_item_map := [],
      _type_item_list := [], _entry_size := uninit, _entry_list_num := uninit,
      _primary_index_order := uninit, _entry_allocator := none,
      _type_item_index_map := [], _has_error := false }
  if !dir_exists then pure { self with _has_error := true }
  else
    match idx, dat with
    | some idx, some dat =>
      let self ← self._loadIndexFile idx logical_block_size
      let self ← self._loadEntryFile dat logical_block_size
      pure self._initKeyIndexMap
    | _, _ => pure { self with _has_error := true }

/-- The getter `get_entry_size()`. -/
def get_entry_size (self : StorageTable) : Nat := self._entry_size

/-- The getter `has_error()`. -/
def has_error (self : StorageTable) : Bool := self._has_error

namespace Entry

/-- The constructor `Entry(StorageTable const &table, int index)`. -/
def ofIndex (table : StorageTable) (index : Int) : Entry :=
  { _header_index := toUInt32 index
    _header_offset := (toUInt32 index * table._entry_size) % 4294967296 }

/-- The private `Entry::get()`: the slot address advanced by `i32size`. -/
def getMemory (table : StorageTable) (self : Entry) : Int :=
  mtb_ptr_advance (table._getEntryMemory self._header_index) i32size

/-- `Entry::get(std::string_view name)`; the inner `none` is `nullptr`. -/
def get (table : StorageTable) (self : Entry) (name : List Byte) : Option (Option Value) :=
  match table._type_item_map.lookup name with
  | none => some none
  | some pos => do
    let type_item ← table._type_item_list[pos]?
    let m ← table._entry_mapper
    let target := mtb_ptr_advance (table._getEntryMemory self._header_index) type_item.offset
    if type_item.type = ValueType.INT then do
      let i32raw ← m.load32 target
      pure (some (Value.IntValue (toInt32 i32raw)))
    else if type_item.type = ValueType.STRING then do
      let i32length := toInt32 (← m.load32 target)
      let target := mtb_ptr_advance target i32size
      let content ← m.readBytes target (toSizeT i32length)
      pure (some (Value.StringValue content))
    else pure none

/-- `Entry::set(std::string_view name, int32_t value)`. -/
def setInt (table : StorageTable) (self : Entry) (name : List Byte) (value : Int) :
    Option (Bool × StorageTable) :=
  match table._type_item_map.lookup name with
  | none => some (false, table)
  | some pos => do
    let type_item ← table._type_item_list[pos]?
    if type_item.type ≠ ValueType.INT then pure (false, table)
    else
      let m ← table._entry_mapper
      let target : Int := getMemory table self + type_item.offset - i32size
      let m ← m.store32 target (toUInt32 value)
      pure (true, { table with _entry_mapper := some m })

/-- `Entry::set(std::string_view name, std::string_view value)`. -/
def setString (table : StorageTable) (self : Entry) (name : List Byte) (value : List Byte) :
    Option (Bool × StorageTable) :=
  if value.length > 256 then some (false, table)
  else
    match table._type_item_map.lookup name with
    | none => some (false, table)
    | some pos => do
      let type_item ← table._type_item_list[pos]?
      if type_item.type ≠ ValueType.STRING then pure (false, table)
      else
        let m ← table._entry_mapper
        let target : Int := getMemory table self + type_item.offset - i32size
        let m ← m.store32 target (toUInt32 value.length)
        let target := mtb_ptr_advance target i32size
        let m ← m.writeBytes target value
        pure (true, { table with _entry_mapper := some m })

/-- `Entry::set(std::string_view name, Value const &value)`. -/
def set (table : StorageTable) (self : Entry) (name : List Byte) (value : Value) :
    Option (Bool × StorageTable) :=
  match value with
  | Value.IntValue v => setInt table self name v
  | Value.StringValue s => setString table self name s

/-- `Entry::isAllocated()`: `*((int32_t*)get()) != 0`. -/
def isAllocated (table : StorageTable) (self : Entry) : Option Bool := do
  let m ← table._entry_mapper
  let raw ← m.load32 (getMemory table self)
  pure (raw != 0)

end Entry

/-- The loop `while (_getEntryOffset(id) >= _entry_mapper->get_file_size())
resizeAppend()` of `allocateEntry`. -/
def growEntryMapper (entry_offset : Nat) : Nat → FileMapper → Option FileMapper
  | 0, _ => none
  | fuel + 1, m =>
    if entry_offset ≥ toSizeT m.get_file_size then
      m.resizeAppend.bind (growEntryMapper entry_offset fuel)
    else some m

/-- `StorageTable::allocateEntry()`. -/
def allocateEntry (self : StorageTable) : Option (Entry × StorageTable) := do
  let allocator ← self._entry_allocator
  let r ← allocator.allocate
  let id := r.1
  let self := { self with _entry_allocator := some r.2 }
  let self :=
    if toUInt32 id ≥ self._entry_list_num then
      { self with _entry_list_num := (self._entry_list_num + 1) % 4294967296 }
    else self
  let m ← self._entry_mapper
  let entry_offset := self._getEntryOffset (toSizeT id)
  let m ← growEntryMapper entry_offset (entry_offset + 1) m
  let m ← m.store32 (self._getEntryMemory (toSizeT id)) 1
  let m ← m.store32 0 self._entry_list_num
  let self := { self with _entry_mapper := some m }
  pure (Entry.ofIndex self id, self)

/-- The loop of `appendEntry` over `value_list`, with the counter `index`. -/
def appendValues (entry : Entry) : StorageTable → Nat → List Value → Option StorageTable
  | self, _, [] => some self
  | self, index, i :: rest => do
    let item ← self._type_item_list[index]?
    let r ← Entry.set self entry item.name i
    appendValues entry r.2 (index + 1) rest

/-- `StorageTable::appendEntry(std::vector<owned<Value>> const &value_list)`. -/
def appendEntry (self : StorageTable) (value_list : List Value) : Option (Entry × StorageTable) := do
  let r ← self.allocateEntry
  let self ← appendValues r.1 r.2 0 value_list
  pure (r.1, self)

/-- The files a table leaves on disk when it is destroyed: `(.idx, .dat)`. -/
def closeFiles (self : StorageTable) : Option (File × File) := do
  let idx ← self._index_mapper
  let dat ← self._entry_mapper
  pure (idx.close, dat.close)

end StorageTable

end mygsql
/-! ## StorageTable: deleting and traversing entries -/

namespace mygsql

open MTB

namespace StorageTable

/-- `StorageTable::traverseReadEntries(fn)`: the entries handed to `fn`, in
order; `fuel` bounds the steps of the range-for loop over the allocator. -/
def traverseReadEntries (self : StorageTable) (fuel : Nat) : Option (List Entry) := do
  let a ← self._entry_allocator
  let ids ← a.liveIteration fuel
  pure (ids.map fun index => Entry.ofIndex self index)

/-- `StorageTable::deleteEntryByID(int32_t id)`. -/
def deleteEntryByID (self : StorageTable) (id : Int) : Option (Bool × StorageTable) := do
  let a ← self._entry_allocator
  if (← a.isAllocated id) = false then pure (false, self)
  else
    let m ← self._entry_mapper
    let m ← m.store32 (self._getEntryMemory (toSizeT id)) 0
    let a ← a.free id
    pure (true, { self with _entry_mapper := some m, _entry_allocator := some a })

/-- `StorageTable::deleteEntry(Entry *entry)`. -/
def deleteEntry (self : StorageTable) (entry : Entry) : Option (Bool × StorageTable) :=
  self.deleteEntryByID (toInt32 entry._header_index)

/-- `StorageTable::getPrimaryIndex()`: `&_type_item_list[_primary_index_order]`. -/
def getPrimaryIndex (self : StorageTable) : Option StorageTypeItem :=
  self._type_item_list[self._primary_index_order]?

/-- The loop `for (auto &i : deleted_entries) deleteEntry(&i)` of
`deleteEntryByPrimaryKey`. -/
def deleteEntries : StorageTable → List Entry → Option StorageTable
  | self, [] => some self
  | self, i :: rest => do
    let r ← self.deleteEntry i
    deleteEntries r.2 rest

/-- `StorageTable::deleteEntryByPrimaryKey(Value *value)`. -/
def deleteEntryByPrimaryKey (self : StorageTable) (fuel : Nat) (value : Value) :
    Option (Bool × StorageTable) := do
  let index_type ← self.getPrimaryIndex
  if value.get_value_type ≠ index_type.type then pure (false, self)
  else
    let deleted_entries ← self.traverseReadEntries fuel
    let self ← deleteEntries self deleted_entries
    pure (true, self)

/-- The allocation flag of slot `index` as the data file holds it:
`be32toh(*(uint32_t*)_getEntryMemory(index))`. -/
def slotFlag (self : StorageTable) (index : Nat) : Option Nat :=
  self._entry_mapper.bind fun m => m.load32 (self._getEntryMemory index)

/-- The length of the data mapping. -/
def dataSize (self : StorageTable) : Option Nat := self._entry_mapper.map fun m => m._size

/-- The ids the table's allocator yields in its live iteration. -/
def liveIds (self : StorageTable) (fuel : Nat) : Option (List Int) :=
  self._entry_allocator.bind fun a => a.liveIteration fuel

/-- The answer of the table's allocator to `isAllocated(id)`. -/
def idAllocated (self : StorageTable) (id : Int) : Option Bool :=
  self._entry_allocator.bind fun a => a.isAllocated id

end StorageTable

end mygsql
/-! ## StorageTable: schema queries and erasing -/

namespace mygsql

open MTB

/-- The column `_loadIndexFile` makes of an index unit, before its offset is
assigned. -/
def IndexFile.itemOfUnit (u : IndexFile.IndexUnit) : StorageTypeItem :=
  ⟨u.name, u.data_type, false, 0⟩

namespace StorageTable

/-- `StorageTable::getTypeIndex(name)`: the `int32_t` result. -/
def getTypeIndex (self : StorageTable) (name : List Byte) : Int :=
  match self._type_item_index_map.lookup name with
  | none => toInt32 0xFFFFFFFF
  | some index => index

/-- The getter `get_primary_index_order()`. -/
def get_primary_index_order (self : StorageTable) : Nat := self._primary_index_order

/-- `StorageTable::traverseRWEntries(fn)`: the entries handed to `fn`, in
order. -/
def traverseRWEntries (self : StorageTable) (fuel : Nat) : Option (List Entry) := do
  let a ← self._entry_allocator
  let ids ← a.liveIteration fuel
  pure (ids.map fun index => Entry.ofIndex self index)

/-- `StorageTable::eraseAndMakeUnavailable()`: the file names are read through
the two mapper pointers, then every member is reset.  The removal of the two
files is outside the state of the table. -/
def eraseAndMakeUnavailable (self : StorageTable) : Option StorageTable := do
  let _ ← self._entry_mapper
  let _ ← self._index_mapper
  pure { self with
    _entry_allocator := none, _entry_mapper := none, _index_mapper := none,
    _type_item_index_map := [], _has_error := true, _type_item_map := [],
    _type_item_list := [] }

end StorageTable

end mygsql

/-! ## The slot layout of the data model -/

namespace mygsql

/-- The sum `S` of `sizeof(type)` over the columns of a schema. -/
def columnsSize (items : List StorageTypeItem) : Nat :=
  (items.map fun i => DataTypeGetSize i.type).sum

/-- The bytes one slot occupies: the 4-byte allocation flag and the packed
columns. -/
def slotWidth (items : List StorageTypeItem) : Nat := 4 + columnsSize items

/-- The columns carry the in-slot offsets of a packed layout that starts at
`off`: each column begins where the previous one ends. -/
def offsetsFrom : Nat → List StorageTypeItem → Bool
  | _, [] => true
  | off, i :: rest => decide (i.offset = off) && offsetsFrom (off + DataTypeGetSize i.type) rest

end mygsql

namespace mygsql

/-- The total length of the column names of an index file. -/
def IndexFile.namesLength (units : List IndexFile.IndexUnit) : Nat :=
  (units.map fun u => u.name.length).sum

/-- The size of the serialised index file: `8 + 12 * column_count` plus the
lengths of the names. -/
def IndexFile.serializedSize (self : IndexFile) : Nat :=
  8 + 12 * self.index_units.length + IndexFile.namesLength self.index_units

/-- What the codec has to preserve of a column: its name and its type. -/
def IndexFile.columns (self : IndexFile) : List (List Byte × ValueType) :=
  self.index_units.map fun u => (u.name, u.data_type)

end mygsql

namespace mygsql

/-- The columns `items` with the packed in-slot offsets that start at `off`. -/
def withOffsets : Nat → List StorageTypeItem → List StorageTypeItem
  | _, [] => []
  | off, i :: rest => { i with offset := off } :: withOffsets (off + DataTypeGetSize i.type) rest

/-- The name map after the names `names` have been inserted in order, the
first of them pointing at position `pos`. -/
def insertNames (m : List (List Byte × Nat)) : Nat → List (List Byte) → List (List Byte × Nat)
  | _, [] => m
  | pos, k :: rest => insertNames (mapInsert m k pos) (pos + 1) rest

/-- The primary ordinal the offset loop of the creating constructor leaves:
its counter stays 0, so any primary column turns the sentinel into 0. -/
def createPrimary (p : Nat) (items : List StorageTypeItem) : Nat :=
  items.foldl (fun p i => if p = 0xFFFFFFFF ∧ i.is_primary = true then 0 else p) p

end mygsql

namespace mygsql

/-- The ordinal of the first column marked primary, counting from `cnt`, or
the sentinel `0xFFFFFFFF` when no column is marked. -/
def primaryOrdinal : Nat → List StorageTypeItem → Nat
  | _, [] => 0xFFFFFFFF
  | cnt, i :: rest => if i.is_primary = true then cnt else primaryOrdinal (cnt + 1) rest

/-- The index unit `CreateFromTypeList` makes of a column. -/
def IndexFile.unitOf (i : StorageTypeItem) : IndexFile.IndexUnit := ⟨0, 0, i.type, i.name⟩

end mygsql

namespace mygsql

/-- The serialised size of the index file of a schema: `8 + 12 * column_count`
plus the lengths of the names. -/
def schemaIndexSize (items : List StorageTypeItem) : Nat :=
  8 + 12 * items.length + (items.map fun i => i.name.length).sum

end mygsql

namespace mygsql

/-- The index file of a schema: the column count, the ordinal of the first
primary column and one unit per column. -/
def IndexFile.ofSchema (items : List StorageTypeItem) : IndexFile :=
  { index_size := items.length, primary_index := primaryOrdinal 0 items,
    index_units := items.map IndexFile.unitOf }

end mygsql

namespace mygsql

/-- The name-to-ordinal map `_initKeyIndexMap` builds for a column list. -/
def keyIndexMap (items : List StorageTypeItem) : List (List Byte × Int) :=
  (items.foldl
    (fun (st : List (List Byte × Int) × Int) i => (mapInsert st.1 i.name st.2, st.2 + 1))
    ([], 0)).1

/-- The table the creating constructor builds from the schema `items` in an
empty directory, given the mapping `idxm` of its index file. -/
def createdTable (logical_block_size : Nat) (items : List StorageTypeItem)
    (idxm : MTB.FileMapper) : StorageTable :=
  { _entry_mapper :=
      some ((MTB.FileMapper.ofCreated logical_block_size).poke 0 (MTB.be32Bytes 0))
    _index_mapper := some idxm
    _type_item_map := insertNames [] 0 (items.map fun i => i.name)
    _type_item_list := withOffsets 4 items
    _entry_size := columnsSize items
    _entry_list_num := 0
    _primary_index_order := createPrimary 0xFFFFFFFF items
    _entry_allocator := some MTB.IDAllocator.empty
    _type_item_index_map := keyIndexMap (withOffsets 4 items)
    _has_error := false }

end mygsql

namespace mygsql

/-- A value conforms to a column type: an INT column takes any 32-bit integer,
a STRING column any string of at most 256 bytes. -/
def Value.conformsTo (v : Value) (ty : ValueType) : Bool :=
  match v with
  | Value.IntValue x => decide (ty = ValueType.INT ∧ -2147483648 ≤ x ∧ x < 2147483648)
  | Value.StringValue s => decide (ty = ValueType.STRING ∧ s.length ≤ 256)

/-- A value vector conforms to a schema: one conforming value per column, in
declaration order. -/
def rowConforms : List StorageTypeItem → List Value → Bool
  | [], [] => true
  | i :: items, v :: vals => v.conformsTo i.type && rowConforms items vals
  | _, _ => false

/-- The bytes at offset `a` of the mapping `m` are the stored form of `v`: a
big-endian word for an INT, a big-endian length followed by the payload for a
STRING. -/
def holdsValue (m : MTB.FileMapper) (a : Nat) (v : Value) : Prop :=
  match v with
  | Value.IntValue x => m.load32 (a : Int) = some (MTB.toUInt32 x)
  | Value.StringValue s =>
    m.load32 (a : Int) = some s.length ∧ m.readBytes ((a + 4 : Nat) : Int) s.length = some s

end mygsql
/-! ## Scenarios -/

namespace mygsql

open MTB

/-- Create a table in an empty directory, append one row, destroy the table
and open it again from the two files it left. -/
def createAppendReopen (logical_block_size : Nat) (type_items : List StorageTypeItem)
    (value_list : List Value) (uninit : Nat) : Option StorageTable := do
  let t ← StorageTable.create false false logical_block_size type_items
  let r ← t.appendEntry value_list
  let f ← r.2.closeFiles
  StorageTable.open true (some f.1) (some f.2) logical_block_size uninit

/-- The name `id`. -/
def nameId : List Byte := [105, 100]

/-- The name `name`. -/
def nameName : List Byte := [110, 97, 109, 101]

/-- The string `alice`. -/
def alice : List Byte := [97, 108, 105, 99, 101]

/-- The schema `[("id", INT, primary), ("name", STRING)]` as a caller passes it. -/
def peopleSchema : List StorageTypeItem :=
  [⟨nameId, ValueType.INT, true, 0⟩, ⟨nameName, ValueType.STRING, false, 0⟩]

/-- The schema part of the table the creating constructor builds from
`peopleSchema` with the default block size, over an empty data file. -/
def peopleTable : StorageTable :=
  { _entry_mapper := some (FileMapper.ofCreated 65536)
    _index_mapper := none
    _type_item_map := [(nameId, 0), (nameName, 1)]
    _type_item_list := [⟨nameId, ValueType.INT, true, 4⟩, ⟨nameName, ValueType.STRING, false, 8⟩]
    _entry_size := 264
    _entry_list_num := 0
    _primary_index_order := 0
    _entry_allocator := some IDAllocator.empty
    _type_item_index_map := [(nameId, 0), (nameName, 1)]
    _has_error := false }

/-- The schema `[("a", INT, primary), ("bb", STRING), ("ccc", INT)]`. -/
def abcSchema : List StorageTypeItem :=
  [⟨[97], ValueType.INT, true, 0⟩, ⟨[98, 98], ValueType.STRING, false, 0⟩,
   ⟨[99, 99, 99], ValueType.INT, false, 0⟩]

/-- The one-column schema `[("s", STRING)]`. -/
def oneStringSchema : List StorageTypeItem := [⟨[115], ValueType.STRING, false, 0⟩]

end mygsql
/-! ## Scenarios on tables -/

namespace mygsql

open MTB

/-- Append the rows `rows` one after the other. -/
def appendRows : StorageTable → List (List Value) → Option StorageTable
  | t, [] => some t
  | t, r :: rs => (t.appendEntry r).bind fun x => appendRows x.2 rs

/-- Call `allocateEntry` `n` times. -/
def allocateEntries : StorageTable → Nat → Option StorageTable
  | t, 0 => some t
  | t, n + 1 => t.allocateEntry.bind fun x => allocateEntries x.2 n

/-- The string `bob`. -/
def bob : List Byte := [98, 111, 98]

/-- The string `carol`. -/
def carol : List Byte := [99, 97, 114, 111, 108]

/-- The rows `(7, "alice")`, `(8, "bob")`, `(9, "carol")`. -/
def threeRows : List (List Value) :=
  [[Value.IntValue 7, Value.StringValue alice], [Value.IntValue 8, Value.StringValue bob],
   [Value.IntValue 9, Value.StringValue carol]]

/-- The table created from `peopleSchema` with the default block size, after
the rows `rows` have been appended. -/
def peopleWith (rows : List (List Value)) : Option StorageTable :=
  (StorageTable.create false false 65536 peopleSchema).bind fun t => appendRows t rows

/-- The one-column schema `[("k", INT, primary)]`. -/
def oneIntSchema : List StorageTypeItem := [⟨[107], ValueType.INT, true, 0⟩]



/-- The schema of eight STRING columns named `a` .. `h`. -/
def eightStringSchema : List StorageTypeItem :=
  (List.range 8).map fun i => ⟨[byteOf (97 + i)], ValueType.STRING, false, 0⟩

end mygsql
/-! ## Invariants used in the proofs -/

namespace MTB.IDAllocator

/-- The ids `n - 1, ..., 1, 0`. -/
def descending (n : Nat) : List Int := (List.range n).reverse.map Int.ofNat

/-- The allocator has created `n` ids and all of them are live: the deque holds
the two heads and `n` entries, the free list is empty and the live iteration
yields `n - 1, ..., 0`. -/
def allLive (a : IDAllocator) (n : Nat) : Prop :=
  a._entry_list.length = n + 2 ∧
  (entryAt a._entry_list 0).map (fun e => e.next) = some (-1) ∧
  a.liveIteration (n + 1) = some (descending n)

/-- The state `threeLiveState` after a `free(2)`: id 2 is on the free list. -/
def freedTwoState : IDAllocator :=
  { _entry_list := [⟨-1, 4, false⟩, ⟨-1, 3, true⟩, ⟨3, -1, true⟩, ⟨1, 2, true⟩, ⟨0, -1, false⟩],
    _cur_max_id := 5 }

end MTB.IDAllocator

namespace mygsql

/-- The state of the table created from `oneIntSchema` with the default block
after `n` rows have been appended and nothing has been deleted: the schema of
the creating constructor, entry size 4, a data mapping of one block, `n` slots
and an allocator whose `n` ids are all live. -/
def StorageTable.oneIntRows (t : StorageTable) (n : Nat) : Prop :=
  (∃ m, t._entry_mapper = some m ∧ m._size = 65536 ∧ m._logical_block = 65536) ∧
  t._type_item_map = [([107], 0)] ∧
  t._type_item_list = [⟨[107], ValueType.INT, true, 4⟩] ∧
  t._entry_size = 4 ∧ t._entry_list_num = n ∧
  ∃ a, t._entry_allocator = some a ∧ a.allLive n

end mygsql
/-! ## Index blobs -/

namespace mygsql

open MTB

/-- A data file of one block of 64 zero bytes: no slot. -/
def emptyData : File := (FileMapper.ofCreated 64).close

end mygsql
/-! ## Scenarios: closing and reopening -/

namespace mygsql

open MTB

/-- Create a table in an empty directory, append the rows, destroy the table
and open it again from the two files it left. -/
def createAppendRowsReopen (logical_block_size : Nat) (type_items : List StorageTypeItem)
    (rows : List (List Value)) (uninit : Nat) : Option StorageTable := do
  let t ← StorageTable.create false false logical_block_size type_items
  let t ← appendRows t rows
  let f ← t.closeFiles
  StorageTable.open true (some f.1) (some f.2) logical_block_size uninit

/-- The rows `(7, "alice")`, `(8, "bob")`. -/
def twoRows : List (List Value) :=
  [[Value.IntValue 7, Value.StringValue alice], [Value.IntValue 8, Value.StringValue bob]]

/-- The schema `[("a", STRING), ("k", INT, primary)]`: the second column is the
primary one. -/
def secondPrimarySchema : List StorageTypeItem :=
  [⟨[97], ValueType.STRING, false, 0⟩, ⟨[107], ValueType.INT, true, 0⟩]

/-- The schema `[("x", INT), ("x", STRING)]`, with one name used twice. -/
def sameNameSchema : List StorageTypeItem :=
  [⟨[120], ValueType.INT, false, 0⟩, ⟨[120], ValueType.STRING, false, 0⟩]

/-- The table a failed open leaves when the directory or a file is missing;
`uninit` stands for the members the constructor leaves uninitialised. -/
def missingTable (uninit : Nat) : Option StorageTable :=
  StorageTable.open true none none 65536 uninit

end mygsql

/-! ## Call sequences used to exercise the allocator -/

namespace MTB.IDAllocator

/-- Four allocations (ids 0..3), `free(3)`, `free(1)`, then one allocation
(which reuses id 1): ids 0, 1, 2 are live and id 3 is free. -/
def reuseCalls : List Call :=
  [Call.allocate, Call.allocate, Call.allocate, Call.allocate,
   Call.free 3, Call.free 1, Call.allocate]

/-- The state the source reaches after `reuseCalls`. -/
def reuseState : IDAllocator :=
  { _entry_list := [⟨-1, 5, false⟩, ⟨-1, 3, true⟩, ⟨4, -1, true⟩,
                    ⟨1, 4, true⟩, ⟨3, 2, true⟩, ⟨3, -1, false⟩],
    _cur_max_id := 6 }

/-- The state the source reaches when `free(3)` is called on `reuseState`,
where id 3 is already free. -/
def doubleFreeState : IDAllocator :=
  { _entry_list := [⟨-1, 5, false⟩, ⟨-1, 3, true⟩, ⟨4, -1, true⟩,
                    ⟨1, -1, true⟩, ⟨3, 2, true⟩, ⟨-1, 5, false⟩],
    _cur_max_id := 6 }

/-- The state after one allocation on the empty allocator. -/
def oneLiveState : IDAllocator :=
  { _entry_list := [⟨-1, -1, false⟩, ⟨-1, 2, true⟩, ⟨1, -1, true⟩], _cur_max_id := 3 }

/-- The state after three allocations on the empty allocator. -/
def threeLiveState : IDAllocator :=
  { _entry_list := [⟨-1, -1, false⟩, ⟨-1, 4, true⟩, ⟨3, -1, true⟩,
                    ⟨4, 2, true⟩, ⟨1, 3, true⟩],
    _cur_max_id := 5 }

end MTB.IDAllocator

/-! ## Scenarios: poisoned tables and a cyclic live list -/

namespace MTB.IDAllocator

/-- The calls of `reuseCalls`, a second `free(3)` and two allocations. -/
def cyclicCalls : List Call :=
  reuseCalls ++ [Call.free 3, Call.allocate, Call.allocate]

/-- The state the source reaches after `cyclicCalls`: entry 5 is its own
successor in the live list. -/
def cyclicLiveState : IDAllocator :=
  { _entry_list := [⟨-1, 3, false⟩, ⟨-1, 5, true⟩, ⟨4, -1, true⟩,
                    ⟨5, -1, true⟩, ⟨3, 2, true⟩, ⟨5, 5, true⟩],
    _cur_max_id := 6 }

end MTB.IDAllocator

namespace mygsql

open MTB

/-- The table the opening constructor leaves when it reads the files of a
table created from `sameNameSchema`. -/
def sameNameTable (uninit : Nat) : Option StorageTable :=
  createAppendRowsReopen 65536 sameNameSchema [] uninit

/-- The table of `peopleSchema` after `eraseAndMakeUnavailable`. -/
def erasedTable : Option StorageTable :=
  (StorageTable.create false false 65536 peopleSchema).bind fun t => t.eraseAndMakeUnavailable

end mygsql

namespace mygsql

open MTB

/-- The 34 bytes of the index file of the two columns `x` INT and `x` STRING
at the start of a 64-byte mapping: column count 2, primary ordinal
`0xFFFFFFFF`, the two descriptors (name offset, name length, type tag) and the
two names. -/
def sameNameBlob : FileMapper :=
  (FileMapper.ofCreated 64).poke 0
    [0, 0, 0, 2, 255, 255, 255, 255, 0, 0, 0, 0, 0, 0, 0, 1, 0, 0, 0, 0,
     0, 0, 0, 1, 0, 0, 0, 1, 0, 0, 0, 1, 120, 120]

end mygsql

namespace MTB.IDAllocator

/-- The state after four allocations on the empty allocator. -/
def fourLiveState : IDAllocator :=
  { _entry_list := [⟨-1, -1, false⟩, ⟨-1, 5, true⟩, ⟨3, -1, true⟩, ⟨4, 2, true⟩,
                    ⟨5, 3, true⟩, ⟨1, 4, true⟩],
    _cur_max_id := 6 }

/-- The state after two allocations on the empty allocator. -/
def twoLiveState : IDAllocator :=
  { _entry_list := [⟨-1, -1, false⟩, ⟨-1, 3, true⟩, ⟨3, -1, true⟩, ⟨1, 2, true⟩],
    _cur_max_id := 4 }

end MTB.IDAllocator

namespace mygsql

open MTB

/-- The table of `peopleSchema` as the opening constructor lays it out (entry
size 268) over the existing 64-byte data file `emptyData`, with one slot
created. -/
def reopenedOneSlot : StorageTable :=
  { peopleTable with
    _entry_mapper := some (FileMapper.ofExisting emptyData 64)
    _entry_size := 268
    _entry_list_num := 1
    _entry_allocator := some IDAllocator.oneLiveState }

end mygsql

namespace mygsql

open MTB

/-- The 38 bytes of the index file of `peopleSchema` at the start of a 64-byte
mapping: column count 2, primary ordinal 0, the descriptors of `id` (name
offset 0, length 2, tag 0) and `name` (name offset 2, length 4, tag 1), and the
names. -/
def peopleIndexBlob : FileMapper :=
  (FileMapper.ofCreated 64).poke 0
    [0, 0, 0, 2, 0, 0, 0, 0, 0, 0, 0, 0, 0, 0, 0, 2, 0, 0, 0, 0,
     0, 0, 0, 2, 0, 0, 0, 4, 0, 0, 0, 1, 105, 100, 110, 97, 109, 101]

/-- A data file of 1024 bytes with two slots of 268 bytes, both allocated,
holding the rows `(7, "alice")` and `(8, "bob")`. -/
def twoPeopleData : File :=
  ((((FileMapper.ofCreated 1024).poke 0 [0, 0, 0, 2]).poke 4
      [0, 0, 0, 1, 0, 0, 0, 7, 0, 0, 0, 5, 97, 108, 105, 99, 101]).poke 272
      [0, 0, 0, 1, 0, 0, 0, 8, 0, 0, 0, 3, 98, 111, 98]).close

/-- A data file of 64 bytes whose header announces two slots. -/
def shortData : File := ((FileMapper.ofCreated 64).poke 0 [0, 0, 0, 2]).close

/-- The table of `peopleSchema` as the opening constructor leaves it on the
files `peopleIndexBlob` and `twoPeopleData`. -/
def reopenedPeople : Option StorageTable :=
  StorageTable.open true (some peopleIndexBlob.close) (some twoPeopleData) 64 0

end mygsql

/-! ## Lemmas: machine integers and mapped memory -/

namespace MTB

theorem toInt32_of_lt (x : Int) (h0 : 0 ≤ x) (h : x < 2147483648) : toInt32 x = x := by
  unfold toInt32; omega

theorem toInt32_natCast (n : Nat) (h : n < 2147483648) : toInt32 (n : Int) = (n : Int) :=
  toInt32_of_lt _ (by omega) (by omega)

theorem toUInt32_natCast (n : Nat) (h : n < 4294967296) : toUInt32 (n : Int) = n := by
  unfold toUInt32; omega

theorem toSizeT_natCast (n : Nat) (h : n < 18446744073709551616) : toSizeT (n : Int) = n := by
  unfold toSizeT; omega

theorem be32Bytes_length (v : Nat) : (be32Bytes v).length = 4 := rfl

namespace FileMapper

@[simp] theorem poke_size (m : FileMapper) (a : Nat) (bs : List Byte) :
    (m.poke a bs)._size = m._size := rfl

@[simp] theorem poke_logical_block (m : FileMapper) (a : Nat) (bs : List Byte) :
    (m.poke a bs)._logical_block = m._logical_block := rfl

theorem poke_memory (m : FileMapper) (a : Nat) (bs : List Byte) (x : Nat) :
    (m.poke a bs)._memory x =
      if a ≤ x ∧ x < a + bs.length then bs.getD (x - a) 0 else m._memory x := rfl

theorem poke_memory_outside (m : FileMapper) (a : Nat) (bs : List Byte) (x : Nat)
    (h : x < a ∨ a + bs.length ≤ x) : (m.poke a bs)._memory x = m._memory x := by
  rw [poke_memory]; split
  · omega
  · rfl

theorem poke_memory_inside (m : FileMapper) (a : Nat) (bs : List Byte) (i : Nat)
    (h : i < bs.length) : (m.poke a bs)._memory (a + i) = bs[i] := by
  rw [poke_memory]
  have h1 : a ≤ a + i ∧ a + i < a + bs.length := by omega
  rw [if_pos h1]
  simp [List.getD_eq_getElem?_getD, List.getElem?_eq_getElem h]

theorem writeBytes_natCast (m : FileMapper) (a : Nat) (bs : List Byte)
    (h : a + bs.length ≤ m._size) : m.writeBytes (a : Int) bs = some (m.poke a bs) := by
  unfold writeBytes
  have h1 : (0 : Int) ≤ (a : Int) ∧ (a : Int) + (bs.length : Int) ≤ (m._size : Int) := by omega
  rw [if_pos h1]; simp

theorem store32_natCast (m : FileMapper) (a : Nat) (v : Nat) (h : a + 4 ≤ m._size) :
    m.store32 (a : Int) v = some (m.poke a (be32Bytes v)) :=
  writeBytes_natCast m a (be32Bytes v) (by rw [be32Bytes_length]; exact h)

theorem load32_natCast (m : FileMapper) (a : Nat) (h : a + 4 ≤ m._size) :
    m.load32 (a : Int) = some ((m._memory a).val * 16777216 + (m._memory (a + 1)).val * 65536
      + (m._memory (a + 2)).val * 256 + (m._memory (a + 3)).val) := by
  unfold load32
  have h1 : (0 : Int) ≤ (a : Int) ∧ (a : Int) + 4 ≤ (m._size : Int) := by omega
  rw [if_pos h1]; simp

theorem readBytes_natCast (m : FileMapper) (a len : Nat) (h : a + len ≤ m._size) :
    m.readBytes (a : Int) len = some ((List.range len).map fun i => m._memory (a + i)) := by
  unfold readBytes
  have h1 : (0 : Int) ≤ (a : Int) ∧ (a : Int) + (len : Int) ≤ (m._size : Int) := by omega
  rw [if_pos h1]; simp

/-- Two mappings of the same size that agree on `[a, a + 4)` load the same word. -/
theorem load32_congr (m m' : FileMapper) (a : Nat) (hs : m'._size = m._size)
    (h : ∀ x, a ≤ x → x < a + 4 → m'._memory x = m._memory x) :
    m'.load32 (a : Int) = m.load32 (a : Int) := by
  unfold load32
  rw [hs]
  split
  · simp only [Int.toNat_ofNat]
    rw [h a (by omega) (by omega), h (a + 1) (by omega) (by omega),
      h (a + 2) (by omega) (by omega), h (a + 3) (by omega) (by omega)]
  · rfl

/-- Two mappings of the same size that agree on `[a, a + len)` read the same octets. -/
theorem readBytes_congr (m m' : FileMapper) (a len : Nat) (hs : m'._size = m._size)
    (h : ∀ x, a ≤ x → x < a + len → m'._memory x = m._memory x) :
    m'.readBytes (a : Int) len = m.readBytes (a : Int) len := by
  unfold readBytes
  rw [hs]
  split
  · simp only [Int.toNat_ofNat, Option.some.injEq]
    apply List.map_congr_left
    intro i hi
    rw [List.mem_range] at hi
    exact h (a + i) (by omega) (by omega)
  · rfl

/-- The word read back right after `htobe32` stored it. -/
theorem load32_poke_be32 (m : FileMapper) (a v : Nat) (h : a + 4 ≤ m._size) :
    (m.poke a (be32Bytes v)).load32 (a : Int) = some (v % 4294967296) := by
  rw [load32_natCast _ _ (by simpa using h)]
  have e0 := poke_memory_inside m a (be32Bytes v) 0 (by simp [be32Bytes])
  have e1 := poke_memory_inside m a (be32Bytes v) 1 (by simp [be32Bytes])
  have e2 := poke_memory_inside m a (be32Bytes v) 2 (by simp [be32Bytes])
  have e3 := poke_memory_inside m a (be32Bytes v) 3 (by simp [be32Bytes])
  simp only [Nat.add_zero] at e0
  rw [e0, e1, e2, e3]
  simp only [be32Bytes, byteOf, List.getElem_cons_zero, List.getElem_cons_succ]
  congr 1
  omega

/-- The octets read back right after `memcpy` stored them. -/
theorem readBytes_poke (m : FileMapper) (a : Nat) (bs : List Byte) (h : a + bs.length ≤ m._size) :
    (m.poke a bs).readBytes (a : Int) bs.length = some bs := by
  rw [readBytes_natCast _ _ _ (by simpa using h)]
  congr 1
  apply List.ext_getElem
  · simp
  · intro i h1 h2
    simp only [List.getElem_map, List.getElem_range]
    exact poke_memory_inside m a bs i h2

end FileMapper

end MTB

namespace MTB.FileMapper

@[simp] theorem poke_file_stat (m : FileMapper) (a : Nat) (bs : List Byte) :
    (m.poke a bs)._file_stat = m._file_stat := rfl

/-- The constructor of the mapper on a missing file, with a block that is not
empty. -/
theorem CreateFileMapper_none (block : Nat) (h : block ≠ 0) :
    FileMapper.CreateFileMapper none block = some (FileMapper.ofCreated block) := by
  unfold FileMapper.CreateFileMapper
  simp only [if_neg h]

/-- The constructor of the mapper on an existing file. -/
theorem CreateFileMapper_some (f : File) (block : Nat) :
    FileMapper.CreateFileMapper (some f) block = some (FileMapper.ofExisting f block) := rfl

/-- `resizeAppend` on a mapper of an existing file with a block that is not
empty. -/
theorem resizeAppend_some (m : FileMapper) (s : Nat) (hb : 0 < m._logical_block)
    (hstat : m._file_stat = some s) :
    m.resizeAppend = some { m with _memory := fun x => if x < m._size then m._memory x else 0, _size := m._size + m._logical_block } := by
  unfold resizeAppend
  rw [if_neg (by omega), hstat]

/-- `resizeAppend` throws on a mapper that created its file. -/
theorem resizeAppend_created (m : FileMapper) (hstat : m._file_stat = none) :
    m.resizeAppend = none := by
  unfold resizeAppend
  rw [hstat]
  split <;> rfl

/-- Whenever `resizeAppend` returns, the mapping is one block longer, the block
size and `_file_stat` are the same and the bytes mapped before are kept. -/
theorem resizeAppend_eq_some (m m' : FileMapper) (h : m.resizeAppend = some m') :
    m'._size = m._size + m._logical_block ∧ m'._logical_block = m._logical_block ∧
    m'._file_stat = m._file_stat ∧ m._logical_block ≠ 0 ∧ m._file_stat ≠ none ∧
    (∀ x, x < m._size → m'._memory x = m._memory x) ∧
    (∀ x, m._size ≤ x → m'._memory x = 0) := by
  unfold resizeAppend at h
  by_cases hb : m._logical_block = 0
  · rw [if_pos hb] at h
    exact absurd h (by simp)
  · rw [if_neg hb] at h
    cases hs : m._file_stat with
    | none => rw [hs] at h; exact absurd h (by simp)
    | some s =>
      rw [hs] at h
      have := Option.some.inj h
      subst this
      refine ⟨rfl, rfl, rfl, hb, by simp, ?_, ?_⟩
      · intro x hx
        show (if x < m._size then m._memory x else 0) = m._memory x
        rw [if_pos hx]
      · intro x hx
        show (if x < m._size then m._memory x else 0) = 0
        rw [if_neg (by omega)]

end MTB.FileMapper

/-! ## Lemmas: slot addresses -/

namespace mygsql

open MTB MTB.FileMapper

theorem i32size_eq : i32size = 4 := by decide

theorem DataTypeGetSize_INT : DataTypeGetSize ValueType.INT = 4 := by decide

theorem DataTypeGetSize_STRING : DataTypeGetSize ValueType.STRING = 260 := by decide

theorem mtb_ptr_advance_natCast (p n : Nat) (h : n < 2147483648) :
    mtb_ptr_advance (p : Int) (n : Int) = ((p + n : Nat) : Int) := by
  unfold mtb_ptr_advance
  rw [toInt32_natCast n h]
  push_cast; rfl

/-- A column of a packed layout lies between the start and the end of it. -/
theorem offsetsFrom_bounds (items : List StorageTypeItem) :
    ∀ (off pos : Nat) (c : StorageTypeItem), offsetsFrom off items = true →
      items[pos]? = some c →
      off ≤ c.offset ∧ c.offset + DataTypeGetSize c.type ≤ off + columnsSize items := by
  induction items with
  | nil => intro off pos c _ h; simp at h
  | cons i rest ih =>
    intro off pos c hl hc
    simp only [offsetsFrom, Bool.and_eq_true, decide_eq_true_eq] at hl
    have hsum : columnsSize (i :: rest) = DataTypeGetSize i.type + columnsSize rest := by
      simp [columnsSize]
    cases pos with
    | zero =>
      simp only [List.getElem?_cons_zero, Option.some.injEq] at hc
      subst hc
      omega
    | succ p =>
      simp only [List.getElem?_cons_succ] at hc
      have := ih (off + DataTypeGetSize i.type) p c hl.2 hc
      omega

namespace StorageTable

theorem getEntryMemory_natCast (t : StorageTable) (index : Nat)
    (h : 4 + t._entry_size * index < 2147483648) :
    t._getEntryMemory index = ((4 + t._entry_size * index : Nat) : Int) := by
  unfold _getEntryMemory _getEntryStartMemory
  rw [i32size_eq]
  have h1 : mtb_ptr_advance 0 ((4 : Nat) : Int) = ((0 + 4 : Nat) : Int) :=
    mtb_ptr_advance_natCast 0 4 (by omega)
  rw [h1]
  have h2 := mtb_ptr_advance_natCast (0 + 4) (t._entry_size * index) (by omega)
  rw [Nat.zero_add] at h2 ⊢
  rw [← h2]
  push_cast; rfl

end StorageTable

end mygsql
/-! ## Lemmas: Entry::set and Entry::get -/

namespace mygsql

open MTB MTB.FileMapper

namespace StorageTable

/-- The address `Entry::set` writes a column at. -/
theorem Entry.set_target (t : StorageTable) (e : Entry) (off : Nat)
    (h : 4 + t._entry_size * e._header_index < 2147483648) :
    Entry.getMemory t e + (off : Int) - (i32size : Int)
      = ((4 + t._entry_size * e._header_index + off : Nat) : Int) := by
  unfold Entry.getMemory
  rw [getEntryMemory_natCast t _ h, i32size_eq,
    mtb_ptr_advance_natCast _ 4 (by omega)]
  push_cast; ring

/-- The address `Entry::get` reads a column at. -/
theorem Entry.get_target (t : StorageTable) (e : Entry) (off : Nat)
    (h : 4 + t._entry_size * e._header_index < 2147483648) (hoff : off < 2147483648) :
    mtb_ptr_advance (t._getEntryMemory e._header_index) (off : Int)
      = ((4 + t._entry_size * e._header_index + off : Nat) : Int) := by
  rw [getEntryMemory_natCast t _ h, mtb_ptr_advance_natCast _ off hoff]

theorem toInt32_toUInt32 (v : Int) (h0 : -2147483648 ≤ v) (h1 : v < 2147483648) :
    toInt32 (((toUInt32 v : Nat) : Int) % 4294967296) = v := by
  unfold toInt32 toUInt32
  omega

end StorageTable

end mygsql

namespace mygsql

open MTB MTB.FileMapper StorageTable

/-- `Entry::set(name, int32_t)` on an INT column whose word lies in the mapping. -/
theorem StorageTable.Entry.setInt_eq (t : StorageTable) (e : StorageTable.Entry)
    (m : FileMapper) (name : List Byte) (pos : Nat) (c : StorageTypeItem) (A : Nat) (v : Int)
    (hm : t._entry_mapper = some m)
    (hname : t._type_item_map.lookup name = some pos)
    (hcol : t._type_item_list[pos]? = some c)
    (hty : c.type = ValueType.INT)
    (hset : Entry.getMemory t e + (c.offset : Int) - (i32size : Int) = (A : Int))
    (hA4 : A + 4 ≤ m._size) :
    Entry.setInt t e name v
      = some (true, { t with _entry_mapper := some (m.poke A (be32Bytes (toUInt32 v))) }) := by
  unfold Entry.setInt
  simp only [hname]
  simp only [hcol, Option.bind_eq_bind, Option.some_bind, hty]
  rw [hm, Option.some_bind, hset, store32_natCast m A (toUInt32 v) hA4]
  simp

/-- `Entry::set(name, string_view)` on a STRING column whose region lies in the
mapping. -/
theorem StorageTable.Entry.setString_eq (t : StorageTable) (e : StorageTable.Entry)
    (m : FileMapper) (name : List Byte) (pos : Nat) (c : StorageTypeItem) (A : Nat)
    (s : List Byte)
    (hm : t._entry_mapper = some m)
    (hname : t._type_item_map.lookup name = some pos)
    (hcol : t._type_item_list[pos]? = some c)
    (hty : c.type = ValueType.STRING)
    (hset : Entry.getMemory t e + (c.offset : Int) - (i32size : Int) = (A : Int))
    (hs : s.length ≤ 256)
    (hAs : A + 4 + s.length ≤ m._size) :
    Entry.setString t e name s
      = some (true,
          { t with _entry_mapper := some ((m.poke A (be32Bytes s.length)).poke (A + 4) s) }) := by
  have hgt : ¬ s.length > 256 := by omega
  have hlen : toUInt32 (s.length : Int) = s.length := toUInt32_natCast _ (by omega)
  have hadv : mtb_ptr_advance (A : Int) ((4 : Nat) : Int) = ((A + 4 : Nat) : Int) :=
    mtb_ptr_advance_natCast A 4 (by omega)
  have hA4 : A + 4 ≤ m._size := by omega
  have hw := writeBytes_natCast (m.poke A (be32Bytes s.length)) (A + 4) s hAs
  unfold Entry.setString
  simp only [hgt, if_false, hname]
  simp only [hcol, Option.bind_eq_bind, Option.some_bind, hty]
  rw [hm, Option.some_bind, hset, hlen, store32_natCast m A s.length hA4, Option.some_bind,
    i32size_eq, hadv, hw]
  simp

/-- `Entry::get(name)` on an INT column. -/
theorem StorageTable.Entry.get_int_eq (t : StorageTable) (e : StorageTable.Entry)
    (m : FileMapper) (name : List Byte) (pos : Nat) (c : StorageTypeItem) (A raw : Nat)
    (hm : t._entry_mapper = some m)
    (hname : t._type_item_map.lookup name = some pos)
    (hcol : t._type_item_list[pos]? = some c)
    (hty : c.type = ValueType.INT)
    (hget : mtb_ptr_advance (t._getEntryMemory e._header_index) (c.offset : Int) = (A : Int))
    (hload : m.load32 (A : Int) = some raw) :
    Entry.get t e name = some (some (Value.IntValue (toInt32 raw))) := by
  unfold Entry.get
  simp only [hname]
  simp only [hcol, Option.bind_eq_bind, Option.some_bind, hty, hget]
  rw [hm, Option.some_bind, hload]
  simp

/-- `Entry::get(name)` on a STRING column. -/
theorem StorageTable.Entry.get_string_eq (t : StorageTable) (e : StorageTable.Entry)
    (m : FileMapper) (name : List Byte) (pos : Nat) (c : StorageTypeItem) (A len : Nat)
    (content : List Byte)
    (hm : t._entry_mapper = some m)
    (hname : t._type_item_map.lookup name = some pos)
    (hcol : t._type_item_list[pos]? = some c)
    (hty : c.type = ValueType.STRING)
    (hget : mtb_ptr_advance (t._getEntryMemory e._header_index) (c.offset : Int) = (A : Int))
    (hlen : len < 2147483648)
    (hload : m.load32 (A : Int) = some len)
    (hread : m.readBytes ((A + 4 : Nat) : Int) len = some content) :
    Entry.get t e name = some (some (Value.StringValue content)) := by
  have hadv : mtb_ptr_advance (A : Int) ((4 : Nat) : Int) = ((A + 4 : Nat) : Int) :=
    mtb_ptr_advance_natCast A 4 (by omega)
  have hl2 : toInt32 (len : Int) = (len : Int) := toInt32_natCast _ hlen
  have hl3 : toSizeT (len : Int) = len := toSizeT_natCast _ (by omega)
  have hne : ¬ ValueType.STRING = ValueType.INT := by decide
  unfold Entry.get
  simp only [hname]
  simp only [hcol, Option.bind_eq_bind, Option.some_bind, hty, hget, hne, if_false, if_true]
  rw [hm, Option.some_bind, hload, Option.some_bind, hl2, i32size_eq, hadv, hl3, hread]
  simp

end mygsql
/-! ## Lemmas: the index file codec -/

namespace MTB.FileMapper

/-- A word outside the poked range is not affected. -/
theorem load32_poke_outside (m : FileMapper) (a b : Nat) (bs : List Byte)
    (h : a + 4 ≤ b ∨ b + bs.length ≤ a) :
    (m.poke b bs).load32 (a : Int) = m.load32 (a : Int) :=
  load32_congr m (m.poke b bs) a rfl
    (fun x h1 h2 => poke_memory_outside m b bs x (by omega))

end MTB.FileMapper

namespace mygsql.IndexFile

open MTB MTB.FileMapper

theorem namesLength_cons (i : IndexUnit) (rest : List IndexUnit) :
    namesLength (i :: rest) = i.name.length + namesLength rest := by
  simp [namesLength]

theorem toInt32_toUInt32_tag (ty : ValueType)
    (h : ty = ValueType.INT ∨ ty = ValueType.STRING) :
    (⟨toInt32 ((toUInt32 ty.tag % 4294967296 : Nat) : Int)⟩ : ValueType) = ty := by
  rcases h with h | h <;> subst h <;> decide

/-- The descriptors and names written by the second loop of `saveToBuffer` are
read back unchanged by the loop of `LoadFromBuffer`, and nothing outside the
descriptor area and the name area is modified. -/
theorem writeUnits_readUnits (sa : Nat) (us : List IndexUnit) :
    ∀ (m : FileMapper) (u32unit cur : Nat),
      (∀ u ∈ us, u.data_type = ValueType.INT ∨ u.data_type = ValueType.STRING) →
      u32unit + 12 * us.length ≤ sa →
      sa + cur + namesLength us ≤ m._size →
      m._size < 2147483648 →
      ∃ m', writeUnits (sa : Int) m (u32unit : Int) (assignNameIndexes (cur : Int) us) = some m' ∧
        m'._size = m._size ∧ m'._logical_block = m._logical_block ∧
        (∀ x, (x < u32unit ∨ (u32unit + 12 * us.length ≤ x ∧ x < sa + cur) ∨
            sa + cur + namesLength us ≤ x) → m'._memory x = m._memory x) ∧
        readUnits m' (sa : Int) us.length (u32unit : Int)
          = some (assignNameIndexes (cur : Int) us) := by
  induction us with
  | nil =>
    intro m u32unit cur _ _ _ _
    exact ⟨m, rfl, rfl, rfl, fun _ _ => rfl, rfl⟩
  | cons i rest ih =>
    intro m u32unit cur hty hdesc hnames hsize
    rw [namesLength_cons] at hnames
    rw [List.length_cons] at hdesc
    have hcur : toUInt32 (cur : Int) = cur := toUInt32_natCast _ (by omega)
    have hlen : toUInt32 (i.name.length : Int) = i.name.length := toUInt32_natCast _ (by omega)
    have hnext : toInt32 ((cur : Int) + (i.name.length : Nat)) = ((cur + i.name.length : Nat) : Int) := by
      rw [← Nat.cast_add]; exact toInt32_natCast _ (by omega)
    have htag := toInt32_toUInt32_tag i.data_type (hty i (List.mem_cons_self _ _))
    -- the four writes of this unit
    let m1 := m.poke u32unit (be32Bytes cur)
    let m2 := m1.poke (u32unit + 4) (be32Bytes i.name.length)
    let m3 := m2.poke (u32unit + 8) (be32Bytes (toUInt32 i.data_type.tag))
    let m4 := m3.poke (sa + cur) i.name
    have hs4 : m4._size = m._size := rfl
    obtain ⟨m', hw, hs', hlb', hframe, hread⟩ := ih m4 (u32unit + 12) (cur + i.name.length)
      (fun u hu => hty u (List.mem_cons_of_mem _ hu)) (by omega) (by rw [hs4]; omega)
      (by rw [hs4]; exact hsize)
    have e4 : ((u32unit : Int) + 4) = ((u32unit + 4 : Nat) : Int) := by push_cast; rfl
    have e8 : ((u32unit : Int) + 8) = ((u32unit + 8 : Nat) : Int) := by push_cast; rfl
    have e12 : ((u32unit : Int) + 12) = ((u32unit + 12 : Nat) : Int) := by push_cast; rfl
    have esa : ((sa : Int) + (cur : Nat)) = ((sa + cur : Nat) : Int) := by push_cast; rfl
    have htake : i.name.take i.name.length = i.name := List.take_length i.name
    simp only [List.length_cons, namesLength_cons]
    refine ⟨m', ?_, by rw [hs']; rfl, by rw [hlb']; rfl, ?_, ?_⟩
    · -- the writes succeed
      simp only [assignNameIndexes, hcur, hlen, hnext, writeUnits, Option.bind_eq_bind]
      rw [store32_natCast m u32unit cur (by omega), Option.some_bind, e4,
        store32_natCast m1 (u32unit + 4) i.name.length (by show _ ≤ m._size; omega),
        Option.some_bind, e8,
        store32_natCast m2 (u32unit + 8) _ (by show _ ≤ m._size; omega),
        Option.some_bind, esa, htake,
        writeBytes_natCast m3 (sa + cur) i.name (by show _ ≤ m._size; omega),
        Option.some_bind, e12]
      exact hw
    · -- the frame
      intro x hx
      rw [hframe x (by omega)]
      show (m3.poke (sa + cur) i.name)._memory x = _
      rw [poke_memory_outside _ _ _ _ (by omega)]
      show (m2.poke (u32unit + 8) _)._memory x = _
      rw [poke_memory_outside _ _ _ _ (by rw [be32Bytes_length]; omega)]
      show (m1.poke (u32unit + 4) _)._memory x = _
      rw [poke_memory_outside _ _ _ _ (by rw [be32Bytes_length]; omega)]
      show (m.poke u32unit _)._memory x = _
      rw [poke_memory_outside _ _ _ _ (by rw [be32Bytes_length]; omega)]
    · -- reading back
      have hl0 : m'.load32 (u32unit : Int) = some cur := by
        rw [load32_congr m4 m' u32unit hs' (fun x _ _ => hframe x (by omega))]
        show (m3.poke (sa + cur) i.name).load32 _ = _
        rw [load32_poke_outside _ _ _ _ (by omega)]
        show (m2.poke (u32unit + 8) _).load32 _ = _
        rw [load32_poke_outside _ _ _ _ (by omega)]
        show (m1.poke (u32unit + 4) _).load32 _ = _
        rw [load32_poke_outside _ _ _ _ (by omega)]
        show (m.poke u32unit _).load32 _ = _
        rw [load32_poke_be32 _ _ _ (by omega), Nat.mod_eq_of_lt (by omega)]
      have hl4 : m'.load32 ((u32unit + 4 : Nat) : Int) = some i.name.length := by
        rw [load32_congr m4 m' (u32unit + 4) hs' (fun x _ _ => hframe x (by omega))]
        show (m3.poke (sa + cur) i.name).load32 _ = _
        rw [load32_poke_outside _ _ _ _ (by omega)]
        show (m2.poke (u32unit + 8) _).load32 _ = _
        rw [load32_poke_outside _ _ _ _ (by omega)]
        show (m1.poke (u32unit + 4) _).load32 _ = _
        rw [load32_poke_be32 _ _ _ (by show _ ≤ m._size; omega), Nat.mod_eq_of_lt (by omega)]
      have hl8 : m'.load32 ((u32unit + 8 : Nat) : Int)
          = some (toUInt32 i.data_type.tag % 4294967296) := by
        rw [load32_congr m4 m' (u32unit + 8) hs' (fun x _ _ => hframe x (by omega))]
        show (m3.poke (sa + cur) i.name).load32 _ = _
        rw [load32_poke_outside _ _ _ _ (by omega)]
        show (m2.poke (u32unit + 8) _).load32 _ = _
        rw [load32_poke_be32 _ _ _ (by show _ ≤ m._size; omega)]
      have hrn : m'.readBytes ((sa + cur : Nat) : Int) i.name.length = some i.name := by
        rw [readBytes_congr m4 m' (sa + cur) i.name.length hs'
          (fun x _ _ => hframe x (by omega))]
        exact readBytes_poke m3 (sa + cur) i.name (by show _ ≤ m._size; omega)
      have hadv : mtb_ptr_advance (u32unit : Int) (unit_size : Nat) = ((u32unit + 12 : Nat) : Int) :=
        mtb_ptr_advance_natCast u32unit 12 (by omega)
      simp only [assignNameIndexes, hcur, hlen, hnext, readUnits, Option.bind_eq_bind]
      rw [hl0, Option.some_bind, e4, hl4, Option.some_bind, e8, hl8, Option.some_bind, esa, hrn,
        Option.some_bind, hadv, hread, Option.some_bind, htag]
      rfl

end mygsql.IndexFile

namespace mygsql.IndexFile

open MTB MTB.FileMapper

theorem unit_size_eq : unit_size = 12 := by decide

/-- The first loop of `saveToBuffer` leaves names and types untouched. -/
theorem assignNameIndexes_columns (us : List IndexUnit) :
    ∀ cur : Int, (assignNameIndexes cur us).map (fun u => (u.name, u.data_type))
      = us.map (fun u => (u.name, u.data_type)) := by
  induction us with
  | nil => intro cur; rfl
  | cons i rest ih =>
    intro cur
    simp only [assignNameIndexes, List.map_cons]
    rw [ih]

end mygsql.IndexFile
/-! ## The index file round trip -/

namespace mygsql

open MTB MTB.FileMapper IndexFile

/-- `LoadFromBuffer` after `saveToBuffer`: the mapping keeps its size and block
size, and the loaded index file has the saved column count, primary ordinal,
names and types. -/
theorem IndexFile.saveToBuffer_LoadFromBuffer (self : IndexFile) (m : FileMapper)
    (hcount : self.index_size = self.index_units.length)
    (hprimary : self.primary_index < 4294967296)
    (htypes : ∀ u ∈ self.index_units,
      u.data_type = ValueType.INT ∨ u.data_type = ValueType.STRING)
    (hfit : self.serializedSize ≤ m._size)
    (hsize : m._size < 2147483648) :
    ∃ saved m' loaded, self.saveToBuffer m 0 = some (saved, m') ∧
      m'._size = m._size ∧ m'._logical_block = m._logical_block ∧
      LoadFromBuffer m' 0 = some loaded ∧
      loaded.index_size = self.index_size ∧
      loaded.primary_index = self.primary_index ∧
      loaded.columns = self.columns := by
  unfold serializedSize at hfit
  generalize hn : self.index_units.length = n at hfit hcount
  have hsa : ((0 : Int) + 8) + (((unit_size * self.index_size) % 4294967296 : Nat) : Int)
      = ((8 + 12 * n : Nat) : Int) := by
    rw [unit_size_eq, hcount, Nat.mod_eq_of_lt (by omega)]
    push_cast; ring
  have h8 : mtb_ptr_advance 0 ((i32size : Int) * 2) = ((8 : Nat) : Int) := by
    have h := mtb_ptr_advance_natCast 0 8 (by omega)
    rw [i32size_eq]
    exact h
  have hsa' : mtb_ptr_advance 0 ((i32size : Int) * 2)
      + (((self.index_size * unit_size) % 4294967296 : Nat) : Int)
      = ((8 + 12 * n : Nat) : Int) := by
    rw [h8, unit_size_eq, hcount, Nat.mod_eq_of_lt (by omega)]
    push_cast; ring
  let m1 := m.poke 0 (be32Bytes self.index_size)
  let m2 := m1.poke 4 (be32Bytes self.primary_index)
  obtain ⟨m', hw, hs', hlb', hframe, hread⟩ :=
    writeUnits_readUnits (8 + 12 * n) self.index_units m2 8 0 htypes (by omega)
      (by show _ ≤ m._size; omega) (by show m._size < _; exact hsize)
  rw [hn] at hread
  rw [Nat.cast_zero] at hw hread
  have e0 : (0 : Int) = ((0 : Nat) : Int) := rfl
  have e4 : ((0 : Int) + 4) = ((4 : Nat) : Int) := rfl
  have e8 : ((0 : Int) + 8) = ((8 : Nat) : Int) := rfl
  refine ⟨{ self with index_units := assignNameIndexes 0 self.index_units }, m',
    { index_size := self.index_size, primary_index := self.primary_index,
      index_units := assignNameIndexes 0 self.index_units }, ?_, by rw [hs']; rfl,
    by rw [hlb']; rfl, ?_, rfl, rfl, ?_⟩
  · unfold saveToBuffer
    simp only [Option.bind_eq_bind]
    rw [hsa, e4, e8]
    nth_rewrite 1 [e0]
    rw [store32_natCast m 0 _ (by omega), Option.some_bind,
      store32_natCast m1 4 _ (by show _ ≤ m._size; omega), Option.some_bind, hw]
    rfl
  · have hl0 : m'.load32 ((0 : Nat) : Int) = some self.index_size := by
      rw [load32_congr m2 m' 0 hs' (fun x _ _ => hframe x (by omega))]
      show (m1.poke 4 _).load32 _ = _
      rw [load32_poke_outside _ _ _ _ (by omega)]
      show (m.poke 0 _).load32 _ = _
      rw [load32_poke_be32 _ _ _ (by omega), Nat.mod_eq_of_lt (by omega)]
    have hl4 : m'.load32 ((4 : Nat) : Int) = some self.primary_index := by
      rw [load32_congr m2 m' 4 hs' (fun x _ _ => hframe x (by omega))]
      show (m1.poke 4 _).load32 _ = _
      rw [load32_poke_be32 _ _ _ (by show _ ≤ m._size; omega), Nat.mod_eq_of_lt hprimary]
    unfold LoadFromBuffer
    simp only [Option.bind_eq_bind]
    rw [e4]
    nth_rewrite 1 [e0]
    rw [hl0, Option.some_bind, hl4, Option.some_bind, hsa', h8, hcount, hread]
    rfl
  · unfold columns
    exact assignNameIndexes_columns _ 0

end mygsql
/-! ## Lemmas: the creating constructor -/

namespace mygsql

open MTB MTB.FileMapper

theorem columnsSize_cons (i : StorageTypeItem) (rest : List StorageTypeItem) :
    columnsSize (i :: rest) = DataTypeGetSize i.type + columnsSize rest := by
  simp [columnsSize]

theorem DataTypeGetSize_le (ty : ValueType) : DataTypeGetSize ty ≤ 260 := by
  unfold DataTypeGetSize
  split
  · omega
  · split <;> omega

namespace StorageTable

/-- One pass of the offset loop of the creating constructor. -/
theorem createStep_eq (off : Nat) (pos : Nat) (self : StorageTable) (i : StorageTypeItem)
    (h : off + 4 + DataTypeGetSize i.type < 2147483648) :
    createStep ((off : Int), pos, self) i
      = (((off + DataTypeGetSize i.type : Nat) : Int), pos + 1,
          { self with
            _type_item_list := self._type_item_list.set pos { i with offset := off + 4 }
            _type_item_map := mapInsert self._type_item_map i.name pos
            _primary_index_order :=
              if self._primary_index_order = 0xFFFFFFFF ∧ i.is_primary = true then 0
              else self._primary_index_order }) := by
  have h1 : toUInt32 ((off : Int) + (i32size : Int)) = off + 4 := by
    rw [i32size_eq, ← Nat.cast_add]; exact toUInt32_natCast _ (by omega)
  have h2 : toInt32 ((off : Int) + (DataTypeGetSize i.type : Int))
      = ((off + DataTypeGetSize i.type : Nat) : Int) := by
    rw [← Nat.cast_add]; exact toInt32_natCast _ (by omega)
  have h3 : toUInt32 (0 : Int) = 0 := by decide
  unfold createStep
  simp only [h1, h2, h3]
  split <;> rfl

/-- The offset loop of the creating constructor, started after the columns
`pre` have been processed. -/
theorem foldl_createStep (suf : List StorageTypeItem) :
    ∀ (pre : List StorageTypeItem) (off : Nat) (self : StorageTable),
      self._type_item_list = pre ++ suf →
      off + 4 + columnsSize suf < 2147483648 →
      suf.foldl createStep ((off : Int), pre.length, self)
        = (((off + columnsSize suf : Nat) : Int), pre.length + suf.length,
            { self with
              _type_item_list := pre ++ withOffsets (off + 4) suf
              _type_item_map := insertNames self._type_item_map pre.length (suf.map fun i => i.name)
              _primary_index_order := createPrimary self._primary_index_order suf }) := by
  induction suf with
  | nil =>
    intro pre off self hl _
    simp only [List.foldl_nil, columnsSize, List.map_nil, List.sum_nil, Nat.add_zero,
      List.length_nil, withOffsets, insertNames, createPrimary, List.append_nil]
    rw [List.append_nil] at hl
    rw [← hl]
  | cons i rest ih =>
    intro pre off self hl hb
    rw [columnsSize_cons] at hb
    have hsz := DataTypeGetSize_le i.type
    rw [List.foldl_cons, createStep_eq off pre.length self i (by omega)]
    have hset : self._type_item_list.set pre.length { i with offset := off + 4 }
        = (pre ++ [{ i with offset := off + 4 }]) ++ rest := by
      rw [hl, List.set_append_right _ _ (Nat.le_refl _)]
      simp
    have hlen : (pre ++ [({ i with offset := off + 4 } : StorageTypeItem)]).length
        = pre.length + 1 := by simp
    rw [← hlen, ih (pre ++ [({ i with offset := off + 4 } : StorageTypeItem)])
      (off + DataTypeGetSize i.type)
      { self with
        _type_item_list := self._type_item_list.set pre.length { i with offset := off + 4 }
        _type_item_map := mapInsert self._type_item_map i.name pre.length
        _primary_index_order :=
          if self._primary_index_order = 0xFFFFFFFF ∧ i.is_primary = true then 0
          else self._primary_index_order }
      hset (by omega)]
    simp only [columnsSize_cons, List.length_cons, withOffsets, List.map_cons, insertNames,
      createPrimary, List.foldl_cons, hlen, List.append_assoc, List.singleton_append]
    have e1 : off + DataTypeGetSize i.type + columnsSize rest
        = off + (DataTypeGetSize i.type + columnsSize rest) := by omega
    have e2 : pre.length + 1 + rest.length = pre.length + (rest.length + 1) := by omega
    have e3 : off + DataTypeGetSize i.type + 4 = off + 4 + DataTypeGetSize i.type := by omega
    rw [e1, e2, e3]

end StorageTable

end mygsql

/-! ## Lemmas: name maps and packed offsets -/

namespace mygsql

open MTB

/-- A key that is present keeps its value when another key is inserted. -/
theorem mapInsert_lookup_of_isSome {V : Type} (m : List (List Byte × V)) (k key : List Byte)
    (v : V) (h : (m.lookup key).isSome = true) :
    (mapInsert m k v).lookup key = m.lookup key := by
  unfold mapInsert
  split
  · rfl
  · rw [List.lookup_append]
    cases hk : m.lookup key with
    | none => rw [hk] at h; simp at h
    | some x => rfl

/-- A key that is absent is found after it has been inserted. -/
theorem mapInsert_lookup_self {V : Type} (m : List (List Byte × V)) (k : List Byte) (v : V)
    (h : m.lookup k = none) : (mapInsert m k v).lookup k = some v := by
  unfold mapInsert
  rw [h]
  simp [List.lookup_append, h]

/-- Inserting a key does not make another key appear. -/
theorem mapInsert_lookup_ne {V : Type} (m : List (List Byte × V)) (k key : List Byte) (v : V)
    (hne : key ≠ k) (h : m.lookup key = none) : (mapInsert m k v).lookup key = none := by
  unfold mapInsert
  split
  · exact h
  · rw [List.lookup_append, h]
    have hb : (key == k) = false := by simpa using hne
    simp [List.lookup_cons, hb]

theorem insertNames_lookup_of_isSome (names : List (List Byte)) :
    ∀ (m : List (List Byte × Nat)) (pos : Nat) (key : List Byte),
      (m.lookup key).isSome = true → (insertNames m pos names).lookup key = m.lookup key := by
  induction names with
  | nil => intro m pos key _; rfl
  | cons k rest ih =>
    intro m pos key h
    have h1 := mapInsert_lookup_of_isSome m k key pos h
    rw [insertNames, ih (mapInsert m k pos) (pos + 1) key (by rw [h1]; exact h), h1]

/-- With distinct names none of which is in the map yet, the `k`-th name is
found at position `pos + k`. -/
theorem insertNames_lookup (names : List (List Byte)) :
    ∀ (m : List (List Byte × Nat)) (pos k : Nat) (key : List Byte),
      names.Nodup → (∀ n ∈ names, m.lookup n = none) → names[k]? = some key →
      (insertNames m pos names).lookup key = some (pos + k) := by
  induction names with
  | nil => intro m pos k key _ _ h; simp at h
  | cons n rest ih =>
    intro m pos k key hnd hm hk
    rw [List.nodup_cons] at hnd
    rw [insertNames]
    cases k with
    | zero =>
      simp only [List.getElem?_cons_zero, Option.some.injEq] at hk
      subst hk
      have h1 := mapInsert_lookup_self m n pos (hm n (List.mem_cons_self _ _))
      rw [insertNames_lookup_of_isSome rest _ _ n (by rw [h1]; rfl), h1]
      rfl
    | succ k' =>
      simp only [List.getElem?_cons_succ] at hk
      rw [ih (mapInsert m n pos) (pos + 1) k' key hnd.2 ?_ hk]
      · congr 1; omega
      · intro n' hn'
        exact mapInsert_lookup_ne m n n' pos (fun e => hnd.1 (e ▸ hn'))
          (hm n' (List.mem_cons_of_mem _ hn'))

theorem withOffsets_length (items : List StorageTypeItem) :
    ∀ off, (withOffsets off items).length = items.length := by
  induction items with
  | nil => intro off; rfl
  | cons i rest ih => intro off; simp [withOffsets, ih]

theorem offsetsFrom_withOffsets (items : List StorageTypeItem) :
    ∀ off, offsetsFrom off (withOffsets off items) = true := by
  induction items with
  | nil => intro off; rfl
  | cons i rest ih => intro off; simp [withOffsets, offsetsFrom, ih]

theorem columnsSize_withOffsets (items : List StorageTypeItem) :
    ∀ off, columnsSize (withOffsets off items) = columnsSize items := by
  induction items with
  | nil => intro off; rfl
  | cons i rest ih =>
    intro off
    simp only [withOffsets, columnsSize_cons, ih]

/-- The `k`-th column of the packed layout: the caller's item with the offset
`off` plus the sizes of the columns before it. -/
theorem withOffsets_getElem? (items : List StorageTypeItem) :
    ∀ (off k : Nat) (i : StorageTypeItem), items[k]? = some i →
      (withOffsets off items)[k]?
        = some { i with offset := off + columnsSize (items.take k) } := by
  induction items with
  | nil => intro off k i h; simp at h
  | cons j rest ih =>
    intro off k i h
    cases k with
    | zero =>
      simp only [List.getElem?_cons_zero, Option.some.injEq] at h
      subst h
      simp [withOffsets, columnsSize]
    | succ k' =>
      simp only [List.getElem?_cons_succ] at h
      simp only [withOffsets, List.getElem?_cons_succ, List.take_succ_cons, columnsSize_cons]
      rw [ih _ k' i h]
      congr 2
      omega

end mygsql
/-! ## Lemmas: building and saving the index file of a new table -/

namespace mygsql

open MTB MTB.FileMapper

namespace IndexFile

theorem primaryOrdinal_bound (items : List StorageTypeItem) :
    ∀ cnt, primaryOrdinal cnt items = 0xFFFFFFFF ∨
      (cnt ≤ primaryOrdinal cnt items ∧ primaryOrdinal cnt items < cnt + items.length) := by
  induction items with
  | nil => intro cnt; exact Or.inl rfl
  | cons i rest ih =>
    intro cnt
    unfold primaryOrdinal
    split
    · right; simp
    · rcases ih (cnt + 1) with h | h
      · exact Or.inl h
      · right; simp only [List.length_cons]; omega

/-- The loop of `CreateFromTypeList`, started with the counter at `cnt`. -/
theorem foldl_CreateFromTypeList_step (suf : List StorageTypeItem) :
    ∀ (f : IndexFile) (cnt : Nat), cnt + suf.length < 2147483648 →
      suf.foldl CreateFromTypeList.step (f, (cnt : Int))
        = ({ index_size := f.index_size
             primary_index :=
               if f.primary_index = 0xFFFFFFFF then primaryOrdinal cnt suf else f.primary_index
             index_units := f.index_units ++ suf.map unitOf },
           ((cnt + suf.length : Nat) : Int)) := by
  induction suf with
  | nil =>
    intro f cnt _
    have hp : (if f.primary_index = 0xFFFFFFFF then primaryOrdinal cnt [] else f.primary_index)
        = f.primary_index := by
      unfold primaryOrdinal
      split
      · next h => exact h.symm
      · rfl
    rw [hp]
    simp
  | cons i rest ih =>
    intro f cnt hb
    rw [List.length_cons] at hb
    have hc : toUInt32 (cnt : Int) = cnt := toUInt32_natCast _ (by omega)
    have hn : toInt32 ((cnt : Int) + 1) = ((cnt + 1 : Nat) : Int) := by
      have := toInt32_natCast (cnt + 1) (by omega)
      rw [← this]; push_cast; rfl
    have hstep : CreateFromTypeList.step (f, (cnt : Int)) i
        = ({ index_size := f.index_size
             primary_index :=
               if i.is_primary = true ∧ f.primary_index = 0xFFFFFFFF then cnt
               else f.primary_index
             index_units := f.index_units ++ [unitOf i] }, ((cnt + 1 : Nat) : Int)) := by
      unfold CreateFromTypeList.step
      simp only [hc, hn]
      split <;> rfl
    have hprim :
        (if (if i.is_primary = true ∧ f.primary_index = 0xFFFFFFFF then cnt
              else f.primary_index) = 0xFFFFFFFF
          then primaryOrdinal (cnt + 1) rest
          else (if i.is_primary = true ∧ f.primary_index = 0xFFFFFFFF then cnt
              else f.primary_index))
        = (if f.primary_index = 0xFFFFFFFF then primaryOrdinal cnt (i :: rest)
            else f.primary_index) := by
      have hne : ¬ (cnt = 0xFFFFFFFF) := by omega
      have hpo : primaryOrdinal cnt (i :: rest)
          = if i.is_primary = true then cnt else primaryOrdinal (cnt + 1) rest := rfl
      rw [hpo]
      by_cases hp : i.is_primary = true
      · by_cases hf : f.primary_index = 0xFFFFFFFF
        · have h1 : (if i.is_primary = true ∧ f.primary_index = 0xFFFFFFFF then cnt
              else f.primary_index) = cnt := if_pos ⟨hp, hf⟩
          rw [h1, if_neg hne, if_pos hf, if_pos hp]
        · have h1 : (if i.is_primary = true ∧ f.primary_index = 0xFFFFFFFF then cnt
              else f.primary_index) = f.primary_index := if_neg (fun h => hf h.2)
          rw [h1, if_neg hf, if_neg hf]
      · have h1 : (if i.is_primary = true ∧ f.primary_index = 0xFFFFFFFF then cnt
            else f.primary_index) = f.primary_index := if_neg (fun h => hp h.1)
        rw [h1, if_neg hp]
    rw [List.foldl_cons, hstep, ih _ (cnt + 1) (by omega)]
    simp only [List.map_cons, List.length_cons, List.append_assoc, List.singleton_append]
    have e : cnt + 1 + rest.length = cnt + (rest.length + 1) := by omega
    rw [e, hprim]

/-- `CreateFromTypeList` records the column count, the ordinal of the first
primary column and one unit per column. -/
theorem CreateFromTypeList_eq (items : List StorageTypeItem)
    (h : items.length < 2147483648) :
    CreateFromTypeList items = ofSchema items := by
  unfold CreateFromTypeList ofSchema
  have h0 : toUInt32 (items.length : Int) = items.length := toUInt32_natCast _ (by omega)
  have := foldl_CreateFromTypeList_step items
    { index_size := toUInt32 items.length, primary_index := 0xFFFFFFFF, index_units := [] } 0
    (by omega)
  rw [Nat.cast_zero] at this
  rw [this, h0]
  simp

theorem namesLength_map_unitOf (items : List StorageTypeItem) :
    namesLength (items.map unitOf) = ((items.map fun i => i.name.length).sum) := by
  unfold namesLength
  rw [List.map_map]
  rfl

/-- `get_storage_size()` is the serialised size as long as that fits 32 bits. -/
theorem get_storage_size_eq (self : IndexFile) (h : self.serializedSize < 4294967296) :
    self.get_storage_size = self.serializedSize := by
  unfold get_storage_size serializedSize namesLength at *
  rw [i32size_eq, unit_size_eq]
  have key : ∀ (us : List IndexUnit) (a : Nat),
      a + (us.map fun u => u.name.length).sum < 4294967296 →
      us.foldl (fun size i => (size + i.name.length) % 4294967296) a
        = a + (us.map fun u => u.name.length).sum := by
    intro us
    induction us with
    | nil => intro a _; simp
    | cons u rest ih =>
      intro a ha
      simp only [List.map_cons, List.sum_cons] at ha
      rw [List.foldl_cons, Nat.mod_eq_of_lt (by omega), ih _ (by omega)]
      simp only [List.map_cons, List.sum_cons]
      omega
  rw [Nat.mod_eq_of_lt (by omega), key _ _ (by omega)]
  omega

end IndexFile

namespace StorageTable

/-- The grow loop of `_createIndexFile` does nothing when the index file fits
in the mapping. -/
theorem growIndexMapper_fits (mapper_size fuel : Nat) (m : FileMapper)
    (hsize : m._size < 2147483648) (hfit : mapper_size < m._size) :
    growIndexMapper mapper_size (fuel + 1) m = some m := by
  have hsz : toSizeT m.get_file_size = m._size := by
    unfold get_file_size
    rw [toInt32_natCast _ (by omega)]
    exact toSizeT_natCast _ (by omega)
  rw [growIndexMapper, hsz, if_neg (by omega)]

/-- The grow loop of `_createIndexFile` does not return when the index file
does not fit in the mapping of a file the mapper created: `resizeAppend`
throws. -/
theorem growIndexMapper_created (mapper_size fuel : Nat) (m : FileMapper)
    (hstat : m._file_stat = none) (hsize : m._size < 2147483648)
    (hfit : m._size ≤ mapper_size) :
    growIndexMapper mapper_size fuel m = none := by
  cases fuel with
  | zero => rfl
  | succ n =>
    have hsz : toSizeT m.get_file_size = m._size := by
      unfold get_file_size
      rw [toInt32_natCast _ (by omega)]
      exact toSizeT_natCast _ (by omega)
    have hr : m.resizeAppend = none := by
      unfold resizeAppend
      rw [hstat]
      split <;> rfl
    rw [growIndexMapper, hsz, if_pos hfit, hr]
    rfl

end StorageTable

end mygsql

namespace mygsql

open MTB MTB.FileMapper IndexFile

theorem map_unitOf_withOffsets (items : List StorageTypeItem) :
    ∀ off, (withOffsets off items).map unitOf = items.map unitOf := by
  induction items with
  | nil => intro off; rfl
  | cons i rest ih => intro off; simp only [withOffsets, List.map_cons, ih]; rfl

theorem primaryOrdinal_withOffsets (items : List StorageTypeItem) :
    ∀ off cnt, primaryOrdinal cnt (withOffsets off items) = primaryOrdinal cnt items := by
  induction items with
  | nil => intro off cnt; rfl
  | cons i rest ih => intro off cnt; simp only [withOffsets, primaryOrdinal, ih]

theorem map_name_withOffsets (items : List StorageTypeItem) :
    ∀ off, (withOffsets off items).map (fun i => i.name) = items.map (fun i => i.name) := by
  induction items with
  | nil => intro off; rfl
  | cons i rest ih => intro off; simp only [withOffsets, List.map_cons, ih]

namespace StorageTable

/-- `_createEntryFile` on a block of at least four bytes. -/
theorem createEntryFile_eq (self : StorageTable) (block : Nat) (h : 4 ≤ block) :
    self._createEntryFile block
      = some { self with
          _entry_mapper := some ((FileMapper.ofCreated block).poke 0 (be32Bytes 0)) } := by
  unfold _createEntryFile
  have := store32_natCast (FileMapper.ofCreated block) 0 0 (by show 0 + 4 ≤ block; omega)
  rw [Nat.cast_zero] at this
  simp only [Option.bind_eq_bind]
  rw [CreateFileMapper_none block (by omega), Option.some_bind, this]
  rfl

/-- `_createIndexFile` saves an index file from which `LoadFromBuffer` recovers
the column count, the first primary ordinal and the names and types. -/
theorem createIndexFile_eq (self : StorageTable) (block : Nat) (items : List StorageTypeItem)
    (hlist : self._type_item_list.map unitOf = items.map unitOf)
    (hprim : primaryOrdinal 0 self._type_item_list = primaryOrdinal 0 items)
    (hfit : schemaIndexSize items < block) (hblk : block < 2147483648)
    (htypes : ∀ i ∈ items, i.type = ValueType.INT ∨ i.type = ValueType.STRING) :
    ∃ idxm loaded, self._createIndexFile block = some { self with _index_mapper := some idxm } ∧
      idxm._logical_block = block ∧ idxm._size < 2147483648 ∧
      LoadFromBuffer idxm 0 = some loaded ∧
      loaded.index_size = items.length ∧
      loaded.primary_index = primaryOrdinal 0 items ∧
      loaded.columns = items.map (fun i => (i.name, i.type)) := by
  have hlen : self._type_item_list.length = items.length := by
    have := congrArg List.length hlist
    simpa using this
  have hn : items.length < 2147483648 := by unfold schemaIndexSize at hfit; omega
  have hF : CreateFromTypeList self._type_item_list = ofSchema items := by
    rw [CreateFromTypeList_eq _ (by omega)]
    unfold ofSchema
    rw [hlen, hlist, hprim]
  have hser : (ofSchema items).serializedSize = schemaIndexSize items := by
    unfold serializedSize schemaIndexSize ofSchema
    simp only [List.length_map, namesLength_map_unitOf]
  have hms := get_storage_size_eq (ofSchema items) (by rw [hser]; omega)
  rw [hser] at hms
  have hg : growIndexMapper (schemaIndexSize items) (schemaIndexSize items + 1)
      (FileMapper.ofCreated block) = some (FileMapper.ofCreated block) :=
    growIndexMapper_fits _ _ _ hblk hfit
  have hg2' : (FileMapper.ofCreated block)._size = block := rfl
  have hg3' : (FileMapper.ofCreated block)._logical_block = block := rfl
  have hprimary : primaryOrdinal 0 items < 4294967296 := by
    rcases primaryOrdinal_bound items 0 with h | h
    · rw [h]; decide
    · omega
  obtain ⟨saved, m', loaded, hsave, hs', hlb', hload, h1, h2, h3⟩ :=
    saveToBuffer_LoadFromBuffer (ofSchema items) (FileMapper.ofCreated block)
      (by simp [ofSchema]) hprimary
      (by
        intro u hu
        simp only [ofSchema] at hu
        rw [List.mem_map] at hu
        obtain ⟨i, hi, rfl⟩ := hu
        exact htypes i hi)
      (by rw [hser]; omega) (by omega)
  refine ⟨m', loaded, ?_, by rw [hlb', hg3'], by rw [hs']; omega, hload, h1, h2, ?_⟩
  · unfold _createIndexFile
    simp only [Option.bind_eq_bind]
    rw [CreateFileMapper_none block (by omega), Option.some_bind, hF, hms, hg,
      Option.some_bind, hsave]
    rfl
  · rw [h3]
    unfold columns ofSchema
    simp only [List.map_map]
    rfl

/-- `_createIndexFile` does not return when the index file does not fit in one
block: the constructor of the mapper throws for an empty block, and the grow
loop calls `resizeAppend` on a mapper that created its file. -/
theorem createIndexFile_none (self : StorageTable) (block : Nat) (items : List StorageTypeItem)
    (hlist : self._type_item_list.map unitOf = items.map unitOf)
    (hprim : primaryOrdinal 0 self._type_item_list = primaryOrdinal 0 items)
    (hidx : schemaIndexSize items < 2147483648) (hblk : block < 2147483648)
    (hbig : block ≤ schemaIndexSize items) :
    self._createIndexFile block = none := by
  have hlen : self._type_item_list.length = items.length := by
    have := congrArg List.length hlist
    simpa using this
  have hn : items.length < 2147483648 := by unfold schemaIndexSize at hidx; omega
  have hF : CreateFromTypeList self._type_item_list = ofSchema items := by
    rw [CreateFromTypeList_eq _ (by omega)]
    unfold ofSchema
    rw [hlen, hlist, hprim]
  have hser : (ofSchema items).serializedSize = schemaIndexSize items := by
    unfold serializedSize schemaIndexSize ofSchema
    simp only [List.length_map, namesLength_map_unitOf]
  have hms := get_storage_size_eq (ofSchema items) (by rw [hser]; omega)
  rw [hser] at hms
  unfold _createIndexFile
  simp only [Option.bind_eq_bind]
  by_cases h0 : block = 0
  · subst h0
    rfl
  · rw [CreateFileMapper_none block h0, Option.some_bind, hF, hms,
      growIndexMapper_created _ _ (FileMapper.ofCreated block) rfl hblk hbig]
    rfl

end StorageTable

end mygsql

namespace mygsql.StorageTable

open MTB MTB.FileMapper IndexFile

/-- The creating constructor, in an empty directory, when the index file fits
in one block: the table it builds, and what `LoadFromBuffer` finds in the index
file it wrote. -/
theorem create_eq (block : Nat) (items : List StorageTypeItem)
    (hblock : 4 ≤ block)
    (hcols : 4 + columnsSize items < 2147483648)
    (hfit : schemaIndexSize items < block) (hblk : block < 2147483648)
    (htypes : ∀ i ∈ items, i.type = ValueType.INT ∨ i.type = ValueType.STRING) :
    ∃ idxm loaded, create false false block items = some (createdTable block items idxm) ∧
      idxm._logical_block = block ∧ idxm._size < 2147483648 ∧
      LoadFromBuffer idxm 0 = some loaded ∧
      loaded.index_size = items.length ∧
      loaded.primary_index = primaryOrdinal 0 items ∧
      loaded.columns = items.map (fun i => (i.name, i.type)) := by
  have hfold := foldl_createStep items [] 0
    { _entry_mapper := none, _index_mapper := none, _type_item_map := [],
      _type_item_list := items, _entry_size := 0, _entry_list_num := 0,
      _primary_index_order := 0xFFFFFFFF, _entry_allocator := some IDAllocator.empty,
      _type_item_index_map := [], _has_error := false } rfl (by omega)
  simp only [List.length_nil, Nat.cast_zero, Nat.zero_add, List.nil_append] at hfold
  have hS : toUInt32 ((columnsSize items : Nat) : Int) = columnsSize items :=
    toUInt32_natCast _ (by omega)
  obtain ⟨idxm, loaded, hci, h1, h2, h3, h4, h5, h6⟩ := createIndexFile_eq
    { _entry_mapper := none, _index_mapper := none,
      _type_item_map := insertNames [] 0 (items.map fun i => i.name),
      _type_item_list := withOffsets 4 items, _entry_size := columnsSize items,
      _entry_list_num := 0,
      _primary_index_order := createPrimary 0xFFFFFFFF items,
      _entry_allocator := some IDAllocator.empty,
      _type_item_index_map := keyIndexMap (withOffsets 4 items), _has_error := false }
    block items (map_unitOf_withOffsets items 4) (primaryOrdinal_withOffsets items 4 0)
    hfit hblk htypes
  refine ⟨idxm, loaded, ?_, h1, h2, h3, h4, h5, h6⟩
  unfold create
  simp only [Bool.or_self, Bool.false_eq_true, if_false, hfold, hS, Option.bind_eq_bind]
  unfold _initKeyIndexMap
  simp only []
  show Option.bind (_createIndexFile _ block) _ = _
  erw [hci, Option.some_bind, createEntryFile_eq _ block hblock]
  rfl

/-- The creating constructor does not return when the index file of the schema
does not fit in one block. -/
theorem create_none (block : Nat) (items : List StorageTypeItem)
    (hcols : 4 + columnsSize items < 2147483648)
    (hidx : schemaIndexSize items < 2147483648) (hblk : block < 2147483648)
    (hbig : block ≤ schemaIndexSize items) :
    create false false block items = none := by
  have hfold := foldl_createStep items [] 0
    { _entry_mapper := none, _index_mapper := none, _type_item_map := [],
      _type_item_list := items, _entry_size := 0, _entry_list_num := 0,
      _primary_index_order := 0xFFFFFFFF, _entry_allocator := some IDAllocator.empty,
      _type_item_index_map := [], _has_error := false } rfl (by omega)
  simp only [List.length_nil, Nat.cast_zero, Nat.zero_add, List.nil_append] at hfold
  have hS : toUInt32 ((columnsSize items : Nat) : Int) = columnsSize items :=
    toUInt32_natCast _ (by omega)
  have hci := createIndexFile_none
    { _entry_mapper := none, _index_mapper := none,
      _type_item_map := insertNames [] 0 (items.map fun i => i.name),
      _type_item_list := withOffsets 4 items, _entry_size := columnsSize items,
      _entry_list_num := 0,
      _primary_index_order := createPrimary 0xFFFFFFFF items,
      _entry_allocator := some IDAllocator.empty,
      _type_item_index_map := keyIndexMap (withOffsets 4 items), _has_error := false }
    block items (map_unitOf_withOffsets items 4) (primaryOrdinal_withOffsets items 4 0)
    hidx hblk hbig
  unfold create
  simp only [Bool.or_self, Bool.false_eq_true, if_false, hfold, hS, Option.bind_eq_bind]
  unfold _initKeyIndexMap
  simp only []
  show Option.bind (_createIndexFile _ block) _ = _
  erw [hci]
  rfl

end mygsql.StorageTable
/-! ## Lemmas: appending a row to slot 0 -/

namespace mygsql

open MTB MTB.FileMapper

theorem columnsSize_append (a b : List StorageTypeItem) :
    columnsSize (a ++ b) = columnsSize a + columnsSize b := by
  simp [columnsSize]

theorem withOffsets_append (a : List StorageTypeItem) :
    ∀ (off : Nat) (b : List StorageTypeItem),
      withOffsets off (a ++ b) = withOffsets off a ++ withOffsets (off + columnsSize a) b := by
  induction a with
  | nil => intro off b; simp [withOffsets, columnsSize]
  | cons i rest ih =>
    intro off b
    show _ :: withOffsets (off + DataTypeGetSize i.type) (rest ++ b) = _
    rw [ih, columnsSize_cons, Nat.add_assoc]
    rfl

theorem toUInt32_lt (x : Int) : toUInt32 x < 4294967296 := by
  unfold toUInt32; omega

/-- The word an INT value is stored as is read back as the value. -/
theorem toInt32_toUInt32_cast (v : Int) (h0 : -2147483648 ≤ v) (h1 : v < 2147483648) :
    toInt32 ((toUInt32 v : Nat) : Int) = v := by
  unfold toInt32 toUInt32
  omega

namespace StorageTable

/-- After `Entry::set` of a conforming value on a column of slot 0 the column
holds the value; only bytes of the column change. -/
theorem Entry.set_holds (t : StorageTable) (e : Entry) (m : FileMapper) (name : List Byte)
    (pos : Nat) (c : StorageTypeItem) (v : Value)
    (hm : t._entry_mapper = some m)
    (hname : t._type_item_map.lookup name = some pos)
    (hcol : t._type_item_list[pos]? = some c)
    (he : e._header_index = 0)
    (hconf : v.conformsTo c.type = true)
    (hin : 4 + c.offset + DataTypeGetSize c.type ≤ m._size) :
    ∃ m', Entry.set t e name v = some (true, { t with _entry_mapper := some m' }) ∧
      m'._size = m._size ∧ m'._logical_block = m._logical_block ∧
      (∀ x, x < 4 + c.offset ∨ 4 + c.offset + DataTypeGetSize c.type ≤ x →
        m'._memory x = m._memory x) ∧
      holdsValue m' (4 + c.offset) v := by
  have hset := Entry.set_target t e c.offset (by rw [he]; omega)
  rw [he, Nat.mul_zero, Nat.add_zero] at hset
  cases v with
  | IntValue x =>
    simp only [Value.conformsTo, decide_eq_true_eq] at hconf
    rw [hconf.1, DataTypeGetSize_INT] at hin ⊢
    refine ⟨m.poke (4 + c.offset) (be32Bytes (toUInt32 x)), ?_, rfl, rfl, ?_, ?_⟩
    · exact Entry.setInt_eq t e m name pos c _ x hm hname hcol hconf.1 hset hin
    · intro y hy
      exact poke_memory_outside _ _ _ _ (by rw [be32Bytes_length]; omega)
    · show (m.poke _ _).load32 _ = _
      rw [load32_poke_be32 _ _ _ hin, Nat.mod_eq_of_lt (toUInt32_lt x)]
  | StringValue s =>
    simp only [Value.conformsTo, decide_eq_true_eq] at hconf
    rw [hconf.1, DataTypeGetSize_STRING] at hin ⊢
    have hs := hconf.2
    refine ⟨(m.poke (4 + c.offset) (be32Bytes s.length)).poke (4 + c.offset + 4) s, ?_, rfl, rfl,
      ?_, ?_, ?_⟩
    · exact Entry.setString_eq t e m name pos c _ s hm hname hcol hconf.1 hset hs (by omega)
    · intro y hy
      rw [poke_memory_outside _ _ _ _ (by omega),
        poke_memory_outside _ _ _ _ (by rw [be32Bytes_length]; omega)]
    · rw [load32_poke_outside _ _ _ _ (by omega), load32_poke_be32 _ _ _ (by omega),
        Nat.mod_eq_of_lt (by omega)]
    · exact readBytes_poke _ _ s (by show _ ≤ m._size; omega)

/-- What a column holds does not change when the bytes of the column do not. -/
theorem holdsValue_congr (m m' : FileMapper) (a : Nat) (v : Value) (ty : ValueType)
    (hconf : v.conformsTo ty = true) (hs : m'._size = m._size)
    (h : ∀ x, a ≤ x → x < a + DataTypeGetSize ty → m'._memory x = m._memory x)
    (hv : holdsValue m a v) : holdsValue m' a v := by
  cases v with
  | IntValue x =>
    simp only [Value.conformsTo, decide_eq_true_eq] at hconf
    rw [hconf.1, DataTypeGetSize_INT] at h
    unfold holdsValue at hv ⊢
    rw [load32_congr m m' a hs h]
    exact hv
  | StringValue s =>
    simp only [Value.conformsTo, decide_eq_true_eq] at hconf
    rw [hconf.1, DataTypeGetSize_STRING] at h
    obtain ⟨h1, h2⟩ := hv
    refine ⟨?_, ?_⟩
    · rw [load32_congr m m' a hs (fun x h1 h2 => h x h1 (by omega))]
      exact h1
    · rw [readBytes_congr m m' (a + 4) s.length hs (fun x h1 h2 => h x (by omega) (by omega))]
      exact h2

theorem rowConforms_nil_left (vals : List Value) (h : rowConforms [] vals = true) :
    vals = [] := by
  cases vals with
  | nil => rfl
  | cons v vs => simp [rowConforms] at h

theorem rowConforms_cons_left (c : StorageTypeItem) (rest : List StorageTypeItem)
    (vals : List Value) (h : rowConforms (c :: rest) vals = true) :
    ∃ v vs, vals = v :: vs ∧ v.conformsTo c.type = true ∧ rowConforms rest vs = true := by
  cases vals with
  | nil => simp [rowConforms] at h
  | cons v vs =>
    simp only [rowConforms, Bool.and_eq_true] at h
    exact ⟨v, vs, rfl, h.1, h.2⟩

/-- The column loop of `appendEntry` on slot 0 of a table with distinct column
names and the packed layout, for a conforming row whose slot lies inside the
mapping: every `set` succeeds, only column bytes change, and afterwards every
column holds its value. -/
theorem appendValues_spec (e : Entry) (he : e._header_index = 0)
    (items : List StorageTypeItem) (hnd : (items.map fun i => i.name).Nodup) :
    ∀ (suf : List StorageTypeItem) (vals : List Value) (pre : List StorageTypeItem)
      (t : StorageTable) (m : FileMapper),
      items = pre ++ suf →
      t._entry_mapper = some m →
      t._type_item_list = withOffsets 4 items →
      t._type_item_map = insertNames [] 0 (items.map fun i => i.name) →
      rowConforms suf vals = true →
      8 + columnsSize items ≤ m._size →
      ∃ m', appendValues e t pre.length vals = some { t with _entry_mapper := some m' } ∧
        m'._size = m._size ∧ m'._logical_block = m._logical_block ∧
        (∀ x, x < 8 + columnsSize pre ∨ 8 + columnsSize items ≤ x →
          m'._memory x = m._memory x) ∧
        (∀ (j : Nat) (c : StorageTypeItem) (v : Value), suf[j]? = some c → vals[j]? = some v →
          holdsValue m' (8 + columnsSize pre + columnsSize (suf.take j)) v) := by
  intro suf
  induction suf with
  | nil =>
    intro vals pre t m _ hm _ _ hconf _
    rw [rowConforms_nil_left vals hconf]
    refine ⟨m, ?_, rfl, rfl, fun _ _ => rfl, ?_⟩
    · rw [appendValues, ← hm]
    · intro j c v hj; simp at hj
  | cons c rest ih =>
    intro vals pre t m hitems hm hlist hmap hconf hfit
    obtain ⟨v, vs, rfl, hv, hvs⟩ := rowConforms_cons_left c rest vals hconf
    have hS : columnsSize items = columnsSize pre + (DataTypeGetSize c.type + columnsSize rest) := by
      rw [hitems, columnsSize_append, columnsSize_cons]
    -- the column at position `pre.length`
    have hcol : t._type_item_list[pre.length]?
        = some { c with offset := 4 + columnsSize pre } := by
      rw [hlist, hitems, withOffsets_append,
        List.getElem?_append_right (by rw [withOffsets_length]), withOffsets_length,
        Nat.sub_self]
      simp only [withOffsets, List.getElem?_cons_zero]
    have hname : t._type_item_map.lookup c.name = some pre.length := by
      have := insertNames_lookup (items.map fun i => i.name) [] 0 pre.length c.name hnd
        (fun _ _ => rfl)
        (by
          rw [hitems, List.map_append, List.map_cons,
            List.getElem?_append_right (by rw [List.length_map]), List.length_map, Nat.sub_self,
            List.getElem?_cons_zero])
      rw [hmap, this, Nat.zero_add]
    obtain ⟨m1, hset, hs1, hlb1, hframe1, hold1⟩ := Entry.set_holds t e m c.name pre.length
      { c with offset := 4 + columnsSize pre } v hm hname hcol he hv
      (by show 4 + (4 + columnsSize pre) + DataTypeGetSize c.type ≤ m._size; omega)
    have hitems' : items = (pre ++ [c]) ++ rest := by rw [hitems]; simp
    have hpre' : columnsSize (pre ++ [c]) = columnsSize pre + DataTypeGetSize c.type := by
      rw [columnsSize_append, columnsSize_cons]; simp [columnsSize]
    obtain ⟨m', happ, hs', hlb', hframe', hold'⟩ := ih vs (pre ++ [c])
      { t with _entry_mapper := some m1 } m1 hitems' rfl hlist hmap hvs (by rw [hs1]; exact hfit)
    rw [hpre'] at hframe' hold'
    refine ⟨m', ?_, by rw [hs', hs1], by rw [hlb', hlb1], ?_, ?_⟩
    · rw [appendValues]
      simp only [Option.bind_eq_bind]
      rw [hcol, Option.some_bind]
      show Option.bind (Entry.set t e c.name v) _ = _
      rw [hset, Option.some_bind]
      have hl : (pre ++ [c]).length = pre.length + 1 := by simp
      rw [hl] at happ
      exact happ
    · intro x hx
      rw [hframe' x (by omega)]
      exact hframe1 x (by show x < 4 + (4 + columnsSize pre) ∨
        4 + (4 + columnsSize pre) + DataTypeGetSize c.type ≤ x; omega)
    · intro j c' v' hj hv'
      cases j with
      | zero =>
        simp only [List.getElem?_cons_zero, Option.some.injEq] at hj hv'
        subst hj; subst hv'
        have h0 : ∀ l : List StorageTypeItem, columnsSize (List.take 0 l) = 0 := fun _ => rfl
        rw [h0, Nat.add_zero]
        have h4 : 4 + (4 + columnsSize pre) = 8 + columnsSize pre := by omega
        rw [h4] at hold1
        exact holdsValue_congr m1 m' _ _ _ hv hs'
          (fun x h1 h2 => hframe' x (Or.inl (by omega))) hold1
      | succ j' =>
        simp only [List.getElem?_cons_succ] at hj hv'
        have := hold' j' c' v' hj hv'
        rw [List.take_succ_cons, columnsSize_cons]
        have e : 8 + columnsSize pre + (DataTypeGetSize c.type + columnsSize (List.take j' rest))
            = 8 + (columnsSize pre + DataTypeGetSize c.type) + columnsSize (List.take j' rest) := by
          omega
        rw [e]
        exact this

end StorageTable

end mygsql

namespace mygsql.StorageTable

open MTB MTB.FileMapper

/-- `Entry::get` returns the value a column of slot 0 holds. -/
theorem Entry.get_of_holds (t : StorageTable) (e : Entry) (m : FileMapper) (name : List Byte)
    (pos : Nat) (c : StorageTypeItem) (v : Value)
    (hm : t._entry_mapper = some m)
    (hname : t._type_item_map.lookup name = some pos)
    (hcol : t._type_item_list[pos]? = some c)
    (he : e._header_index = 0)
    (hconf : v.conformsTo c.type = true)
    (hoff : c.offset < 2147483648)
    (hv : holdsValue m (4 + c.offset) v) :
    Entry.get t e name = some (some v) := by
  have hget := Entry.get_target t e c.offset (by rw [he]; omega) hoff
  rw [he, Nat.mul_zero, Nat.add_zero] at hget
  cases v with
  | IntValue x =>
    simp only [Value.conformsTo, decide_eq_true_eq] at hconf
    have := Entry.get_int_eq t e m name pos c (4 + c.offset) (toUInt32 x) hm hname hcol hconf.1
      (by rw [he]; exact hget) hv
    rw [this, toInt32_toUInt32_cast x hconf.2.1 hconf.2.2]
  | StringValue s =>
    simp only [Value.conformsTo, decide_eq_true_eq] at hconf
    exact Entry.get_string_eq t e m name pos c (4 + c.offset) s.length s hm hname hcol hconf.1
      (by rw [he]; exact hget) (by omega) hv.1 hv.2

end mygsql.StorageTable
/-! ## Lemmas: the allocator and allocateEntry -/

namespace MTB.IDAllocator

theorem entryAt_some_bound (l : List Entry) (i : Int) (e : Entry) (h : entryAt l i = some e) :
    0 ≤ i ∧ i.toNat < l.length := by
  unfold entryAt at h
  split at h
  · rename_i h0
    exact ⟨h0, (List.getElem?_eq_some.mp h).1⟩
  · cases h

theorem entryStore_length (l l' : List Entry) (i : Int) (e : Entry)
    (h : entryStore l i e = some l') : l'.length = l.length := by
  unfold entryStore at h
  split at h
  · cases h; simp
  · cases h

theorem setNext_length (l l' : List Entry) (i v : Int) (h : setNext l i v = some l') :
    l'.length = l.length := by
  unfold setNext at h
  rw [Option.bind_eq_some] at h
  obtain ⟨e, _, h2⟩ := h
  exact entryStore_length l l' i _ h2

theorem setPrev_length (l l' : List Entry) (i v : Int) (h : setPrev l i v = some l') :
    l'.length = l.length := by
  unfold setPrev at h
  rw [Option.bind_eq_some] at h
  obtain ⟨e, _, h2⟩ := h
  exact entryStore_length l l' i _ h2

theorem setNext_entryAt (l l' : List Entry) (i v : Int) (h : setNext l i v = some l') :
    ∃ e, entryAt l' i = some e ∧ e.next = v := by
  unfold setNext at h
  rw [Option.bind_eq_some] at h
  obtain ⟨e, _, h2⟩ := h
  unfold entryStore at h2
  split at h2
  · rename_i hb
    cases h2
    refine ⟨{ e with next := v }, ?_, rfl⟩
    unfold entryAt
    rw [if_pos hb.1]
    simp [hb.2]
  · cases h2

theorem ite_setPrev_length (c : Prop) [Decidable c] (l l' : List Entry) (i v : Int)
    (h : (if c then setPrev l i v else some l) = some l') :
    l'.length = l.length := by
  split at h
  · exact setPrev_length l l' i v h
  · cases h; rfl

/-- In an allocator whose `_cur_max_id` is the length of the deque,
`isAllocated(N)` with `N` the number of ids created reads past the deque. -/
theorem isAllocated_length (a : IDAllocator)
    (hmax : a._cur_max_id = (a._entry_list.length : Int))
    (hlen : 2 ≤ a._entry_list.length) :
    a.isAllocated ((a._entry_list.length : Int) - 2) = none := by
  unfold isAllocated
  have h1 : ¬ ((a._entry_list.length : Int) - 2 + 2 < 2 ∨
      (a._entry_list.length : Int) - 2 + 2 > a._cur_max_id) := by omega
  simp only [h1, if_false]
  simp [entryAt]

/-- The id `allocate` returns is either the next new id, and the deque grows
by one entry, or an id created before, and the deque keeps its length. -/
theorem allocate_length (a a' : IDAllocator) (k : Int) (h : a.allocate = some (k, a')) :
    (k + 2 = (a._entry_list.length : Int) ∧ a'._entry_list.length = a._entry_list.length + 1) ∨
    (k + 2 < (a._entry_list.length : Int) ∧ a'._entry_list.length = a._entry_list.length) := by
  unfold allocate at h
  simp only [Option.bind_eq_bind, Option.bind_eq_some, Option.pure_def] at h
  obtain ⟨head, hhead, ⟨l1, c1⟩, h1, e0, he0, er, her, l2, hl2, l3, hl3, e1, he1, l4, hl4,
    l5, hl5, l6, hl6, hfin⟩ := h
  simp only at he0 her hl2 hfin
  have hk : k = e0.next - 2 := by cases hfin; rfl
  have ha' : a'._entry_list = l6 := by cases hfin; rfl
  have hlen : a'._entry_list.length = l1.length := by
    rw [ha', setNext_length _ _ _ _ hl6, ite_setPrev_length _ _ _ _ _ hl5,
      entryStore_length _ _ _ _ hl4, ite_setPrev_length _ _ _ _ _ hl3,
      setNext_length _ _ _ _ hl2]
  have hret := entryAt_some_bound _ _ _ her
  split at h1
  · rw [Option.bind_eq_some] at h1
    obtain ⟨l0, hl0, hpair⟩ := h1
    have hl01 : l0 = l1 := by cases hpair; rfl
    subst hl01
    obtain ⟨e, he, hnext⟩ := setNext_entryAt _ _ _ _ hl0
    rw [he0] at he
    cases he
    have hl1 : l0.length = a._entry_list.length + 1 := by
      rw [setNext_length _ _ _ _ hl0]; simp
    left
    exact ⟨by rw [hk, hnext]; omega, by rw [hlen, hl1]⟩
  · have hl01 : a._entry_list = l1 := by cases h1; rfl
    subst hl01
    right
    exact ⟨by rw [hk]; omega, hlen⟩

end MTB.IDAllocator

namespace mygsql

open MTB MTB.FileMapper

namespace StorageTable

/-- The grow loop of `allocateEntry` ends with a mapping that holds the first
byte of the slot, when that byte is mapped already or the mapper is one of an
existing file; it appends whole blocks and keeps the bytes mapped before. -/
theorem growEntryMapper_spec (entry_offset : Nat) :
    ∀ (fuel : Nat) (m : FileMapper), 0 < m._logical_block → m._size < 2147483648 →
      entry_offset + m._logical_block < 2147483648 →
      (entry_offset < m._size ∨ ∃ s, m._file_stat = some s) →
      1 ≤ fuel → entry_offset + 2 ≤ fuel + m._size →
      ∃ m', growEntryMapper entry_offset fuel m = some m' ∧ entry_offset < m'._size ∧
        m'._size < 2147483648 ∧ m'._logical_block = m._logical_block ∧
        (∃ j, m'._size = m._size + j * m._logical_block) ∧
        ∀ x, x < m._size → m'._memory x = m._memory x := by
  intro fuel
  induction fuel with
  | zero =>
    intro m hb hs hlim _ h1 hf
    exfalso
    omega
  | succ n ih =>
    intro m hb hs hlim hgrow _ hf
    have hsz : toSizeT m.get_file_size = m._size := by
      unfold get_file_size
      rw [toInt32_natCast _ hs]
      exact toSizeT_natCast _ (by omega)
    rw [growEntryMapper, hsz]
    by_cases hge : entry_offset ≥ m._size
    · rw [if_pos hge]
      obtain ⟨s, hstat⟩ : ∃ s, m._file_stat = some s := by
        rcases hgrow with h | h
        · omega
        · exact h
      rw [resizeAppend_some m s hb hstat, Option.some_bind]
      obtain ⟨m', h1, h2, h3, h4, ⟨j, h5⟩, h6⟩ := ih { m with _memory := fun x => if x < m._size then m._memory x else 0, _size := m._size + m._logical_block } hb
        (by show m._size + m._logical_block < _; omega) hlim (Or.inr ⟨s, hstat⟩) (by omega)
        (by show _ ≤ n + (m._size + m._logical_block); omega)
      refine ⟨m', h1, h2, h3, h4, ⟨j + 1, ?_⟩, ?_⟩
      · rw [h5, Nat.add_mul]
        show m._size + m._logical_block + j * m._logical_block = _
        omega
      · intro x hx
        rw [h6 x (by show x < m._size + m._logical_block; omega)]
        show (if x < m._size then m._memory x else 0) = m._memory x
        rw [if_pos hx]
    · rw [if_neg hge]
      exact ⟨m, rfl, by omega, hs, rfl, ⟨0, by omega⟩, fun _ _ => rfl⟩

/-- The grow loop of `allocateEntry` does not return when the first byte of the
slot lies outside the mapping of a file the mapper created. -/
theorem growEntryMapper_created (entry_offset fuel : Nat) (m : FileMapper)
    (hstat : m._file_stat = none) (hsize : m._size < 2147483648)
    (hout : m._size ≤ entry_offset) :
    growEntryMapper entry_offset fuel m = none := by
  cases fuel with
  | zero => rfl
  | succ n =>
    have hsz : toSizeT m.get_file_size = m._size := by
      unfold get_file_size
      rw [toInt32_natCast _ hsize]
      exact toSizeT_natCast _ (by omega)
    rw [growEntryMapper, hsz, if_pos hout, resizeAppend_created m hstat]
    rfl

/-- `allocateEntry` on a table whose allocator hands out id `k`: the mapping is
grown, the flag of slot `k` and the slot count are written. -/
theorem allocateEntry_eq (t : StorageTable) (a a' : IDAllocator) (m : FileMapper) (k : Nat)
    (ha : t._entry_allocator = some a) (hm : t._entry_mapper = some m)
    (halloc : a.allocate = some ((k : Int), a'))
    (hnum : t._entry_list_num + 2 = a._entry_list.length)
    (hnumlt : t._entry_list_num + 1 < 4294967296)
    (hblock : 0 < m._logical_block) (hb4 : m._logical_block % 4 = 0)
    (hs4 : m._size % 4 = 0) (he4 : t._entry_size % 4 = 0)
    (hhdr : 4 ≤ m._size) (hsize : m._size < 2147483648)
    (hrange : 4 + k * t._entry_size + m._logical_block < 2147483648)
    (hgrow : 4 + k * t._entry_size < m._size ∨ ∃ s, m._file_stat = some s) :
    ∃ m1 n, growEntryMapper (4 + k * t._entry_size) (4 + k * t._entry_size + 1) m = some m1 ∧
      n + 2 = a'._entry_list.length ∧ n < 4294967296 ∧
      4 + k * t._entry_size + 4 ≤ m1._size ∧
      t.allocateEntry = some (⟨(k * t._entry_size) % 4294967296, k⟩,
        { t with _entry_allocator := some a', _entry_list_num := n, _entry_mapper := some ((m1.poke (4 + k * t._entry_size) (be32Bytes 1)).poke 0 (be32Bytes n)) }) := by
  obtain ⟨m1, hg, hg1, hg2, hg3, ⟨j, hg4⟩, hg5⟩ := growEntryMapper_spec (4 + k * t._entry_size)
    (4 + k * t._entry_size + 1) m hblock hsize hrange hgrow (by omega) (by omega)
  have hk4 : (k * t._entry_size) % 4 = 0 := by
    rw [Nat.mul_mod, he4]; simp
  have hj4 : (j * m._logical_block) % 4 = 0 := by
    rw [Nat.mul_mod, hb4]; simp
  have hfit : 4 + k * t._entry_size + 4 ≤ m1._size := by omega
  have hkS : toSizeT (k : Int) = k := by
    have := IDAllocator.allocate_length a a' k halloc
    exact toSizeT_natCast _ (by omega)
  have hkU : toUInt32 (k : Int) = k := by
    have := IDAllocator.allocate_length a a' k halloc
    exact toUInt32_natCast _ (by omega)
  have hcases := IDAllocator.allocate_length a a' k halloc
  have hhdr1 : 0 + 4 ≤ (m1.poke (4 + k * t._entry_size) (be32Bytes 1))._size := by
    rw [poke_size]; omega
  have hst1 := store32_natCast m1 (4 + k * t._entry_size) 1 hfit
  have hbase : 4 + t._entry_size * k < 2147483648 := by rw [Nat.mul_comm]; omega
  by_cases hc : k ≥ t._entry_list_num
  · have hn : (t._entry_list_num + 1) % 4294967296 = t._entry_list_num + 1 :=
      Nat.mod_eq_of_lt hnumlt
    have hlen : t._entry_list_num + 1 + 2 = a'._entry_list.length := by omega
    have hst2 := store32_natCast (m1.poke (4 + k * t._entry_size) (be32Bytes 1)) 0
      (t._entry_list_num + 1) hhdr1
    rw [Nat.cast_zero] at hst2
    refine ⟨m1, t._entry_list_num + 1, hg, hlen, hnumlt, hfit, ?_⟩
    clear hcases hlen hhdr1 hfit hk4 hj4 hg4 hg1 hg2 hrange hsize hhdr hnum hnumlt
    have hmem : t._getEntryMemory k = ((4 + k * t._entry_size : Nat) : Int) := by
      rw [getEntryMemory_natCast t k hbase, Nat.mul_comm]
    unfold _getEntryMemory _getEntryStartMemory at hmem
    unfold allocateEntry
    simp only [Option.bind_eq_bind]
    rw [ha, Option.some_bind, halloc, Option.some_bind]
    simp only [hkU, hkS]
    simp only [if_pos hc]
    simp only [hn, hm]
    rw [Option.some_bind]
    simp only [_getEntryMemory, _getEntryStartMemory, _getEntryOffset]
    rw [i32size_eq] at hmem ⊢
    rw [hg, Option.some_bind, hmem, hst1, Option.some_bind, hst2, Option.some_bind]
    simp only [Entry.ofIndex]
    simp only [hkU]
    rfl
  · have hlen : t._entry_list_num + 2 = a'._entry_list.length := by omega
    have hlt : t._entry_list_num < 4294967296 := by omega
    have hst2 := store32_natCast (m1.poke (4 + k * t._entry_size) (be32Bytes 1)) 0
      t._entry_list_num hhdr1
    rw [Nat.cast_zero] at hst2
    refine ⟨m1, t._entry_list_num, hg, hlen, hlt, hfit, ?_⟩
    clear hcases hlen hhdr1 hfit hk4 hj4 hg4 hg1 hg2 hrange hsize hhdr hnum hnumlt hlt
    have hmem : t._getEntryMemory k = ((4 + k * t._entry_size : Nat) : Int) := by
      rw [getEntryMemory_natCast t k hbase, Nat.mul_comm]
    unfold _getEntryMemory _getEntryStartMemory at hmem
    unfold allocateEntry
    simp only [Option.bind_eq_bind]
    rw [ha, Option.some_bind, halloc, Option.some_bind]
    simp only [hkU, hkS]
    simp only [if_neg hc]
    simp only [hm]
    rw [Option.some_bind]
    simp only [_getEntryMemory, _getEntryStartMemory, _getEntryOffset]
    rw [i32size_eq] at hmem ⊢
    rw [hg, Option.some_bind, hmem, hst1, Option.some_bind, hst2, Option.some_bind]
    simp only [Entry.ofIndex]
    simp only [hkU]
    rfl

/-- `allocateEntry` does not return when the allocator hands out an id whose
slot starts outside the mapping of a data file the mapper created: the grow
loop calls `resizeAppend`, which throws. -/
theorem allocateEntry_created_none (t : StorageTable) (a a' : IDAllocator) (m : FileMapper)
    (k : Nat)
    (ha : t._entry_allocator = some a) (hm : t._entry_mapper = some m)
    (halloc : a.allocate = some ((k : Int), a'))
    (hk : k < 2147483648)
    (hstat : m._file_stat = none) (hsize : m._size < 2147483648)
    (hout : m._size ≤ 4 + k * t._entry_size) :
    t.allocateEntry = none := by
  have hkS : toSizeT (k : Int) = k := toSizeT_natCast _ (by omega)
  have hkU : toUInt32 (k : Int) = k := toUInt32_natCast _ (by omega)
  have hg := fun fuel => growEntryMapper_created (4 + k * t._entry_size) fuel m hstat hsize hout
  by_cases hc : k ≥ t._entry_list_num
  · unfold allocateEntry
    simp only [Option.bind_eq_bind]
    rw [ha, Option.some_bind, halloc, Option.some_bind]
    simp only [hkU, hkS]
    simp only [if_pos hc]
    simp only [hm]
    rw [Option.some_bind]
    simp only [_getEntryOffset]
    rw [i32size_eq, hg]
    rfl
  · unfold allocateEntry
    simp only [Option.bind_eq_bind]
    rw [ha, Option.some_bind, halloc, Option.some_bind]
    simp only [hkU, hkS]
    simp only [if_neg hc]
    simp only [hm]
    rw [Option.some_bind]
    simp only [_getEntryOffset]
    rw [i32size_eq, hg]
    rfl

end StorageTable

end mygsql

namespace mygsql

open MTB MTB.FileMapper StorageTable

theorem lookup_mem {V : Type} (n : List Byte) :
    ∀ (m : List (List Byte × V)) (v : V), m.lookup n = some v → (n, v) ∈ m := by
  intro m
  induction m with
  | nil => intro v h; simp [List.lookup] at h
  | cons p rest ih =>
    intro v h
    obtain ⟨k, w⟩ := p
    by_cases hk : n = k
    · subst hk
      simp only [List.lookup, beq_self_eq_true] at h
      cases h
      exact List.mem_cons_self _ _
    · have hb : (n == k) = false := by simpa using hk
      simp only [List.lookup, hb] at h
      exact List.mem_cons_of_mem _ (ih v h)

/-- What `Entry::set(name, value)` returns and leaves behind, for a slot whose
bytes lie in the data mapping. -/
theorem StorageTable.Entry.set_result (t : StorageTable) (e : StorageTable.Entry)
    (m : FileMapper) (name : List Byte) (v : Value)
    (hm : t._entry_mapper = some m)
    (hsize : m._size < 2147483648)
    (hlayout : offsetsFrom 4 t._type_item_list = true)
    (hslot : t._getEntryOffset e._header_index + slotWidth t._type_item_list ≤ m._size)
    (hmap : ∀ p ∈ t._type_item_map, p.2 < t._type_item_list.length) :
    ∃ b t', Entry.set t e name v = some (b, t') ∧
      (b = true ↔ ∃ pos c, t._type_item_map.lookup name = some pos ∧
        t._type_item_list[pos]? = some c ∧ v.get_value_type = c.type ∧
        ∀ s, v = Value.StringValue s → s.length ≤ 256) ∧
      (b = false → t' = t) := by
  have hoff : t._getEntryOffset e._header_index = 4 + e._header_index * t._entry_size := by
    unfold _getEntryOffset; rw [i32size_eq]
  unfold slotWidth at hslot
  have hmul : e._header_index * t._entry_size = t._entry_size * e._header_index :=
    Nat.mul_comm _ _
  have hbase : 4 + t._entry_size * e._header_index < 2147483648 := by omega
  cases hl : t._type_item_map.lookup name with
  | none =>
    refine ⟨false, t, ?_, ?_, fun _ => rfl⟩
    · cases v with
      | IntValue x => unfold Entry.set Entry.setInt; simp only [hl]
      | StringValue s =>
        unfold Entry.set Entry.setString
        simp only [hl]
        split <;> rfl
    · constructor
      · intro h; cases h
      · rintro ⟨pos, c, h1, _⟩; cases h1
  | some pos =>
    have hpos : pos < t._type_item_list.length := hmap (name, pos) (lookup_mem name _ pos hl)
    have hcol : t._type_item_list[pos]? = some t._type_item_list[pos] :=
      List.getElem?_eq_getElem hpos
    generalize t._type_item_list[pos] = c at hcol
    have hb := offsetsFrom_bounds _ 4 pos c hlayout hcol
    have hset := Entry.set_target t e c.offset hbase
    have hAI : c.type = ValueType.INT →
        4 + t._entry_size * e._header_index + c.offset + 4 ≤ m._size := by
      intro hty; rw [hty, DataTypeGetSize_INT] at hb; clear hset; omega
    have hAS : c.type = ValueType.STRING →
        4 + t._entry_size * e._header_index + c.offset + 260 ≤ m._size := by
      intro hty; rw [hty, DataTypeGetSize_STRING] at hb; clear hset; omega
    clear hb hoff hmul hbase hslot
    generalize 4 + t._entry_size * e._header_index + c.offset = A at hset hAI hAS
    cases v with
    | IntValue x =>
      by_cases hty : c.type = ValueType.INT
      · refine ⟨true, _, Entry.setInt_eq t e m name pos c A x hm hl hcol hty hset (hAI hty),
          ?_, fun h => by cases h⟩
        refine ⟨fun _ => ⟨pos, c, rfl, hcol, hty.symm, fun s h => by cases h⟩, fun _ => rfl⟩
      · refine ⟨false, t, ?_, ?_, fun _ => rfl⟩
        · unfold Entry.set Entry.setInt
          simp only [hl]
          simp only [hcol, Option.bind_eq_bind, Option.some_bind]
          rw [if_pos hty]
          rfl
        · constructor
          · intro h; cases h
          · rintro ⟨pos', c', h1, h2, h3, _⟩
            cases h1
            rw [hcol] at h2
            cases h2
            exact absurd h3.symm hty
    | StringValue s =>
      by_cases hlen : s.length > 256
      · refine ⟨false, t, ?_, ?_, fun _ => rfl⟩
        · unfold Entry.set Entry.setString
          simp only [hlen, if_true]
        · constructor
          · intro h; cases h
          · rintro ⟨pos', c', _, _, _, h4⟩
            have := h4 s rfl
            omega
      · by_cases hty : c.type = ValueType.STRING
        · have hA := hAS hty
          refine ⟨true, _, Entry.setString_eq t e m name pos c A s hm hl hcol hty hset
            (by clear hset; omega) (by clear hset; omega), ?_, fun h => by cases h⟩
          refine ⟨fun _ => ⟨pos, c, rfl, hcol, hty.symm, fun s' h => ?_⟩, fun _ => rfl⟩
          cases h
          clear hset; omega
        · refine ⟨false, t, ?_, ?_, fun _ => rfl⟩
          · unfold Entry.set Entry.setString
            simp only [hlen, if_false, hl]
            simp only [hcol, Option.bind_eq_bind, Option.some_bind]
            rw [if_pos hty]
            rfl
          · constructor
            · intro h; cases h
            · rintro ⟨pos', c', h1, h2, h3, _⟩
              cases h1
              rw [hcol] at h2
              cases h2
              exact absurd h3.symm hty

end mygsql
/-! ## Lemmas: block sizes, traversal and primary ordinals -/

namespace MTB

/-- A positive number has no bit in common with its predecessor exactly when it
is a power of two. -/
theorem land_pred_eq_zero_iff : ∀ x : Nat, 0 < x → (x &&& (x - 1) = 0 ↔ ∃ k, x = 2 ^ k) := by
  intro x
  induction x using Nat.strong_induction_on with
  | _ x ih =>
    intro hx
    rcases Nat.even_or_odd' x with ⟨y, hy | hy⟩
    · have hy0 : 0 < y := by omega
      have e1 : x = Nat.bit false y := by rw [Nat.bit_val]; simp [hy]
      have e2 : x - 1 = Nat.bit true (y - 1) := by rw [Nat.bit_val]; simp; omega
      rw [e2]
      nth_rewrite 1 [e1]
      rw [Nat.land_bit, Bool.false_and, Nat.bit_eq_zero_iff]
      have := ih y (by omega) hy0
      constructor
      · rintro ⟨h, _⟩
        obtain ⟨k, hk⟩ := this.mp h
        exact ⟨k + 1, by rw [hy, hk, pow_succ]; ring⟩
      · rintro ⟨k, hk⟩
        refine ⟨this.mpr ?_, rfl⟩
        cases k with
        | zero => omega
        | succ k => exact ⟨k, by rw [pow_succ] at hk; omega⟩
    · have e1 : x = Nat.bit true y := by rw [Nat.bit_val]; simp [hy]
      have e2 : x - 1 = Nat.bit false y := by rw [Nat.bit_val]; simp; omega
      rw [e2]
      nth_rewrite 1 [e1]
      rw [Nat.land_bit, Bool.true_and, Nat.and_self, Nat.bit_eq_zero_iff]
      constructor
      · rintro ⟨h, _⟩
        exact ⟨0, by omega⟩
      · rintro ⟨k, hk⟩
        refine ⟨?_, rfl⟩
        cases k with
        | zero => simp at hk; omega
        | succ k => rw [pow_succ] at hk; omega

namespace FileMapper

theorem SetLogicalBlockSize_true_iff (cur x : Nat) (hx : x < 4294967296) :
    (SetLogicalBlockSize cur x).1 = true ↔ x = 0 ∨ ∃ k, x = 2 ^ k := by
  unfold SetLogicalBlockSize
  by_cases h0 : x = 0
  · subst h0
    simp
  · have hpred : (x + 4294967295) % 4294967296 = x - 1 := by omega
    rw [hpred]
    have key := land_pred_eq_zero_iff x (by omega)
    by_cases hz : x &&& (x - 1) = 0
    · simp only [hz, ne_eq, not_true_eq_false, if_false, true_iff]
      exact Or.inr (key.mp hz)
    · simp only [ne_eq, hz, not_false_eq_true, if_true, Bool.false_eq_true, false_iff]
      rintro (h | h)
      · exact h0 h
      · exact hz (key.mpr h)

/-- Whenever `n` calls of `resizeAppend` return, the mapping is `n` blocks
longer and the captured block size is the same. -/
theorem resizeAppends_eq_some (n : Nat) :
    ∀ (m m' : FileMapper), resizeAppends n m = some m' →
      m'._logical_block = m._logical_block ∧ m'._size = m._size + n * m._logical_block := by
  induction n with
  | zero =>
    intro m m' h
    have := Option.some.inj h
    subst this
    exact ⟨rfl, by omega⟩
  | succ k ih =>
    intro m m' h
    rw [resizeAppends] at h
    cases hr : m.resizeAppend with
    | none => rw [hr] at h; exact absurd h (by simp)
    | some m1 =>
      rw [hr, Option.some_bind] at h
      obtain ⟨h1, h2, _⟩ := resizeAppend_eq_some m m1 hr
      obtain ⟨h3, h4⟩ := ih m1 m' h
      refine ⟨by rw [h3, h2], ?_⟩
      rw [h4, h1, h2, Nat.succ_mul]
      omega

/-- On a mapper of an existing file with a block that is not empty, `n` calls
of `resizeAppend` return. -/
theorem resizeAppends_existing (n : Nat) :
    ∀ (m : FileMapper) (s : Nat), 0 < m._logical_block → m._file_stat = some s →
      ∃ m', resizeAppends n m = some m' := by
  induction n with
  | zero => intro m s _ _; exact ⟨m, rfl⟩
  | succ k ih =>
    intro m s hb hs
    rw [resizeAppends, resizeAppend_some m s hb hs, Option.some_bind]
    exact ih _ s hb hs

end FileMapper

namespace IDAllocator

/-- The loop of `traverseAllocated` visits the nodes the iterator visits, and
hands the callback the physical index where the iterator yields the index
minus 2. -/
theorem traverseFrom_eq_iterateFrom (a : IDAllocator) :
    ∀ (fuel : Nat) (i : Int),
      traverseFrom a fuel i = (iterateFrom a fuel ⟨i⟩).map (List.map (· + 2)) := by
  intro fuel
  induction fuel with
  | zero => intro i; rfl
  | succ n ih =>
    intro i
    unfold traverseFrom iterateFrom
    by_cases hi : i = -1
    · subst hi
      simp [UNREACHABLE, «end»]
    · have h1 : i ≠ UNREACHABLE := hi
      have h2 : (⟨i⟩ : Iterator) ≠ a.end := by
        intro h
        exact hi (congrArg Iterator.current_id h)
      rw [if_pos h1, if_pos h2]
      unfold Iterator.advance
      simp only [ne_eq, hi, not_false_eq_true, if_true]
      cases he : entryAt a._entry_list i with
      | none => rfl
      | some e =>
        simp only [Option.bind_eq_bind, Option.some_bind, Option.map_some']
        rw [ih e.next]
        cases iterateFrom a n ⟨e.next⟩ with
        | none => rfl
        | some rest =>
          simp [Iterator.deref]

end IDAllocator

end MTB

namespace mygsql

/-- Without a primary column the ordinal is the sentinel. -/
theorem primaryOrdinal_none (items : List StorageTypeItem) :
    ∀ cnt, (∀ i ∈ items, i.is_primary = false) → primaryOrdinal cnt items = 0xFFFFFFFF := by
  induction items with
  | nil => intro cnt _; rfl
  | cons i rest ih =>
    intro cnt h
    unfold primaryOrdinal
    have hi : i.is_primary = false := h i (List.mem_cons_self _ _)
    simp only [hi, Bool.false_eq_true, if_false]
    exact ih (cnt + 1) (fun j hj => h j (List.mem_cons_of_mem _ hj))

/-- The ordinal is the position of the first column marked primary. -/
theorem primaryOrdinal_first (items : List StorageTypeItem) :
    ∀ (cnt k : Nat) (c : StorageTypeItem), items[k]? = some c → c.is_primary = true →
      (∀ j c', j < k → items[j]? = some c' → c'.is_primary = false) →
      primaryOrdinal cnt items = cnt + k := by
  induction items with
  | nil => intro cnt k c h; simp at h
  | cons i rest ih =>
    intro cnt k c hk hc hfirst
    unfold primaryOrdinal
    cases k with
    | zero =>
      simp only [List.getElem?_cons_zero, Option.some.injEq] at hk
      subst hk
      simp [hc]
    | succ k =>
      have hi : i.is_primary = false := hfirst 0 i (by omega) (by simp)
      simp only [hi, Bool.false_eq_true, if_false]
      simp only [List.getElem?_cons_succ] at hk
      rw [ih (cnt + 1) k c hk hc (fun j c' hj hj' => hfirst (j + 1) c' (by omega)
        (by simpa using hj'))]
      omega

end mygsql
/-! ## Lemmas: the lists of the allocator -/

namespace MTB.IDAllocator

theorem entryAt_set_self (l : List Entry) (i : Int) (e : Entry) (h0 : 0 ≤ i)
    (h : i.toNat < l.length) : entryAt (l.set i.toNat e) i = some e := by
  unfold entryAt
  rw [if_pos h0]
  simp [h]

theorem entryAt_set_ne (l : List Entry) (i j : Int) (e : Entry) (h0 : 0 ≤ i) (hne : i ≠ j) :
    entryAt (l.set i.toNat e) j = entryAt l j := by
  unfold entryAt
  split
  · rename_i hj
    have : i.toNat ≠ j.toNat := by omega
    simp [List.getElem?_set_ne this]
  · rfl

theorem entryAt_append (l : List Entry) (x : Entry) (j : Int) (e : Entry)
    (h : entryAt l j = some e) : entryAt (l ++ [x]) j = some e := by
  have hb := entryAt_some_bound l j e h
  unfold entryAt at h ⊢
  rw [if_pos hb.1] at h ⊢
  rw [List.getElem?_append_left hb.2]
  exact h

theorem entryAt_append_length (l : List Entry) (x : Entry) :
    entryAt (l ++ [x]) (l.length : Int) = some x := by
  unfold entryAt
  rw [if_pos (by omega)]
  simp

theorem entryStore_eq (l : List Entry) (i : Int) (e : Entry) (h0 : 0 ≤ i)
    (h : i.toNat < l.length) : entryStore l i e = some (l.set i.toNat e) := by
  unfold entryStore
  rw [if_pos ⟨h0, h⟩]

theorem setNext_eq (l : List Entry) (i v : Int) (e : Entry) (h : entryAt l i = some e) :
    setNext l i v = some (l.set i.toNat { e with next := v }) := by
  have hb := entryAt_some_bound l i e h
  unfold setNext
  rw [h, Option.some_bind, entryStore_eq l i _ hb.1 hb.2]

theorem setPrev_eq (l : List Entry) (i v : Int) (e : Entry) (h : entryAt l i = some e) :
    setPrev l i v = some (l.set i.toNat { e with prev := v }) := by
  have hb := entryAt_some_bound l i e h
  unfold setPrev
  rw [h, Option.some_bind, entryStore_eq l i _ hb.1 hb.2]

/-- `_entry_list[i].next = v` leaves every other entry as it was. -/
theorem setNext_frame (l l' : List Entry) (i v : Int) (h : setNext l i v = some l') (j : Int)
    (hne : i ≠ j) : entryAt l' j = entryAt l j := by
  cases he : entryAt l i with
  | none => unfold setNext at h; rw [he] at h; cases h
  | some e =>
    rw [setNext_eq l i v e he] at h
    cases h
    exact entryAt_set_ne l i j _ (entryAt_some_bound l i e he).1 hne

/-- `_entry_list[i].prev = v` leaves every `next` field as it was. -/
theorem setPrev_next (l l' : List Entry) (i v : Int) (h : setPrev l i v = some l') (j : Int) :
    (entryAt l' j).map (fun e => e.next) = (entryAt l j).map (fun e => e.next) := by
  cases he : entryAt l i with
  | none => unfold setPrev at h; rw [he] at h; cases h
  | some e =>
    have hb := entryAt_some_bound l i e he
    rw [setPrev_eq l i v e he] at h
    cases h
    by_cases hij : i = j
    · subst hij
      rw [entryAt_set_self l i _ hb.1 hb.2, he]
      rfl
    · rw [entryAt_set_ne l i j _ hb.1 hij]

theorem ite_setPrev_next (c : Prop) [Decidable c] (l l' : List Entry) (i v : Int)
    (h : (if c then setPrev l i v else some l) = some l') (j : Int) :
    (entryAt l' j).map (fun e => e.next) = (entryAt l j).map (fun e => e.next) := by
  split at h
  · exact setPrev_next l l' i v h j
  · cases h; rfl

theorem entryStore_frame (l l' : List Entry) (i : Int) (e : Entry)
    (h : entryStore l i e = some l') (j : Int) (hne : i ≠ j) : entryAt l' j = entryAt l j := by
  unfold entryStore at h
  split at h
  · rename_i hb
    cases h
    exact entryAt_set_ne l i j e hb.1 hne
  · cases h

theorem entryStore_self (l l' : List Entry) (i : Int) (e : Entry)
    (h : entryStore l i e = some l') : entryAt l' i = some e := by
  unfold entryStore at h
  split at h
  · rename_i hb
    cases h
    exact entryAt_set_self l i e hb.1 hb.2
  · cases h

end MTB.IDAllocator

namespace MTB.IDAllocator

/-- What `allocate` leaves in the live list when it hands out the id `k`: the
live head points to node `k + 2`, that node points to the old first node, and
the `next` field of every other node is unchanged. -/
theorem allocate_live (a a' : IDAllocator) (k : Int) (h : a.allocate = some (k, a'))
    (hk : 0 ≤ k) :
    ∃ h1, entryAt a._entry_list 1 = some h1 ∧
      (entryAt a'._entry_list 1).map (fun e => e.next) = some (k + 2) ∧
      (entryAt a'._entry_list (k + 2)).map (fun e => e.next) = some h1.next ∧
      ∀ j e, 2 ≤ j → j ≠ k + 2 → entryAt a._entry_list j = some e →
        (entryAt a'._entry_list j).map (fun e => e.next) = some e.next := by
  have hlen := allocate_length a a' k h
  unfold allocate at h
  simp only [Option.bind_eq_bind, Option.bind_eq_some, Option.pure_def] at h
  obtain ⟨head, hhead, ⟨l1, c1⟩, h1, e0, he0, er, her, l2, hl2, l3, hl3, e1, he1, l4, hl4,
    l5, hl5, l6, hl6, hfin⟩ := h
  simp only at he0 her hl2 hfin
  have hkr : e0.next = k + 2 := by
    have : k = e0.next - 2 := by cases hfin; rfl
    omega
  have ha' : a'._entry_list = l6 := by cases hfin; rfl
  rw [hkr] at hl4 hl5 hl6
  -- the entries of the old deque are found in `l1`
  have hF1 : ∀ j e, 1 ≤ j → entryAt a._entry_list j = some e → entryAt l1 j = some e := by
    intro j e hj hje
    split at h1
    · rw [Option.bind_eq_some] at h1
      obtain ⟨l0, hl0, hpair⟩ := h1
      have hl01 : l0 = l1 := by cases hpair; rfl
      subst hl01
      rw [setNext_frame _ _ _ _ hl0 j (by omega)]
      exact entryAt_append _ _ _ _ hje
    · have hl01 : a._entry_list = l1 := by cases h1; rfl
      subst hl01
      exact hje
  -- the deque has a live head
  have hlen2 : 2 ≤ a._entry_list.length := by
    rcases hlen with hl | hl <;> omega
  have hh1 : entryAt a._entry_list 1 = some (a._entry_list.get ⟨1, by omega⟩) := by
    unfold entryAt
    rw [if_pos (by omega)]
    exact List.getElem?_eq_getElem (by simpa using hlen2)
  generalize a._entry_list.get ⟨1, by omega⟩ = h1e at hh1
  have hnext3 : ∀ j, (entryAt l3 j).map (fun e => e.next)
      = (entryAt l2 j).map (fun e => e.next) := ite_setPrev_next _ _ _ _ _ hl3
  have hnext5 : ∀ j, (entryAt l5 j).map (fun e => e.next)
      = (entryAt l4 j).map (fun e => e.next) := ite_setPrev_next _ _ _ _ _ hl5
  have he1n : e1.next = h1e.next := by
    have h3 := hnext3 1
    rw [he1, setNext_frame _ _ _ _ hl2 1 (by omega), hF1 1 h1e (by omega) hh1] at h3
    simpa using h3
  refine ⟨h1e, hh1, ?_, ?_, ?_⟩
  · rw [ha']
    obtain ⟨e, he, hn⟩ := setNext_entryAt _ _ _ _ hl6
    rw [he, Option.map_some', hn]
  · rw [ha', setNext_frame _ _ _ _ hl6 (k + 2) (by omega), hnext5 (k + 2),
      entryStore_self _ _ _ _ hl4, Option.map_some', he1n]
  · intro j e hj hne hje
    rw [ha', setNext_frame _ _ _ _ hl6 j (by omega), hnext5 j,
      entryStore_frame _ _ _ _ hl4 j (fun hh => hne hh.symm), hnext3 j,
      setNext_frame _ _ _ _ hl2 j (by omega), hF1 j e (by omega) hje, Option.map_some']

/-- The iteration depends only on the `next` fields of the nodes it visits. -/
theorem iterateFrom_congr (a a' : IDAllocator) :
    ∀ (fuel : Nat) (it : Iterator) (ids : List Int), iterateFrom a fuel it = some ids →
      (∀ x ∈ ids, ∀ e, entryAt a._entry_list (x + 2) = some e →
        (entryAt a'._entry_list (x + 2)).map (fun e => e.next) = some e.next) →
      iterateFrom a' fuel it = some ids := by
  intro fuel
  induction fuel with
  | zero => intro it ids h; cases h
  | succ n ih =>
    intro it ids h hframe
    unfold iterateFrom at h ⊢
    have hend : a'.end = a.end := rfl
    rw [hend]
    split at h
    · rename_i hne
      rw [if_pos hne]
      simp only [Option.bind_eq_bind, Option.bind_eq_some, Option.pure_def,
        Option.some.injEq] at h ⊢
      obtain ⟨it', hadv, rest, hrest, hids⟩ := h
      subst hids
      have hcur : it.current_id ≠ -1 := by
        intro hc
        apply hne
        cases it
        simp only at hc
        subst hc
        rfl
      unfold Iterator.advance at hadv ⊢
      rw [if_pos hcur] at hadv ⊢
      cases he : entryAt a._entry_list it.current_id with
      | none => rw [he] at hadv; cases hadv
      | some e =>
        rw [he] at hadv
        simp only [Option.map_some', Option.some.injEq] at hadv
        have hx := hframe it.deref (List.mem_cons_self _ _) e
          (by unfold Iterator.deref; rw [Int.sub_add_cancel]; exact he)
        unfold Iterator.deref at hx
        rw [Int.sub_add_cancel] at hx
        cases he' : entryAt a'._entry_list it.current_id with
        | none => rw [he'] at hx; cases hx
        | some e' =>
          rw [he'] at hx
          simp only [Option.map_some', Option.some.injEq] at hx
          refine ⟨it', ?_, rest, ?_, rfl⟩
          · rw [Option.map_some', hx, hadv]
          · exact ih it' rest hrest (fun x hx' => hframe x (List.mem_cons_of_mem _ hx'))
    · rename_i hne
      rw [if_neg hne]
      exact h

/-- After `allocate` has handed out `k`, the live iteration yields `k` and then
what it yielded before. -/
theorem liveIteration_allocate (a a' : IDAllocator) (k : Int) (ids : List Int) (fuel : Nat)
    (h : a.allocate = some (k, a')) (hk : 0 ≤ k)
    (hlive : a.liveIteration fuel = some ids)
    (hpos : ∀ x ∈ ids, 0 ≤ x) (hnew : k ∉ ids) :
    a'.liveIteration (fuel + 1) = some (k :: ids) := by
  obtain ⟨h1, hh1, hhead, hnode, hframe⟩ := allocate_live a a' k h hk
  unfold liveIteration begin at hlive ⊢
  rw [hh1] at hlive
  simp only [Option.map_some', Option.some_bind] at hlive
  cases e1 : entryAt a'._entry_list 1 with
  | none => rw [e1] at hhead; cases hhead
  | some x1 =>
    rw [e1] at hhead
    simp only [Option.map_some', Option.some.injEq] at hhead
    simp only [Option.map_some', Option.some_bind]
    rw [hhead]
    unfold iterateFrom
    have hne : (⟨k + 2⟩ : Iterator) ≠ a'.end := by
      intro hc
      have := congrArg Iterator.current_id hc
      simp only [«end»] at this
      omega
    rw [if_pos hne]
    unfold Iterator.advance
    rw [if_pos (by show k + 2 ≠ -1; omega)]
    cases e2 : entryAt a'._entry_list (k + 2) with
    | none => rw [e2] at hnode; cases hnode
    | some x2 =>
      rw [e2] at hnode
      simp only [Option.map_some', Option.some.injEq] at hnode
      simp only [Option.map_some', Option.bind_eq_bind, Option.some_bind]
      rw [hnode, iterateFrom_congr a a' fuel ⟨h1.next⟩ ids hlive
        (fun x hx e he => hframe (x + 2) e (by have := hpos x hx; omega)
          (by intro hc; apply hnew; have : x = k := by omega
              rw [← this]; exact hx) he)]
      simp [Iterator.deref]

end MTB.IDAllocator

namespace MTB.IDAllocator

/-- With an empty free list `allocate` creates the next new id: it returns the
number of ids created so far, the free list stays empty and `_cur_max_id`
grows by one. -/
theorem allocate_fresh (a : IDAllocator) (h0 h1 : Entry)
    (hh0 : entryAt a._entry_list 0 = some h0) (hfree : h0.next = -1)
    (hh1 : entryAt a._entry_list 1 = some h1)
    (hlive : h1.next = -1 ∨ (2 ≤ h1.next ∧ h1.next.toNat < a._entry_list.length)) :
    ∃ a', a.allocate = some ((a._entry_list.length : Int) - 2, a') ∧
      (entryAt a'._entry_list 0).map (fun e => e.next) = some (-1) ∧
      a'._cur_max_id = a._cur_max_id + 1 := by
  have hb1 := entryAt_some_bound _ _ _ hh1
  have hlen2 : 2 ≤ a._entry_list.length := by
    have : (1 : Int).toNat = 1 := rfl
    omega
  generalize hL : a._entry_list = l at *
  have hz : (0 : Int).toNat = 0 := rfl
  have hLn : ((l.length : Int)).toNat = l.length := Int.toNat_ofNat _
  -- the intermediate deques
  have e10 : entryAt (l ++ [(⟨0, -1, false⟩ : Entry)]) 0 = some h0 := entryAt_append _ _ _ _ hh0
  have hs1 := setNext_eq (l ++ [(⟨0, -1, false⟩ : Entry)]) 0 (l.length : Int) h0 e10
  generalize hl2 : (l ++ [(⟨0, -1, false⟩ : Entry)]).set (0 : Int).toNat
    { h0 with next := (l.length : Int) } = l2 at hs1
  have len2 : l2.length = l.length + 1 := by rw [← hl2]; simp
  have e20 : entryAt l2 0 = some { h0 with next := (l.length : Int) } := by
    rw [← hl2]; exact entryAt_set_self _ 0 _ (by omega) (by simp)
  have e2L : entryAt l2 (l.length : Int) = some ⟨0, -1, false⟩ := by
    rw [← hl2, entryAt_set_ne _ 0 _ _ (by omega) (by omega)]
    exact entryAt_append_length l _
  have e21 : entryAt l2 1 = some h1 := by
    rw [← hl2, entryAt_set_ne _ 0 _ _ (by omega) (by omega)]
    exact entryAt_append _ _ _ _ hh1
  have hs2 : setNext l2 0 (-1)
      = some (l2.set (0 : Int).toNat (⟨h0.prev, -1, h0.allocated⟩ : Entry)) :=
    setNext_eq l2 0 (-1) (⟨h0.prev, (l.length : Int), h0.allocated⟩ : Entry) e20
  generalize hl3 : l2.set (0 : Int).toNat (⟨h0.prev, -1, h0.allocated⟩ : Entry) = l3 at hs2
  have len3 : l3.length = l.length + 1 := by rw [← hl3]; simpa using len2
  have e30 : entryAt l3 0 = some (⟨h0.prev, -1, h0.allocated⟩ : Entry) := by
    rw [← hl3]; exact entryAt_set_self _ 0 _ (by omega) (by rw [hz]; omega)
  have e31 : entryAt l3 1 = some h1 := by
    rw [← hl3, entryAt_set_ne _ 0 _ _ (by omega) (by omega)]; exact e21
  have hs4 := entryStore_eq l3 (l.length : Int) ⟨1, h1.next, true⟩ (by omega)
    (by rw [hLn]; omega)
  generalize hl4 : l3.set ((l.length : Int)).toNat ⟨1, h1.next, true⟩ = l4 at hs4
  have len4 : l4.length = l.length + 1 := by rw [← hl4]; simpa using len3
  have e40 : entryAt l4 0 = entryAt l3 0 := by
    rw [← hl4]; exact entryAt_set_ne _ _ _ _ (by omega) (by omega)
  have e41 : entryAt l4 1 = some h1 := by
    rw [← hl4, entryAt_set_ne _ _ _ _ (by omega) (by omega)]; exact e31
  -- the second `prev` update
  have hs5 : ∃ l5, (if h1.next ≠ -1 then setPrev l4 h1.next (l.length : Int) else some l4)
      = some l5 ∧ entryAt l5 0 = entryAt l4 0 ∧ entryAt l5 1 = some h1 := by
    rcases hlive with hn | ⟨hn2, hnl⟩
    · exact ⟨l4, by rw [if_neg (by simp [hn])], rfl, e41⟩
    · have hex : entryAt l4 h1.next = some (l4.get ⟨h1.next.toNat, by omega⟩) := by
        unfold entryAt
        rw [if_pos (by omega)]
        exact List.getElem?_eq_getElem (by omega)
      generalize l4.get ⟨h1.next.toNat, by omega⟩ = en at hex
      refine ⟨_, by rw [if_pos (by omega)]; exact setPrev_eq _ _ _ _ hex, ?_, ?_⟩
      · exact entryAt_set_ne _ _ _ _ (by omega) (by omega)
      · rw [entryAt_set_ne _ _ _ _ (by omega) (by omega)]; exact e41
  obtain ⟨l5, hs5, e50, e51⟩ := hs5
  have hs6 := setNext_eq l5 1 (l.length : Int) h1 e51
  generalize hl6 : l5.set (1 : Int).toNat { h1 with next := (l.length : Int) } = l6 at hs6
  have e60 : entryAt l6 0 = entryAt l5 0 := by
    rw [← hl6]; exact entryAt_set_ne _ _ _ _ (by omega) (by omega)
  refine ⟨⟨l6, a._cur_max_id + 1⟩, ?_, ?_, rfl⟩
  · unfold allocate
    simp only [Option.bind_eq_bind, Option.pure_def]
    rw [hL, hh0, Option.some_bind]
    simp only [hfree, if_true]
    rw [hs1, Option.some_bind, Option.some_bind]
    simp only []
    rw [e20, Option.some_bind]
    simp only []
    rw [e2L, Option.some_bind]
    simp only []
    rw [hs2, Option.some_bind]
    simp only [ne_eq, not_true_eq_false, if_false, Option.some_bind]
    rw [e31, Option.some_bind, hs4, Option.some_bind, hs5, Option.some_bind, hs6,
      Option.some_bind]
  · show (entryAt l6 0).map _ = _
    rw [e60, e50, e40, e30]
    rfl

end MTB.IDAllocator

namespace MTB.IDAllocator

theorem descending_succ (n : Nat) : descending (n + 1) = (n : Int) :: descending n := by
  unfold descending
  rw [List.range_succ, List.reverse_append]
  rfl

theorem descending_nonneg (n : Nat) : ∀ x ∈ descending n, 0 ≤ x := by
  intro x hx
  unfold descending at hx
  rw [List.mem_map] at hx
  obtain ⟨i, _, rfl⟩ := hx
  exact Int.ofNat_nonneg i

theorem descending_lt (n : Nat) : ∀ x ∈ descending n, x < (n : Int) := by
  intro x hx
  unfold descending at hx
  rw [List.mem_map] at hx
  obtain ⟨i, hi, rfl⟩ := hx
  rw [List.mem_reverse, List.mem_range] at hi
  show (i : Int) < (n : Int)
  omega

theorem allLive_empty : allLive empty 0 := by
  refine ⟨rfl, by decide, by decide⟩

/-- On an allocator whose `n` ids are all live, `allocate` returns `n` and
leaves an allocator whose `n + 1` ids are all live. -/
theorem allocate_allLive (a : IDAllocator) (n : Nat) (h : allLive a n) :
    ∃ a', a.allocate = some ((n : Int), a') ∧ allLive a' (n + 1) ∧
      a'._cur_max_id = a._cur_max_id + 1 := by
  obtain ⟨hlen, hfree, hlive⟩ := h
  -- the two heads
  cases hh0 : entryAt a._entry_list 0 with
  | none => rw [hh0] at hfree; cases hfree
  | some h0 =>
    rw [hh0] at hfree
    simp only [Option.map_some', Option.some.injEq] at hfree
    have hh1 : entryAt a._entry_list 1 = some (a._entry_list.get ⟨1, by omega⟩) := by
      unfold entryAt
      rw [if_pos (by omega)]
      exact List.getElem?_eq_getElem (by simp; omega)
    generalize a._entry_list.get ⟨1, by omega⟩ = h1 at hh1
    -- the first live node is a valid entry
    have hvalid : h1.next = -1 ∨ (2 ≤ h1.next ∧ h1.next.toNat < a._entry_list.length) := by
      have hl := hlive
      unfold liveIteration begin at hl
      rw [hh1] at hl
      simp only [Option.map_some', Option.some_bind] at hl
      unfold iterateFrom at hl
      by_cases hc : h1.next = -1
      · exact Or.inl hc
      · right
        have hne : (⟨h1.next⟩ : Iterator) ≠ a.end := by
          intro hx
          exact hc (congrArg Iterator.current_id hx)
        rw [if_pos hne] at hl
        simp only [Option.bind_eq_bind, Option.bind_eq_some, Option.pure_def,
          Option.some.injEq] at hl
        obtain ⟨it', hadv, rest, _, hids⟩ := hl
        unfold Iterator.advance at hadv
        rw [if_pos hc] at hadv
        cases he : entryAt a._entry_list h1.next with
        | none => rw [he] at hadv; cases hadv
        | some e =>
          have hb := entryAt_some_bound _ _ _ he
          have hmem : (⟨h1.next⟩ : Iterator).deref ∈ descending n := by
            rw [← hids]; exact List.mem_cons_self _ _
          have := descending_nonneg n _ hmem
          unfold Iterator.deref at this
          simp only at this
          exact ⟨by omega, hb.2⟩
    obtain ⟨a', halloc, hfree', hmax⟩ := allocate_fresh a h0 h1 hh0 hfree hh1 hvalid
    have hk : (a._entry_list.length : Int) - 2 = (n : Int) := by rw [hlen]; push_cast; omega
    rw [hk] at halloc
    refine ⟨a', halloc, ⟨?_, hfree', ?_⟩, hmax⟩
    · rcases allocate_length a a' n halloc with hl | hl
      · rw [hl.2, hlen]
      · omega
    · rw [descending_succ]
      exact liveIteration_allocate a a' n (descending n) (n + 1) halloc (by omega) hlive
        (descending_nonneg n) (fun hx => by have := descending_lt n _ hx; omega)

/-- Consecutive allocations on an allocator whose ids are all live. -/
theorem runCalls_allocate_allLive :
    ∀ (n : Nat) (a : IDAllocator) (n0 : Nat), allLive a n0 →
      ∃ a', runCalls a (List.replicate n Call.allocate) = some a' ∧ allLive a' (n0 + n) ∧
        a'._cur_max_id = a._cur_max_id + n := by
  intro n
  induction n with
  | zero => intro a n0 h; exact ⟨a, rfl, h, by simp⟩
  | succ m ih =>
    intro a n0 h
    obtain ⟨a1, h1, hl1, hm1⟩ := allocate_allLive a n0 h
    obtain ⟨a2, h2, hl2, hm2⟩ := ih a1 (n0 + 1) hl1
    refine ⟨a2, ?_, ?_, ?_⟩
    · rw [List.replicate_succ]
      unfold runCalls
      rw [h1, Option.some_bind]
      exact h2
    · have : n0 + (m + 1) = n0 + 1 + m := by omega
      rw [this]; exact hl2
    · rw [hm2, hm1]; push_cast; omega

end MTB.IDAllocator

namespace MTB.IDAllocator

/-- A `free(b)` that gets past its guard leaves `b` on top of the free list. -/
theorem free_head (a a1 : IDAllocator) (b : Int)
    (hguard : a.isAllocated (b + 2) = some false) (hfree : a.free b = some a1) :
    0 ≤ b + 2 ∧ ∃ e, entryAt a1._entry_list 0 = some e ∧ e.next = b + 2 := by
  unfold free at hfree
  simp only [Option.bind_eq_bind, hguard, Option.some_bind, Bool.false_eq_true, if_false,
    Option.bind_eq_some, Option.pure_def] at hfree
  obtain ⟨e1, he1, e2, he2, l1, hl1, l2, hl2, e3, he3, l3, hl3, l4, hl4, l5, hl5, hfin⟩ := hfree
  have ha1 : a1._entry_list = l5 := by cases hfin; rfl
  rw [ha1]
  exact ⟨(entryAt_some_bound _ _ _ he1).1, setNext_entryAt _ _ _ _ hl5⟩

/-- `allocate` hands out the id on top of the free list: after a `free(b)` that
got past its guard, the next `allocate()` returns `b`. -/
theorem allocate_after_free (a a1 a2 : IDAllocator) (b k : Int)
    (hguard : a.isAllocated (b + 2) = some false) (hfree : a.free b = some a1)
    (halloc : a1.allocate = some (k, a2)) : k = b := by
  obtain ⟨hb, e, he, hen⟩ := free_head a a1 b hguard hfree
  unfold allocate at halloc
  simp only [Option.bind_eq_bind, Option.bind_eq_some, Option.pure_def] at halloc
  obtain ⟨head, hhead, ⟨l1, c1⟩, h1, e0, he0, er, her, l2, hl2, l3, hl3, e1, he1, l4, hl4,
    l5, hl5, l6, hl6, hfin⟩ := halloc
  simp only at he0 her hl2 hfin
  rw [he] at hhead
  cases hhead
  have hne : ¬ e.next = -1 := by omega
  rw [if_neg hne] at h1
  have hl01 : a1._entry_list = l1 := by cases h1; rfl
  subst hl01
  rw [he] at he0
  cases he0
  have : k = e.next - 2 := by cases hfin; rfl
  omega

end MTB.IDAllocator
/-! ## Lemmas: appending rows without a grow -/

namespace mygsql

open MTB MTB.FileMapper StorageTable

/-- The grow loop of `allocateEntry` does nothing when the first byte of the
slot is mapped. -/
theorem StorageTable.growEntryMapper_mapped (entry_offset fuel : Nat) (m : FileMapper)
    (h : entry_offset < m._size) (hs : m._size < 2147483648) :
    growEntryMapper entry_offset (fuel + 1) m = some m := by
  have hsz : toSizeT m.get_file_size = m._size := by
    unfold get_file_size
    rw [toInt32_natCast _ hs]
    exact toSizeT_natCast _ (by omega)
  rw [growEntryMapper, hsz, if_neg (by omega)]

/-- Appending one row to the `oneIntSchema` table while fewer than 16382 rows
exist: no grow, one more slot. -/
theorem StorageTable.appendEntry_oneIntRows (t : StorageTable) (n : Nat) (v : Int)
    (h : t.oneIntRows n) (hn : n ≤ 16381) :
    ∃ e t', t.appendEntry [Value.IntValue v] = some (e, t') ∧ t'.oneIntRows (n + 1) := by
  obtain ⟨⟨m, hm, hsize, hblock⟩, hmap, hlist, hes, hnum, a, ha, hlive⟩ := h
  obtain ⟨a', halloc, hlive', _⟩ := IDAllocator.allocate_allLive a n hlive
  obtain ⟨m1, n', hg, hn', _, hfit, heq⟩ := allocateEntry_eq t a a' m n ha hm halloc
    (by rw [hnum, hlive.1]) (by omega) (by omega) (by omega) (by omega) (by omega) (by omega)
    (by omega) (by rw [hes, hblock]; omega) (Or.inl (by rw [hes]; omega))
  rw [hes] at hg hfit heq
  rw [growEntryMapper_mapped (4 + n * 4) (4 + n * 4) m (by omega) (by omega)] at hg
  cases hg
  have hn1 : n' = n + 1 := by have := hlive'.1; omega
  subst hn1
  have hmod : (n * 4) % 4294967296 = n * 4 := Nat.mod_eq_of_lt (by omega)
  rw [hmod] at heq
  -- the table after `allocateEntry`
  have heq' : ∃ t1, t.allocateEntry = some (⟨n * 4, n⟩, t1) ∧
      t1._entry_mapper = some ((m.poke (4 + n * 4) (be32Bytes 1)).poke 0 (be32Bytes (n + 1))) ∧
      t1._type_item_map = [([107], 0)] ∧
      t1._type_item_list = [⟨[107], ValueType.INT, true, 4⟩] ∧
      t1._entry_size = 4 ∧ t1._entry_list_num = n + 1 ∧ t1._entry_allocator = some a' :=
    ⟨_, heq, rfl, hmap, hlist, rfl, rfl, rfl⟩
  clear heq
  obtain ⟨t1, heq, hm1, hmap1, hlist1, hes1, hnum1, ha1⟩ := heq'
  have hset := Entry.set_target t1 ⟨n * 4, n⟩ 4 (by rw [hes1]; show 4 + 4 * n < _; omega)
  rw [hes1] at hset
  have hsetInt := Entry.setInt_eq t1 ⟨n * 4, n⟩
    ((m.poke (4 + n * 4) (be32Bytes 1)).poke 0 (be32Bytes (n + 1))) [107] 0
    ⟨[107], ValueType.INT, true, 4⟩ (4 + 4 * n + 4) v hm1 (by rw [hmap1]; rfl)
    (by rw [hlist1]; rfl) rfl hset (by show _ ≤ m._size; omega)
  refine ⟨⟨n * 4, n⟩, { t1 with _entry_mapper := some (((m.poke (4 + n * 4) (be32Bytes 1)).poke 0 (be32Bytes (n + 1))).poke (4 + 4 * n + 4) (be32Bytes (toUInt32 v))) }, ?_, ?_⟩
  · unfold appendEntry
    simp only [Option.bind_eq_bind]
    rw [heq, Option.some_bind]
    unfold appendValues
    simp only [Option.bind_eq_bind]
    rw [hlist1]
    simp only [List.getElem?_cons_zero, Option.some_bind]
    unfold Entry.set
    simp only []
    rw [hsetInt, Option.some_bind]
    unfold appendValues
    rw [hlist1]
    rfl
  · refine ⟨⟨_, rfl, ?_, ?_⟩, hmap1, hlist1, hes1, hnum1, a', ha1, hlive'⟩
    · show m._size = 65536
      exact hsize
    · show m._logical_block = 65536
      exact hblock

/-- Appending rows one after the other to the `oneIntSchema` table. -/
theorem appendRows_oneIntRows :
    ∀ (vs : List Int) (t : StorageTable) (n : Nat), t.oneIntRows n → n + vs.length ≤ 16382 →
      ∃ t', appendRows t (vs.map fun v => [Value.IntValue v]) = some t' ∧
        t'.oneIntRows (n + vs.length) := by
  intro vs
  induction vs with
  | nil => intro t n h _; exact ⟨t, rfl, h⟩
  | cons v rest ih =>
    intro t n h hlen
    rw [List.length_cons] at hlen
    obtain ⟨e, t1, h1, hr1⟩ := appendEntry_oneIntRows t n v h (by omega)
    obtain ⟨t2, h2, hr2⟩ := ih t1 (n + 1) hr1 (by omega)
    refine ⟨t2, ?_, ?_⟩
    · rw [List.map_cons]
      unfold appendRows
      rw [h1, Option.some_bind]
      exact h2
    · rw [List.length_cons]
      have : n + (rest.length + 1) = n + 1 + rest.length := by omega
      rw [this]; exact hr2

/-- The creating constructor builds the `oneIntSchema` table with no rows. -/
theorem create_oneIntSchema :
    ∃ t, create false false 65536 oneIntSchema = some t ∧ t.oneIntRows 0 := by
  obtain ⟨idxm, loaded, h, _⟩ := create_eq 65536 oneIntSchema (by decide) (by decide) (by decide)
    (by decide) (by decide)
  exact ⟨_, h, ⟨_, rfl, rfl, rfl⟩, rfl, rfl, rfl, rfl, IDAllocator.empty, rfl,
    IDAllocator.allLive_empty⟩

end mygsql
/-! ## Lemmas: decoding and the layout of the index file -/

namespace mygsql

open MTB MTB.FileMapper IndexFile StorageTable

end mygsql

namespace MTB.FileMapper

theorem load32_lt (m : FileMapper) (a : Int) (w : Nat) (h : m.load32 a = some w) :
    w < 4294967296 := by
  unfold load32 at h
  split at h
  · simp only [Option.some.injEq] at h
    have h0 := (m._memory a.toNat).isLt
    have h1 := (m._memory (a.toNat + 1)).isLt
    have h2 := (m._memory (a.toNat + 2)).isLt
    have h3 := (m._memory (a.toNat + 3)).isLt
    omega
  · cases h

end MTB.FileMapper

namespace mygsql.IndexFile

open MTB MTB.FileMapper

/-- The descriptor of the `i`-th unit the loop of `LoadFromBuffer` returns is
read at `start + 12 * i`, its name at its offset in the string area. -/
theorem readUnits_getElem (m : FileMapper) (sa : Int) :
    ∀ (n start : Nat) (us : List IndexUnit), start + 12 * n < 2147483648 →
      readUnits m sa n (start : Int) = some us →
      ∀ i u, us[i]? = some u →
        m.load32 ((start + 12 * i : Nat) : Int) = some u.name_index ∧
        m.load32 ((start + 12 * i + 4 : Nat) : Int) = some u.name_length ∧
        (∃ w, m.load32 ((start + 12 * i + 8 : Nat) : Int) = some w ∧
          u.data_type = ⟨toInt32 w⟩) ∧
        m.readBytes (sa + u.name_index) u.name_length = some u.name := by
  intro n
  induction n with
  | zero =>
    intro start us _ h i u hi
    unfold readUnits at h
    cases h
    simp at hi
  | succ k ih =>
    intro start us hb h i u hi
    unfold readUnits at h
    simp only [Option.bind_eq_bind, Option.bind_eq_some, Option.pure_def,
      Option.some.injEq] at h
    obtain ⟨ni, hni, nl, hnl, w, hw, name, hname, rest, hrest, hus⟩ := h
    subst hus
    have hadv : mtb_ptr_advance (start : Int) (unit_size : Int) = ((start + 12 : Nat) : Int) := by
      rw [unit_size_eq]
      exact mtb_ptr_advance_natCast start 12 (by omega)
    rw [hadv] at hrest
    cases i with
    | zero =>
      simp only [List.getElem?_cons_zero, Option.some.injEq] at hi
      subst hi
      have e0 : ((start + 12 * 0 : Nat) : Int) = (start : Int) := by simp
      have e4 : ((start + 12 * 0 + 4 : Nat) : Int) = (start : Int) + 4 := by push_cast; ring
      have e8 : ((start + 12 * 0 + 8 : Nat) : Int) = (start : Int) + 8 := by push_cast; ring
      rw [e0, e4, e8]
      exact ⟨hni, hnl, ⟨w, hw, rfl⟩, hname⟩
    | succ j =>
      simp only [List.getElem?_cons_succ] at hi
      have := ih (start + 12) rest (by omega) hrest j u hi
      have e : start + 12 + 12 * j = start + 12 * (j + 1) := by ring
      rw [e] at this
      exact this

theorem assignNameIndexes_length :
    ∀ (us : List IndexUnit) (cur : Int), (assignNameIndexes cur us).length = us.length := by
  intro us
  induction us with
  | nil => intro cur; rfl
  | cons x rest ih =>
    intro cur
    simp only [assignNameIndexes, List.length_cons, ih]

/-- The `i`-th unit after the first loop of `saveToBuffer`: its name offset is
the total length of the names before it. -/
theorem assignNameIndexes_getElem :
    ∀ (us : List IndexUnit) (cur i : Nat) (u' : IndexUnit),
      cur + namesLength us < 2147483648 →
      (assignNameIndexes (cur : Int) us)[i]? = some u' →
      ∃ u, us[i]? = some u ∧ u'.name_index = cur + namesLength (us.take i) ∧
        u'.name_length = u.name.length ∧ u'.data_type = u.data_type ∧ u'.name = u.name := by
  intro us
  induction us with
  | nil => intro cur i u' _ h; simp [assignNameIndexes] at h
  | cons x rest ih =>
    intro cur i u' hb h
    rw [namesLength_cons] at hb
    have hcur : toUInt32 (cur : Int) = cur := toUInt32_natCast _ (by omega)
    have hlen : toUInt32 (x.name.length : Int) = x.name.length := toUInt32_natCast _ (by omega)
    have hnext : toInt32 ((cur : Int) + (x.name.length : Nat))
        = ((cur + x.name.length : Nat) : Int) := by
      rw [← Nat.cast_add]; exact toInt32_natCast _ (by omega)
    simp only [assignNameIndexes, hcur, hlen, hnext] at h
    cases i with
    | zero =>
      simp only [List.getElem?_cons_zero, Option.some.injEq] at h
      subst h
      exact ⟨x, by simp, by simp [namesLength], rfl, rfl, rfl⟩
    | succ j =>
      simp only [List.getElem?_cons_succ] at h
      obtain ⟨u, hu, h1, h2, h3, h4⟩ := ih (cur + x.name.length) j u' (by omega) h
      refine ⟨u, by simpa using hu, ?_, h2, h3, h4⟩
      rw [h1, List.take_succ_cons, namesLength_cons]
      omega

end mygsql.IndexFile

namespace mygsql

open MTB MTB.FileMapper IndexFile

/-- What `saveToBuffer` leaves in the mapping: the two header words, the
descriptors and names as the loop of `LoadFromBuffer` reads them, and nothing
at or above the serialised size. -/
theorem IndexFile.saveToBuffer_layout (self : IndexFile) (m : FileMapper)
    (hcount : self.index_size = self.index_units.length)
    (hprimary : self.primary_index < 4294967296)
    (htypes : ∀ u ∈ self.index_units,
      u.data_type = ValueType.INT ∨ u.data_type = ValueType.STRING)
    (hfit : self.serializedSize ≤ m._size)
    (hsize : m._size < 2147483648) :
    ∃ saved m', self.saveToBuffer m 0 = some (saved, m') ∧
      m'.load32 ((0 : Nat) : Int) = some self.index_size ∧
      m'.load32 ((4 : Nat) : Int) = some self.primary_index ∧
      readUnits m' ((8 + 12 * self.index_units.length : Nat) : Int) self.index_units.length
        ((8 : Nat) : Int) = some (assignNameIndexes 0 self.index_units) ∧
      (∀ x, self.serializedSize ≤ x → m'._memory x = m._memory x) := by
  unfold serializedSize at hfit ⊢
  generalize hn : self.index_units.length = n at hfit hcount ⊢
  have hsa : ((0 : Int) + 8) + (((unit_size * self.index_size) % 4294967296 : Nat) : Int)
      = ((8 + 12 * n : Nat) : Int) := by
    rw [unit_size_eq, hcount, Nat.mod_eq_of_lt (by omega)]
    push_cast; ring
  let m1 := m.poke 0 (be32Bytes self.index_size)
  let m2 := m1.poke 4 (be32Bytes self.primary_index)
  obtain ⟨m', hw, hs', hlb', hframe, hread⟩ :=
    writeUnits_readUnits (8 + 12 * n) self.index_units m2 8 0 htypes (by omega)
      (by show _ ≤ m._size; omega) (by show m._size < _; exact hsize)
  rw [hn] at hread
  rw [Nat.cast_zero] at hw hread
  have e0 : (0 : Int) = ((0 : Nat) : Int) := rfl
  have e4 : ((0 : Int) + 4) = ((4 : Nat) : Int) := rfl
  have e8 : ((0 : Int) + 8) = ((8 : Nat) : Int) := rfl
  refine ⟨{ self with index_units := assignNameIndexes 0 self.index_units }, m', ?_, ?_, ?_,
    hread, ?_⟩
  · unfold saveToBuffer
    simp only [Option.bind_eq_bind]
    rw [hsa, e4, e8]
    nth_rewrite 1 [e0]
    rw [store32_natCast m 0 _ (by omega), Option.some_bind,
      store32_natCast m1 4 _ (by show _ ≤ m._size; omega), Option.some_bind, hw]
    rfl
  · rw [load32_congr m2 m' 0 hs' (fun x _ _ => hframe x (by omega))]
    show (m1.poke 4 _).load32 _ = _
    rw [load32_poke_outside _ _ _ _ (by omega)]
    show (m.poke 0 _).load32 _ = _
    rw [load32_poke_be32 _ _ _ (by omega), Nat.mod_eq_of_lt (by omega)]
  · rw [load32_congr m2 m' 4 hs' (fun x _ _ => hframe x (by omega))]
    show (m1.poke 4 _).load32 _ = _
    rw [load32_poke_be32 _ _ _ (by show _ ≤ m._size; omega), Nat.mod_eq_of_lt hprimary]
  · intro x hx
    rw [hframe x (by omega)]
    show (m1.poke 4 _)._memory x = _
    rw [poke_memory_outside _ _ _ _ (by rw [be32Bytes_length]; omega)]
    show (m.poke 0 _)._memory x = _
    rw [poke_memory_outside _ _ _ _ (by rw [be32Bytes_length]; omega)]

end mygsql
/-! ## Lemmas: comparisons and the name-to-index map -/

namespace mygsql

open MTB

/-- `ValueMeetsCondition` on two INT values whose difference is an `int`. -/
theorem ValueMeetsCondition_int (r : TotalOrderRelation) (a b : Int)
    (h0 : -2147483648 ≤ a - b) (h1 : a - b < 2147483648) :
    ValueMeetsCondition r (Value.IntValue a) (Value.IntValue b)
      = some (MeetsResult.returned (r.holds a b)) := by
  have hc : (Value.IntValue a).compare (Value.IntValue b) = some (a - b) := by
    show (if -2147483648 ≤ a - b ∧ a - b < 2147483648 then some (a - b) else none) = _
    rw [if_pos ⟨h0, h1⟩]
  have ht : toInt32 (a - b) = a - b := by unfold toInt32; omega
  unfold ValueMeetsCondition
  simp only [Value.get_value_type, ne_eq, not_true_eq_false, if_false, Option.bind_eq_bind]
  rw [hc, Option.some_bind, ht]
  have e0 : (a - b = 0) ↔ a = b := by omega
  have e1 : (a - b < 0) ↔ a < b := by omega
  have e2 : (a - b > 0) ↔ b < a := by omega
  simp only [e0, e1, e2]
  rcases lt_trichotomy a b with h | h | h
  · have n1 : ¬ a = b := by omega
    have n2 : ¬ b < a := by omega
    have n3 : a ≤ b := by omega
    have n4 : ¬ b ≤ a := by omega
    cases r <;> simp [TotalOrderRelation.mask, TotalOrderRelation.holds, h, n1, n2, n3, n4]
  · subst h
    cases r <;> simp [TotalOrderRelation.mask, TotalOrderRelation.holds] <;> decide
  · have n1 : ¬ a = b := by omega
    have n2 : ¬ a < b := by omega
    have n3 : b ≤ a := by omega
    have n4 : ¬ a ≤ b := by omega
    cases r <;> simp [TotalOrderRelation.mask, TotalOrderRelation.holds, h, n1, n2, n3, n4] <;> decide

end mygsql

namespace mygsql

open MTB

/-- The step of the loop of `_initKeyIndexMap`. -/
theorem keyFold_isSome (items : List StorageTypeItem) :
    ∀ (m : List (List Byte × Int)) (n : Int) (key : List Byte),
      (m.lookup key).isSome = true →
      (items.foldl
        (fun (st : List (List Byte × Int) × Int) i => (mapInsert st.1 i.name st.2, st.2 + 1))
        (m, n)).1.lookup key = m.lookup key := by
  induction items with
  | nil => intro m n key _; rfl
  | cons c rest ih =>
    intro m n key h
    have h1 := mapInsert_lookup_of_isSome m c.name key n h
    rw [List.foldl_cons, ih (mapInsert m c.name n) (n + 1) key (by rw [h1]; exact h), h1]

/-- A name no column carries stays absent from the map of `_initKeyIndexMap`. -/
theorem keyFold_absent (items : List StorageTypeItem) :
    ∀ (m : List (List Byte × Int)) (n : Int) (key : List Byte),
      m.lookup key = none → (∀ c ∈ items, c.name ≠ key) →
      (items.foldl
        (fun (st : List (List Byte × Int) × Int) i => (mapInsert st.1 i.name st.2, st.2 + 1))
        (m, n)).1.lookup key = none := by
  induction items with
  | nil => intro m n key h _; exact h
  | cons c rest ih =>
    intro m n key h hne
    rw [List.foldl_cons]
    apply ih
    · exact mapInsert_lookup_ne m c.name key n (fun e => hne c (List.mem_cons_self _ _) e.symm) h
    · intro d hd
      exact hne d (List.mem_cons_of_mem _ hd)

/-- The map of `_initKeyIndexMap` sends the name of the `k`-th column to
`n + k` when the names are distinct and new. -/
theorem keyFold_lookup (items : List StorageTypeItem) :
    ∀ (m : List (List Byte × Int)) (n : Int) (k : Nat) (c : StorageTypeItem),
      (items.map fun i => i.name).Nodup → (∀ d ∈ items, m.lookup d.name = none) →
      items[k]? = some c →
      (items.foldl
        (fun (st : List (List Byte × Int) × Int) i => (mapInsert st.1 i.name st.2, st.2 + 1))
        (m, n)).1.lookup c.name = some (n + (k : Int)) := by
  induction items with
  | nil => intro m n k c _ _ h; simp at h
  | cons d rest ih =>
    intro m n k c hnd hm hk
    rw [List.map_cons, List.nodup_cons] at hnd
    rw [List.foldl_cons]
    cases k with
    | zero =>
      have hc : d = c := by simpa using hk
      subst hc
      have h1 := mapInsert_lookup_self m d.name n (hm d (List.mem_cons_self _ _))
      rw [keyFold_isSome rest _ _ _ (by rw [h1]; rfl), h1]
      simp
    | succ j =>
      have hk2 : rest[j]? = some c := by simpa using hk
      have := ih (mapInsert m d.name n) (n + 1) j c hnd.2 (by
        intro e he
        apply mapInsert_lookup_ne
        · intro heq
          apply hnd.1
          rw [← heq]
          exact List.mem_map_of_mem (fun i => i.name) he
        · exact hm e (List.mem_cons_of_mem _ he)) hk2
      rw [this]
      congr 1
      push_cast
      omega

end mygsql

/-! ## Lemmas: the error flag is not read -/

namespace mygsql

open MTB MTB.FileMapper IndexFile StorageTable

/-- `allocateEntry` does not read `_has_error`: it does the same on a table
whatever the flag is, and leaves the flag as it was. -/
theorem allocateEntry_has_error (t : StorageTable) (b : Bool) :
    ({ t with _has_error := b } : StorageTable).allocateEntry
      = t.allocateEntry.map fun x => (x.1, { x.2 with _has_error := b }) := by
  unfold allocateEntry
  simp only [Option.bind_eq_bind, Option.pure_def]
  cases t._entry_allocator with
  | none => rfl
  | some a =>
    simp only [Option.some_bind]
    cases a.allocate with
    | none => rfl
    | some r =>
      simp only [Option.some_bind]
      cases t._entry_mapper with
      | none => split <;> rfl
      | some m =>
        by_cases hc : toUInt32 r.1 ≥ t._entry_list_num
        · simp only [if_pos hc]
          rw [Option.some_bind, Option.some_bind]
          simp only [_getEntryOffset, _getEntryMemory, _getEntryStartMemory]
          cases growEntryMapper (i32size + toSizeT r.1 * t._entry_size)
              (i32size + toSizeT r.1 * t._entry_size + 1) m with
          | none => rfl
          | some m1 =>
            rw [Option.some_bind, Option.some_bind]
            cases m1.store32 (mtb_ptr_advance (mtb_ptr_advance 0 ↑i32size)
                (↑t._entry_size * ↑(toSizeT r.1))) 1 with
            | none => rfl
            | some m2 =>
              rw [Option.some_bind, Option.some_bind]
              cases m2.store32 0 ((t._entry_list_num + 1) % 4294967296) with
              | none => rfl
              | some m3 => rfl
        · simp only [if_neg hc]
          rw [Option.some_bind, Option.some_bind]
          simp only [_getEntryOffset, _getEntryMemory, _getEntryStartMemory]
          cases growEntryMapper (i32size + toSizeT r.1 * t._entry_size)
              (i32size + toSizeT r.1 * t._entry_size + 1) m with
          | none => rfl
          | some m1 =>
            rw [Option.some_bind, Option.some_bind]
            cases m1.store32 (mtb_ptr_advance (mtb_ptr_advance 0 ↑i32size)
                (↑t._entry_size * ↑(toSizeT r.1))) 1 with
            | none => rfl
            | some m2 =>
              rw [Option.some_bind, Option.some_bind]
              cases m2.store32 0 t._entry_list_num with
              | none => rfl
              | some m3 => rfl

/-- `deleteEntryByID` does not read `_has_error`. -/
theorem deleteEntryByID_has_error (t : StorageTable) (b : Bool) (id : Int) :
    ({ t with _has_error := b } : StorageTable).deleteEntryByID id
      = (t.deleteEntryByID id).map fun x => (x.1, { x.2 with _has_error := b }) := by
  obtain ⟨em, im, tm, tl, es, en, po, ea, ti, he⟩ := t
  unfold deleteEntryByID
  simp only [Option.bind_eq_bind, Option.pure_def]
  cases ea with
  | none => rfl
  | some a =>
    rw [Option.some_bind, Option.some_bind]
    cases a.isAllocated id with
    | none => rfl
    | some f =>
      rw [Option.some_bind, Option.some_bind]
      cases f with
      | false => rfl
      | true =>
        simp only [Bool.true_eq_false, if_false]
        cases em with
        | none => rfl
        | some m =>
          rw [Option.some_bind, Option.some_bind]
          simp only [_getEntryMemory, _getEntryStartMemory]
          cases m.store32 (mtb_ptr_advance (mtb_ptr_advance 0 ↑i32size)
              (↑es * ↑(toSizeT id))) 0 with
          | none => rfl
          | some m1 =>
            rw [Option.some_bind, Option.some_bind]
            cases a.free id with
            | none => rfl
            | some a1 => rfl

/-- The traversals do not read `_has_error`. -/
theorem traverseReadEntries_has_error (t : StorageTable) (b : Bool) (fuel : Nat) :
    ({ t with _has_error := b } : StorageTable).traverseReadEntries fuel
      = t.traverseReadEntries fuel ∧
    ({ t with _has_error := b } : StorageTable).traverseRWEntries fuel
      = t.traverseRWEntries fuel :=
  ⟨rfl, rfl⟩

/-- With a null `_entry_allocator` every operation dereferences a null
pointer. -/
theorem operations_without_allocator (t : StorageTable) (h : t._entry_allocator = none)
    (fuel : Nat) (id : Int) (value_list : List Value) :
    t.allocateEntry = none ∧ t.appendEntry value_list = none ∧ t.deleteEntryByID id = none ∧
    t.traverseReadEntries fuel = none ∧ t.traverseRWEntries fuel = none := by
  have h1 : t.allocateEntry = none := by
    unfold allocateEntry
    rw [h]
    rfl
  refine ⟨h1, ?_, ?_, ?_, ?_⟩
  · unfold appendEntry
    rw [h1]
    rfl
  · unfold deleteEntryByID
    rw [h]
    rfl
  · unfold traverseReadEntries
    rw [h]
    rfl
  · unfold traverseRWEntries
    rw [h]
    rfl

end mygsql

namespace mygsql

open MTB MTB.FileMapper IndexFile StorageTable

/-- `Entry::set` does not read `_has_error`. -/
theorem Entry.set_has_error (t : StorageTable) (b : Bool) (e : Entry) (name : List Byte)
    (v : Value) :
    Entry.set ({ t with _has_error := b } : StorageTable) e name v
      = (Entry.set t e name v).map fun x => (x.1, { x.2 with _has_error := b }) := by
  obtain ⟨em, im, tm, tl, es, en, po, ea, ti, he⟩ := t
  cases v with
  | IntValue i =>
    unfold Entry.set Entry.setInt
    simp only
    cases tm.lookup name with
    | none => rfl
    | some pos =>
      simp only [Option.bind_eq_bind]
      cases tl[pos]? with
      | none => rfl
      | some c =>
        rw [Option.some_bind, Option.some_bind]
        by_cases hc : c.type ≠ ValueType.INT
        · rw [if_pos hc, if_pos hc]
          rfl
        · rw [if_neg hc, if_neg hc]
          cases em with
          | none => rfl
          | some m =>
            rw [Option.some_bind, Option.some_bind]
            simp only [Entry.getMemory, _getEntryMemory, _getEntryStartMemory]
            cases m.store32 (mtb_ptr_advance (mtb_ptr_advance (mtb_ptr_advance 0 ↑i32size) (↑es * ↑e._header_index)) ↑i32size + ↑c.offset - ↑i32size) (toUInt32 i) with
            | none => rfl
            | some m1 => rfl
  | StringValue str =>
    unfold Entry.set Entry.setString
    simp only
    by_cases hl : str.length > 256
    · rw [if_pos hl, if_pos hl]
      rfl
    · rw [if_neg hl, if_neg hl]
      cases tm.lookup name with
      | none => rfl
      | some pos =>
        simp only [Option.bind_eq_bind]
        cases tl[pos]? with
        | none => rfl
        | some c =>
          rw [Option.some_bind, Option.some_bind]
          by_cases hc : c.type ≠ ValueType.STRING
          · rw [if_pos hc, if_pos hc]
            rfl
          · rw [if_neg hc, if_neg hc]
            cases em with
            | none => rfl
            | some m =>
              rw [Option.some_bind, Option.some_bind]
              simp only [Entry.getMemory, _getEntryMemory, _getEntryStartMemory]
              cases m.store32 (mtb_ptr_advance (mtb_ptr_advance (mtb_ptr_advance 0 ↑i32size) (↑es * ↑e._header_index)) ↑i32size + ↑c.offset - ↑i32size) (toUInt32 ↑str.length) with
              | none => rfl
              | some m1 =>
                rw [Option.some_bind, Option.some_bind]
                cases m1.writeBytes (mtb_ptr_advance (mtb_ptr_advance (mtb_ptr_advance (mtb_ptr_advance 0 ↑i32size) (↑es * ↑e._header_index)) ↑i32size + ↑c.offset - ↑i32size) ↑i32size) str with
                | none => rfl
                | some m2 => rfl

/-- The loop of `appendEntry` does not read `_has_error`. -/
theorem appendValues_has_error (e : Entry) (b : Bool) (vs : List Value) :
    ∀ (t : StorageTable) (index : Nat),
      appendValues e ({ t with _has_error := b } : StorageTable) index vs
        = (appendValues e t index vs).map fun x => { x with _has_error := b } := by
  induction vs with
  | nil => intro t index; rfl
  | cons v rest ih =>
    intro t index
    rw [appendValues, appendValues]
    simp only [Option.bind_eq_bind]
    show Option.bind (t._type_item_list[index]?) _ = _
    cases t._type_item_list[index]? with
    | none => rfl
    | some item =>
      rw [Option.some_bind, Option.some_bind, Entry.set_has_error]
      cases Entry.set t e item.name v with
      | none => rfl
      | some r =>
        rw [Option.map_some', Option.some_bind, Option.some_bind]
        exact ih r.2 (index + 1)

/-- `appendEntry` does not read `_has_error`. -/
theorem appendEntry_has_error (t : StorageTable) (b : Bool) (vs : List Value) :
    ({ t with _has_error := b } : StorageTable).appendEntry vs
      = (t.appendEntry vs).map fun x => (x.1, { x.2 with _has_error := b }) := by
  unfold appendEntry
  simp only [Option.bind_eq_bind, Option.pure_def]
  rw [allocateEntry_has_error]
  cases t.allocateEntry with
  | none => rfl
  | some r =>
    rw [Option.map_some', Option.some_bind, Option.some_bind]
    simp only
    rw [appendValues_has_error]
    cases appendValues r.1 r.2 0 vs with
    | none => rfl
    | some t1 => rfl

/-- The loop of `deleteEntryByPrimaryKey` does not read `_has_error`. -/
theorem deleteEntries_has_error (b : Bool) (es : List Entry) :
    ∀ (t : StorageTable),
      deleteEntries ({ t with _has_error := b } : StorageTable) es
        = (deleteEntries t es).map fun x => { x with _has_error := b } := by
  induction es with
  | nil => intro t; rfl
  | cons e rest ih =>
    intro t
    rw [deleteEntries, deleteEntries]
    simp only [Option.bind_eq_bind]
    unfold deleteEntry
    rw [deleteEntryByID_has_error]
    cases t.deleteEntryByID (toInt32 e._header_index) with
    | none => rfl
    | some r =>
      rw [Option.map_some', Option.some_bind, Option.some_bind]
      exact ih r.2

/-- `deleteEntryByPrimaryKey` does not read `_has_error`. -/
theorem deleteEntryByPrimaryKey_has_error (t : StorageTable) (b : Bool) (fuel : Nat)
    (value : Value) :
    ({ t with _has_error := b } : StorageTable).deleteEntryByPrimaryKey fuel value
      = (t.deleteEntryByPrimaryKey fuel value).map fun x => (x.1, { x.2 with _has_error := b }) := by
  unfold deleteEntryByPrimaryKey
  simp only [Option.bind_eq_bind, Option.pure_def]
  show Option.bind (t.getPrimaryIndex) _ = _
  cases t.getPrimaryIndex with
  | none => rfl
  | some c =>
    rw [Option.some_bind, Option.some_bind]
    by_cases hc : value.get_value_type ≠ c.type
    · rw [if_pos hc, if_pos hc]
      rfl
    · rw [if_neg hc, if_neg hc]
      show Option.bind (t.traverseReadEntries fuel) _ = _
      cases t.traverseReadEntries fuel with
      | none => rfl
      | some es =>
        rw [Option.some_bind, Option.some_bind, deleteEntries_has_error]
        cases deleteEntries t es with
        | none => rfl
        | some t1 => rfl

end mygsql

/-! ## Lemmas: the opening constructor -/

namespace mygsql.StorageTable

open MTB MTB.FileMapper IndexFile

/-- The loop of `_loadIndexFile` over units with distinct names that are not in
the name map yet: every unit becomes a column at the next packed offset. -/
theorem loadUnits_spec (us : List IndexUnit) :
    ∀ (self : StorageTable) (off : Nat),
      (∀ u ∈ us, self._type_item_map.lookup u.name = none) →
      (us.map fun u => u.name).Nodup →
      off + columnsSize (us.map itemOfUnit) < 4294967296 →
      loadUnits self off us
        = ({ self with
              _type_item_list := self._type_item_list ++ withOffsets off (us.map itemOfUnit)
              _type_item_map :=
                insertNames self._type_item_map self._type_item_list.length
                  (us.map fun u => u.name) },
            off + columnsSize (us.map itemOfUnit), false) := by
  induction us with
  | nil =>
    intro self off _ _ _
    simp [loadUnits, withOffsets, insertNames, columnsSize]
  | cons i rest ih =>
    intro self off habs hnd hb
    rw [List.map_cons, List.nodup_cons] at hnd
    rw [List.map_cons, columnsSize_cons] at hb
    have hi : self._type_item_map.lookup i.name = none := habs i (List.mem_cons_self _ _)
    have hty : (itemOfUnit i).type = i.data_type := rfl
    rw [hty] at hb
    rw [loadUnits, hi]
    simp only [Option.isSome_none, Bool.false_eq_true, if_false]
    rw [Nat.mod_eq_of_lt (by omega), ih _ _ ?_ hnd.2 (by omega)]
    · simp only [List.map_cons, withOffsets, insertNames, columnsSize_cons, List.length_append,
        List.length_singleton, List.append_assoc, List.singleton_append, hty]
      have e : off + DataTypeGetSize i.data_type + columnsSize (List.map itemOfUnit rest)
          = off + (DataTypeGetSize i.data_type + columnsSize (List.map itemOfUnit rest)) := by
        omega
      rw [e]
      rfl
    · intro u hu
      refine mapInsert_lookup_ne _ _ _ _ ?_ (habs u (List.mem_cons_of_mem _ hu))
      intro hname
      exact hnd.1 (by rw [← hname]; exact List.mem_map_of_mem _ hu)

end mygsql.StorageTable

namespace mygsql.StorageTable

open MTB MTB.FileMapper IndexFile

/-- Marking one column primary changes neither names, types nor offsets. -/
theorem layout_set_primary (L : List StorageTypeItem) (p : Nat) (item : StorageTypeItem)
    (h : L[p]? = some item) :
    (L.set p { item with is_primary := true }).map (fun i => (i.name, i.type, i.offset))
      = L.map (fun i => (i.name, i.type, i.offset)) := by
  rw [List.map_set]
  apply List.ext_getElem?
  intro k
  by_cases hk : p = k
  · subst hk
    rw [List.getElem?_set_self]
    · simp [List.getElem?_map, h]
    · simp only [List.length_map]
      exact (List.getElem?_eq_some_iff.mp h).1
  · rw [List.getElem?_set_ne hk]

/-- `_loadIndexFile` on an index file that decodes to units with distinct
names. -/
theorem loadIndexFile_eq (self : StorageTable) (idx : File) (block : Nat) (loaded : IndexFile)
    (hload : LoadFromBuffer (FileMapper.ofExisting idx block) 0 = some loaded)
    (hmap : self._type_item_map = []) (hlist : self._type_item_list = [])
    (hnd : (loaded.index_units.map fun u => u.name).Nodup)
    (hb : 4 + columnsSize (loaded.index_units.map itemOfUnit) < 4294967296)
    (hprim : loaded.primary_index = 0xFFFFFFFF ∨
      loaded.primary_index < loaded.index_units.length) :
    ∃ L, self._loadIndexFile idx block
        = some { self with
            _index_mapper := some (FileMapper.ofExisting idx block)
            _type_item_list := L
            _type_item_map := insertNames [] 0 (loaded.index_units.map fun u => u.name)
            _primary_index_order := loaded.primary_index
            _entry_size := 4 + columnsSize (loaded.index_units.map itemOfUnit) } ∧
      L.map (fun i => (i.name, i.type, i.offset))
        = (withOffsets 4 (loaded.index_units.map itemOfUnit)).map
            (fun i => (i.name, i.type, i.offset)) := by
  obtain ⟨em, im, tm, tl, es, en, po, ea, ti, he⟩ := self
  simp only at hmap hlist
  subst hmap
  subst hlist
  have hlu := loadUnits_spec loaded.index_units
    { _entry_mapper := em, _index_mapper := some (FileMapper.ofExisting idx block), _type_item_map := [], _type_item_list := [], _entry_size := es, _entry_list_num := en, _primary_index_order := po, _entry_allocator := ea, _type_item_index_map := ti, _has_error := he } 4
    (by intro u _; rfl) hnd hb
  simp only [List.nil_append, List.length_nil] at hlu
  unfold _loadIndexFile
  simp only [Option.bind_eq_bind]
  rw [CreateFileMapper_some, Option.some_bind, hload, Option.some_bind, DataTypeGetSize_INT, hlu]
  simp only [Bool.false_eq_true, if_false]
  by_cases hne : loaded.primary_index = 0xFFFFFFFF
  · refine ⟨withOffsets 4 (loaded.index_units.map itemOfUnit), ?_, rfl⟩
    rw [if_neg (fun h => h hne)]
    rfl
  · have hp : loaded.primary_index < loaded.index_units.length := by
      rcases hprim with h | h
      · exact absurd h hne
      · exact h
    have hlt : loaded.primary_index
        < (withOffsets 4 (loaded.index_units.map itemOfUnit)).length := by
      rw [withOffsets_length, List.length_map]; exact hp
    obtain ⟨item, hitem⟩ : ∃ item,
        (withOffsets 4 (loaded.index_units.map itemOfUnit))[loaded.primary_index]? = some item :=
      ⟨_, List.getElem?_eq_getElem hlt⟩
    refine ⟨(withOffsets 4 (loaded.index_units.map itemOfUnit)).set loaded.primary_index
      { item with is_primary := true }, ?_, layout_set_primary _ _ _ hitem⟩
    rw [if_pos hne]
    show Option.bind (Option.map _ _) _ = _
    rw [hitem]
    rfl

end mygsql.StorageTable

namespace mygsql.StorageTable

open MTB MTB.FileMapper IndexFile

/-- The loop of `_loadIndexFile` stops with the error flag set when a name
occurs twice among the units or is in the name map already. -/
theorem loadUnits_dup (us : List IndexUnit) :
    ∀ (self : StorageTable) (off : Nat),
      (¬ (us.map fun u => u.name).Nodup ∨
        ∃ u ∈ us, (self._type_item_map.lookup u.name).isSome = true) →
      (loadUnits self off us).2.2 = true ∧ (loadUnits self off us).1._has_error = true := by
  induction us with
  | nil =>
    intro self off h
    rcases h with h | ⟨u, hu, _⟩
    · exact absurd List.nodup_nil h
    · simp at hu
  | cons i rest ih =>
    intro self off h
    by_cases hi : (self._type_item_map.lookup i.name).isSome = true
    · rw [loadUnits, if_pos hi]
      exact ⟨rfl, rfl⟩
    · rw [loadUnits, if_neg hi]
      apply ih
      have hnone : self._type_item_map.lookup i.name = none := by
        cases hl : self._type_item_map.lookup i.name with
        | none => rfl
        | some v => rw [hl] at hi; simp at hi
      rcases h with h | ⟨u, hu, hsome⟩
      · rw [List.map_cons, List.nodup_cons] at h
        by_cases hmem : i.name ∈ rest.map fun u => u.name
        · right
          obtain ⟨u, hu, hname⟩ := List.mem_map.mp hmem
          refine ⟨u, hu, ?_⟩
          show ((mapInsert self._type_item_map i.name self._type_item_list.length).lookup
            u.name).isSome = true
          rw [hname, mapInsert_lookup_self _ _ _ hnone]
          rfl
        · left
          intro hnd
          exact h ⟨hmem, hnd⟩
      · right
        rcases List.mem_cons.mp hu with hui | hur
        · subst hui
          exact absurd hsome hi
        · refine ⟨u, hur, ?_⟩
          show ((mapInsert self._type_item_map i.name self._type_item_list.length).lookup
            u.name).isSome = true
          rw [mapInsert_lookup_of_isSome _ _ _ _ hsome]
          exact hsome

/-- `_loadIndexFile` on an index file in which a name occurs twice returns
early with the error flag set. -/
theorem loadIndexFile_dup (self : StorageTable) (idx : File) (block : Nat) (loaded : IndexFile)
    (hload : LoadFromBuffer (FileMapper.ofExisting idx block) 0 = some loaded)
    (hdup : ¬ (loaded.index_units.map fun u => u.name).Nodup) :
    ∃ t, self._loadIndexFile idx block = some t ∧ t._has_error = true := by
  have h := loadUnits_dup loaded.index_units
    { self with _index_mapper := some (FileMapper.ofExisting idx block) }
    (DataTypeGetSize ValueType.INT) (Or.inl hdup)
  unfold _loadIndexFile
  simp only [Option.bind_eq_bind]
  rw [CreateFileMapper_some, Option.some_bind, hload, Option.some_bind]
  simp only [h.1, if_true]
  exact ⟨_, rfl, h.2⟩

/-- `_loadEntryFile` never clears the error flag. -/
theorem loadEntryFile_has_error (self t : StorageTable) (dat : File) (block : Nat)
    (h : self._loadEntryFile dat block = some t) (he : self._has_error = true) :
    t._has_error = true := by
  unfold _loadEntryFile at h
  simp only [Option.bind_eq_bind, Option.pure_def] at h
  rw [CreateFileMapper_some, Option.some_bind] at h
  cases hn : (FileMapper.ofExisting dat block).load32 0 with
  | none => rw [hn] at h; simp at h
  | some n =>
    rw [hn, Option.some_bind] at h
    split at h
    · have := Option.some.inj h
      rw [← this]
    · cases hv : loadFlags { self with _entry_mapper := some (FileMapper.ofExisting dat block), _entry_list_num := n } (FileMapper.ofExisting dat block) n 0 with
      | none => rw [hv] at h; simp at h
      | some vec =>
        rw [hv, Option.some_bind] at h
        cases ha : IDAllocator.ofBool8vec vec with
        | none => rw [ha] at h; simp at h
        | some a =>
          rw [ha, Option.some_bind] at h
          have := Option.some.inj h
          rw [← this]
          exact he

end mygsql.StorageTable

namespace mygsql.StorageTable

open MTB MTB.FileMapper IndexFile

/-- The flags `_loadEntryFile` collects depend on the table through its entry
size only. -/
theorem loadFlags_congr (s1 s2 : StorageTable) (m : FileMapper)
    (h : s1._entry_size = s2._entry_size) :
    ∀ (count i : Nat), loadFlags s1 m count i = loadFlags s2 m count i := by
  intro count
  induction count with
  | zero => intro i; rfl
  | succ c ih =>
    intro i
    have hm : s1._getEntryMemory i = s2._getEntryMemory i := by
      unfold _getEntryMemory _getEntryStartMemory
      rw [h]
    rw [loadFlags, loadFlags, hm, ih (i + 1)]

/-- `_loadEntryFile` on a data file that is long enough for its slot count and
whose flags rebuild an allocator. -/
theorem loadEntryFile_eq (self : StorageTable) (dat : File) (block n : Nat) (vec : List Bool)
    (a : IDAllocator)
    (hn : (FileMapper.ofExisting dat block).load32 0 = some n)
    (hfit : (n * self._entry_size) % 4294967296 + 4
      ≤ toSizeT (FileMapper.ofExisting dat block).get_file_size)
    (hflags : loadFlags self (FileMapper.ofExisting dat block) n 0 = some vec)
    (ha : IDAllocator.ofBool8vec vec = some a) :
    self._loadEntryFile dat block
      = some { self with _entry_mapper := some (FileMapper.ofExisting dat block), _entry_list_num := n, _entry_allocator := some a } := by
  have hf := loadFlags_congr { self with _entry_mapper := some (FileMapper.ofExisting dat block), _entry_list_num := n } self (FileMapper.ofExisting dat block) rfl n 0
  unfold _loadEntryFile
  simp only [Option.bind_eq_bind, Option.pure_def]
  rw [CreateFileMapper_some, Option.some_bind, hn, Option.some_bind]
  rw [i32size_eq, if_neg (by simpa using hfit)]
  rw [hf, hflags, Option.some_bind, ha, Option.some_bind]

/-- `_loadEntryFile` returns on every data file whose slot count is 0. -/
theorem loadEntryFile_zero (self : StorageTable) (dat : File) (block : Nat)
    (hn : (FileMapper.ofExisting dat block).load32 0 = some 0) :
    ∃ t, self._loadEntryFile dat block = some t := by
  unfold _loadEntryFile
  simp only [Option.bind_eq_bind, Option.pure_def]
  rw [CreateFileMapper_some, Option.some_bind, hn, Option.some_bind]
  split
  · exact ⟨_, rfl⟩
  · exact ⟨_, rfl⟩

end mygsql.StorageTable

namespace mygsql.StorageTable

open MTB MTB.FileMapper IndexFile

/-- The opening constructor sets the error flag when the directory or one of
the two files is missing. -/
theorem open_missing (dir_exists : Bool) (idx dat : Option File) (block uninit : Nat)
    (h : dir_exists = false ∨ idx = none ∨ dat = none) :
    ∃ t, StorageTable.open dir_exists idx dat block uninit = some t ∧ t._has_error = true := by
  cases dir_exists with
  | false => exact ⟨_, rfl, rfl⟩
  | true =>
    cases idx with
    | none => exact ⟨_, rfl, rfl⟩
    | some i =>
      cases dat with
      | none => exact ⟨_, rfl, rfl⟩
      | some d => simp at h

/-- The creating constructor sets the error flag when one of the two files
exists already. -/
theorem create_existing (idx_exists dat_exists : Bool) (block : Nat)
    (items : List StorageTypeItem) (h : idx_exists = true ∨ dat_exists = true) :
    ∃ t, create idx_exists dat_exists block items = some t ∧ t._has_error = true := by
  have hb : (idx_exists || dat_exists) = true := by
    rcases h with h | h <;> simp [h]
  unfold create
  simp only [hb, if_true]
  exact ⟨_, rfl, rfl⟩

/-- The opening constructor on an index file with distinct names and a data
file that is long enough for its slot count. -/
theorem open_eq (idx dat : File) (block uninit : Nat) (loaded : IndexFile) (n : Nat)
    (vec : List Bool) (a : IDAllocator)
    (hload : LoadFromBuffer (FileMapper.ofExisting idx block) 0 = some loaded)
    (hnd : (loaded.index_units.map fun u => u.name).Nodup)
    (hb : 4 + columnsSize (loaded.index_units.map itemOfUnit) < 4294967296)
    (hprim : loaded.primary_index = 0xFFFFFFFF ∨
      loaded.primary_index < loaded.index_units.length)
    (hn : (FileMapper.ofExisting dat block).load32 0 = some n)
    (hfit : (n * (4 + columnsSize (loaded.index_units.map itemOfUnit))) % 4294967296 + 4
      ≤ toSizeT (FileMapper.ofExisting dat block).get_file_size)
    (hflags : ∀ s : StorageTable,
      s._entry_size = 4 + columnsSize (loaded.index_units.map itemOfUnit) →
      loadFlags s (FileMapper.ofExisting dat block) n 0 = some vec)
    (ha : IDAllocator.ofBool8vec vec = some a) :
    ∃ L, StorageTable.open true (some idx) (some dat) block uninit
        = some { _entry_mapper := some (FileMapper.ofExisting dat block), _index_mapper := some (FileMapper.ofExisting idx block), _type_item_map := insertNames [] 0 (loaded.index_units.map fun u => u.name), _type_item_list := L, _entry_size := 4 + columnsSize (loaded.index_units.map itemOfUnit), _entry_list_num := n, _primary_index_order := loaded.primary_index, _entry_allocator := some a, _type_item_index_map := keyIndexMap L, _has_error := false } ∧
      L.map (fun i => (i.name, i.type, i.offset))
        = (withOffsets 4 (loaded.index_units.map itemOfUnit)).map
            (fun i => (i.name, i.type, i.offset)) := by
  obtain ⟨L, h1, hL⟩ := loadIndexFile_eq
    { _entry_mapper := none, _index_mapper := none, _type_item_map := [], _type_item_list := [], _entry_size := uninit, _entry_list_num := uninit, _primary_index_order := uninit, _entry_allocator := none, _type_item_index_map := [], _has_error := false }
    idx block loaded hload rfl rfl hnd hb hprim
  refine ⟨L, ?_, hL⟩
  unfold StorageTable.open
  simp only [Bool.not_true, Bool.false_eq_true, if_false, Option.bind_eq_bind, Option.pure_def]
  rw [h1, Option.some_bind]
  rw [loadEntryFile_eq _ dat block n vec a hn hfit (hflags _ rfl) ha, Option.some_bind]
  rfl

/-- The opening constructor on an index file in which a name occurs twice:
whenever it returns, the error flag is set, and it returns when the slot count
of the data file is 0. -/
theorem open_dup (idx dat : File) (block uninit : Nat) (loaded : IndexFile)
    (hload : LoadFromBuffer (FileMapper.ofExisting idx block) 0 = some loaded)
    (hdup : ¬ (loaded.index_units.map fun u => u.name).Nodup) :
    (∀ t, StorageTable.open true (some idx) (some dat) block uninit = some t →
      t._has_error = true) ∧
    ((FileMapper.ofExisting dat block).load32 0 = some 0 →
      ∃ t, StorageTable.open true (some idx) (some dat) block uninit = some t ∧
        t._has_error = true) := by
  obtain ⟨t0, h0, he0⟩ := loadIndexFile_dup
    { _entry_mapper := none, _index_mapper := none, _type_item_map := [], _type_item_list := [], _entry_size := uninit, _entry_list_num := uninit, _primary_index_order := uninit, _entry_allocator := none, _type_item_index_map := [], _has_error := false }
    idx block loaded hload hdup
  have hopen : StorageTable.open true (some idx) (some dat) block uninit
      = (t0._loadEntryFile dat block).bind fun s => some s._initKeyIndexMap := by
    unfold StorageTable.open
    simp only [Bool.not_true, Bool.false_eq_true, if_false, Option.bind_eq_bind, Option.pure_def]
    rw [h0, Option.some_bind]
  have hall : ∀ t, StorageTable.open true (some idx) (some dat) block uninit = some t →
      t._has_error = true := by
    intro t ht
    rw [hopen] at ht
    cases h1 : t0._loadEntryFile dat block with
    | none => rw [h1] at ht; simp at ht
    | some t1 =>
      rw [h1, Option.some_bind] at ht
      have := Option.some.inj ht
      rw [← this]
      exact loadEntryFile_has_error t0 t1 dat block h1 he0
  refine ⟨hall, fun hz => ?_⟩
  obtain ⟨t1, h1⟩ := loadEntryFile_zero t0 dat block hz
  refine ⟨t1._initKeyIndexMap, ?_, ?_⟩
  · rw [hopen, h1, Option.some_bind]
  · apply hall
    rw [hopen, h1, Option.some_bind]

end mygsql.StorageTable

namespace mygsql.StorageTable

open MTB MTB.FileMapper IndexFile

/-- What `_loadEntryFile` leaves when it returns: the slot count read from the
data file, and either the error flag (the file is shorter than the slots need)
or the allocator rebuilt from the flags. -/
theorem loadEntryFile_cases (self t : StorageTable) (dat : File) (block : Nat)
    (h : self._loadEntryFile dat block = some t) :
    ∃ n, (FileMapper.ofExisting dat block).load32 0 = some n ∧
      (((n * self._entry_size) % 4294967296 + 4
          > toSizeT (FileMapper.ofExisting dat block).get_file_size ∧
        t = { self with _entry_mapper := some (FileMapper.ofExisting dat block), _entry_list_num := n, _has_error := true }) ∨
       (¬ (n * self._entry_size) % 4294967296 + 4
          > toSizeT (FileMapper.ofExisting dat block).get_file_size ∧
        ∃ a, t = { self with _entry_mapper := some (FileMapper.ofExisting dat block), _entry_list_num := n, _entry_allocator := some a })) := by
  unfold _loadEntryFile at h
  simp only [Option.bind_eq_bind, Option.pure_def] at h
  rw [CreateFileMapper_some, Option.some_bind] at h
  cases hn : (FileMapper.ofExisting dat block).load32 0 with
  | none => rw [hn] at h; simp at h
  | some n =>
    rw [hn, Option.some_bind, i32size_eq] at h
    refine ⟨n, rfl, ?_⟩
    by_cases hc : (n * self._entry_size) % 4294967296 + 4
        > toSizeT (FileMapper.ofExisting dat block).get_file_size
    · rw [if_pos hc] at h
      exact Or.inl ⟨hc, (Option.some.inj h).symm⟩
    · rw [if_neg hc] at h
      right
      refine ⟨hc, ?_⟩
      cases hv : loadFlags { self with _entry_mapper := some (FileMapper.ofExisting dat block), _entry_list_num := n } (FileMapper.ofExisting dat block) n 0 with
      | none => rw [hv] at h; simp at h
      | some vec =>
        rw [hv, Option.some_bind] at h
        cases ha : IDAllocator.ofBool8vec vec with
        | none => rw [ha] at h; simp at h
        | some a =>
          rw [ha, Option.some_bind] at h
          exact ⟨a, (Option.some.inj h).symm⟩

/-- `_loadEntryFile` on a data file that is shorter than its slot count needs:
it returns with the error flag set. -/
theorem loadEntryFile_short (self : StorageTable) (dat : File) (block n : Nat)
    (hn : (FileMapper.ofExisting dat block).load32 0 = some n)
    (hshort : (n * self._entry_size) % 4294967296 + 4
      > toSizeT (FileMapper.ofExisting dat block).get_file_size) :
    self._loadEntryFile dat block
      = some { self with _entry_mapper := some (FileMapper.ofExisting dat block), _entry_list_num := n, _has_error := true } := by
  unfold _loadEntryFile
  simp only [Option.bind_eq_bind, Option.pure_def]
  rw [CreateFileMapper_some, Option.some_bind, hn, Option.some_bind]
  rw [i32size_eq, if_pos hshort]

/-- The creating constructor never sets the error flag when neither file
exists. -/
theorem create_has_error (block : Nat) (items : List StorageTypeItem) (t : StorageTable)
    (h : create false false block items = some t) : t._has_error = false := by
  have hfold : ∀ (l : List StorageTypeItem) (st : Int × Nat × StorageTable),
      (l.foldl createStep st).2.2._has_error = st.2.2._has_error := by
    intro l
    induction l with
    | nil => intro st; rfl
    | cons i rest ih =>
      intro st
      rw [List.foldl_cons, ih]
      unfold createStep
      simp only
      split <;> rfl
  unfold create at h
  simp only [Bool.or_self, Bool.false_eq_true, if_false, Option.bind_eq_bind] at h
  unfold _createIndexFile _createEntryFile at h
  simp only [Option.bind_eq_bind, Option.pure_def, Option.bind_eq_some] at h
  obtain ⟨t1, ⟨m1, _, m2, _, r, _, ht1⟩, m3, _, m4, _, ht⟩ := h
  have e1 := Option.some.inj ht1
  have e2 := Option.some.inj ht
  rw [← e2, ← e1]
  exact hfold items _

end mygsql.StorageTable

namespace mygsql.StorageTable

open MTB MTB.FileMapper IndexFile

/-- Whenever the opening constructor returns on an index file with distinct
names, the table has the packed layout of the decoded columns, and its error
flag says whether the data file is shorter than its slot count needs. -/
theorem open_cases (idx dat : File) (block uninit : Nat) (loaded : IndexFile)
    (t : StorageTable)
    (hload : LoadFromBuffer (FileMapper.ofExisting idx block) 0 = some loaded)
    (hnd : (loaded.index_units.map fun u => u.name).Nodup)
    (hb : 4 + columnsSize (loaded.index_units.map itemOfUnit) < 4294967296)
    (hprim : loaded.primary_index = 0xFFFFFFFF ∨
      loaded.primary_index < loaded.index_units.length)
    (h : StorageTable.open true (some idx) (some dat) block uninit = some t) :
    ∃ n, (FileMapper.ofExisting dat block).load32 0 = some n ∧
      t._entry_list_num = n ∧
      t._entry_size = 4 + columnsSize (loaded.index_units.map itemOfUnit) ∧
      t._primary_index_order = loaded.primary_index ∧
      t._type_item_list.map (fun i => (i.name, i.type, i.offset))
        = (withOffsets 4 (loaded.index_units.map itemOfUnit)).map
            (fun i => (i.name, i.type, i.offset)) ∧
      (t._has_error = true ↔
        (n * (4 + columnsSize (loaded.index_units.map itemOfUnit))) % 4294967296 + 4
          > toSizeT (FileMapper.ofExisting dat block).get_file_size) := by
  obtain ⟨L, h1, hL⟩ := loadIndexFile_eq
    { _entry_mapper := none, _index_mapper := none, _type_item_map := [], _type_item_list := [], _entry_size := uninit, _entry_list_num := uninit, _primary_index_order := uninit, _entry_allocator := none, _type_item_index_map := [], _has_error := false }
    idx block loaded hload rfl rfl hnd hb hprim
  unfold StorageTable.open at h
  simp only [Bool.not_true, Bool.false_eq_true, if_false, Option.bind_eq_bind,
    Option.pure_def] at h
  rw [h1, Option.some_bind] at h
  cases h2 : _loadEntryFile { _entry_mapper := none, _index_mapper := some (FileMapper.ofExisting idx block), _type_item_map := insertNames [] 0 (loaded.index_units.map fun u => u.name), _type_item_list := L, _entry_size := 4 + columnsSize (loaded.index_units.map itemOfUnit), _entry_list_num := uninit, _primary_index_order := loaded.primary_index, _entry_allocator := none, _type_item_index_map := [], _has_error := false } dat block with
  | none => rw [h2] at h; simp at h
  | some t1 =>
    rw [h2, Option.some_bind] at h
    have ht := Option.some.inj h
    obtain ⟨n, hn, hcase⟩ := loadEntryFile_cases _ t1 dat block h2
    refine ⟨n, hn, ?_⟩
    rcases hcase with ⟨hshort, e⟩ | ⟨hlong, a, e⟩
    · subst e
      subst ht
      exact ⟨rfl, rfl, rfl, hL, ⟨fun _ => hshort, fun _ => rfl⟩⟩
    · subst e
      subst ht
      refine ⟨rfl, rfl, rfl, hL, ⟨fun hf => ?_, fun hs => absurd hs hlong⟩⟩
      exact absurd hf (by simp [_initKeyIndexMap])

/-- The opening constructor on an index file with distinct names and a data
file that is shorter than its slot count needs: it returns with the error flag
set. -/
theorem open_short (idx dat : File) (block uninit : Nat) (loaded : IndexFile) (n : Nat)
    (hload : LoadFromBuffer (FileMapper.ofExisting idx block) 0 = some loaded)
    (hnd : (loaded.index_units.map fun u => u.name).Nodup)
    (hb : 4 + columnsSize (loaded.index_units.map itemOfUnit) < 4294967296)
    (hprim : loaded.primary_index = 0xFFFFFFFF ∨
      loaded.primary_index < loaded.index_units.length)
    (hn : (FileMapper.ofExisting dat block).load32 0 = some n)
    (hshort : (n * (4 + columnsSize (loaded.index_units.map itemOfUnit))) % 4294967296 + 4
      > toSizeT (FileMapper.ofExisting dat block).get_file_size) :
    ∃ t, StorageTable.open true (some idx) (some dat) block uninit = some t ∧
      t._has_error = true := by
  obtain ⟨L, h1, hL⟩ := loadIndexFile_eq
    { _entry_mapper := none, _index_mapper := none, _type_item_map := [], _type_item_list := [], _entry_size := uninit, _entry_list_num := uninit, _primary_index_order := uninit, _entry_allocator := none, _type_item_index_map := [], _has_error := false }
    idx block loaded hload rfl rfl hnd hb hprim
  have h2 := loadEntryFile_short { _entry_mapper := none, _index_mapper := some (FileMapper.ofExisting idx block), _type_item_map := insertNames [] 0 (loaded.index_units.map fun u => u.name), _type_item_list := L, _entry_size := 4 + columnsSize (loaded.index_units.map itemOfUnit), _entry_list_num := uninit, _primary_index_order := loaded.primary_index, _entry_allocator := none, _type_item_index_map := [], _has_error := false } dat block n hn hshort
  have hopen : StorageTable.open true (some idx) (some dat) block uninit
      = some (_initKeyIndexMap { _entry_mapper := some (FileMapper.ofExisting dat block), _index_mapper := some (FileMapper.ofExisting idx block), _type_item_map := insertNames [] 0 (loaded.index_units.map fun u => u.name), _type_item_list := L, _entry_size := 4 + columnsSize (loaded.index_units.map itemOfUnit), _entry_list_num := n, _primary_index_order := loaded.primary_index, _entry_allocator := none, _type_item_index_map := [], _has_error := true }) := by
    unfold StorageTable.open
    simp only [Bool.not_true, Bool.false_eq_true, if_false, Option.bind_eq_bind, Option.pure_def]
    rw [h1, Option.some_bind]
    erw [h2]
    rfl
  exact ⟨_, hopen, rfl⟩

end mygsql.StorageTable

namespace mygsql.StorageTable

open MTB MTB.FileMapper IndexFile

/-- Whenever the creating constructor returns, the columns of the table are
those of the schema with the offsets its loop assigned. -/
theorem create_layout (block : Nat) (items : List StorageTypeItem) (t : StorageTable)
    (hcols : 4 + columnsSize items < 2147483648)
    (h : create false false block items = some t) :
    t._type_item_list = withOffsets 4 items := by
  have hfold := foldl_createStep items [] 0
    { _entry_mapper := none, _index_mapper := none, _type_item_map := [],
      _type_item_list := items, _entry_size := 0, _entry_list_num := 0,
      _primary_index_order := 0xFFFFFFFF, _entry_allocator := some IDAllocator.empty,
      _type_item_index_map := [], _has_error := false } rfl (by omega)
  simp only [List.length_nil, Nat.cast_zero, Nat.zero_add, List.nil_append] at hfold
  unfold create at h
  simp only [Bool.or_self, Bool.false_eq_true, if_false, hfold, Option.bind_eq_bind] at h
  unfold _initKeyIndexMap _createIndexFile _createEntryFile at h
  simp only [Option.bind_eq_bind, Option.pure_def, Option.bind_eq_some] at h
  obtain ⟨t1, ⟨m1, _, m2, _, r, _, ht1⟩, m3, _, m4, _, ht⟩ := h
  have e1 := Option.some.inj ht1
  have e2 := Option.some.inj ht
  rw [← e2, ← e1]

end mygsql.StorageTable
/-! ## Lemmas: primary ordinal and packed layout -/

namespace mygsql

open MTB MTB.FileMapper IndexFile StorageTable

/-- The ordinal the creating constructor keeps once it is no longer the
sentinel. -/
theorem createPrimary_zero (items : List StorageTypeItem) : createPrimary 0 items = 0 := by
  unfold createPrimary
  induction items with
  | nil => rfl
  | cons i rest ih =>
    rw [List.foldl_cons]
    have h : (if (0 : Nat) = 0xFFFFFFFF ∧ i.is_primary = true then 0 else 0) = 0 := by simp
    rw [h]
    exact ih

/-- The creating constructor records ordinal 0 as soon as any column is
primary. -/
theorem createPrimary_sentinel (items : List StorageTypeItem) :
    createPrimary 0xFFFFFFFF items
      = if items.any (fun i => i.is_primary) = true then 0 else 0xFFFFFFFF := by
  induction items with
  | nil => rfl
  | cons i rest ih =>
    unfold createPrimary at ih ⊢
    rw [List.foldl_cons, List.any_cons]
    cases hp : i.is_primary with
    | true =>
      simp only [and_self, if_true, Bool.true_or]
      exact createPrimary_zero rest
    | false =>
      simp only [Bool.false_eq_true, and_false, if_false, Bool.false_or]
      exact ih

end mygsql

namespace mygsql

open MTB MTB.FileMapper IndexFile StorageTable

/-- A list with the names, types and offsets of a packed layout has, at every
position, the offset `off` plus the sizes of the columns before it. -/
theorem layout_getElem? (L items : List StorageTypeItem) (off : Nat)
    (hL : L.map (fun i => (i.name, i.type, i.offset))
      = (withOffsets off items).map (fun i => (i.name, i.type, i.offset)))
    (k : Nat) (i : StorageTypeItem) (hk : items[k]? = some i) :
    ∃ c, L[k]? = some c ∧ c.name = i.name ∧ c.type = i.type ∧
      c.offset = off + columnsSize (items.take k) := by
  have h1 := withOffsets_getElem? items off k i hk
  have h2 : (L.map (fun i => (i.name, i.type, i.offset)))[k]?
      = some (i.name, i.type, off + columnsSize (items.take k)) := by
    rw [hL, List.getElem?_map, h1]
    rfl
  rw [List.getElem?_map] at h2
  cases hc : L[k]? with
  | none => rw [hc] at h2; simp at h2
  | some c =>
    rw [hc] at h2
    simp only [Option.map_some', Option.some.injEq, Prod.mk.injEq] at h2
    exact ⟨c, rfl, h2.1, h2.2.1, h2.2.2⟩

end mygsql

namespace MTB.IDAllocator

/-- The live list of `cyclicLiveState` never reaches its end from entry 5. -/
theorem iterateFrom_cyclicLiveState_loops (fuel : Nat) :
    iterateFrom cyclicLiveState fuel ⟨5⟩ = none := by
  induction fuel with
  | zero => rfl
  | succ n ih =>
    have h : Iterator.advance cyclicLiveState ⟨5⟩ = some ⟨5⟩ := by decide
    have hne : (⟨5⟩ : Iterator) ≠ cyclicLiveState.end := by decide
    rw [iterateFrom, if_pos hne]
    simp only [Option.bind_eq_bind]
    rw [h, Option.some_bind, ih]
    rfl

/-- The live iteration of `cyclicLiveState` does not end. -/
theorem cyclicLiveState_liveIteration (fuel : Nat) :
    cyclicLiveState.liveIteration fuel = none := by
  have hb : cyclicLiveState.begin = some ⟨5⟩ := by decide
  unfold liveIteration
  rw [hb, Option.some_bind, iterateFrom_cyclicLiveState_loops]

end MTB.IDAllocator

/-! ## Theorems -/

namespace MTB.IDAllocator

theorem runCalls_reuseCalls : runCalls empty reuseCalls = some reuseState := by decide

theorem runCalls_threeLive :
    runCalls empty [Call.allocate, Call.allocate, Call.allocate] = some threeLiveState := by
  decide

theorem traverseFrom_doubleFreeState_loops (fuel : Nat) :
    traverseFrom doubleFreeState fuel 5 = none := by
  induction fuel with
  | zero => rfl
  | succ n ih =>
    have h : entryAt doubleFreeState._entry_list 5 = some ⟨-1, 5, false⟩ := by decide
    simp [traverseFrom, UNREACHABLE, h, ih]

/-- C4: on the state reached by three allocations (ids 0, 1, 2 live), `free(0)`
has been called and id 0 has not been re-allocated, yet the next `allocate()`
returns the fresh id 3 and not the freed id 0. -/
theorem C4_allocate_after_free_returns_fresh_id :
    runCalls empty [Call.allocate, Call.allocate, Call.allocate] = some threeLiveState ∧
    threeLiveState.isAllocated 0 = some true ∧
    ((threeLiveState.free 0).bind allocate).map (fun r => r.1) = some 3 := by
  decide

/-- C5: after `reuseCalls` followed by `free(3)`, `isAllocated` answers true for
ids 0 and 2 while the live iteration `begin() .. end()` yields only id 1. -/
theorem C5_isAllocated_disagrees_with_live_iteration :
    runCalls empty (reuseCalls ++ [Call.free 3]) = some doubleFreeState ∧
    doubleFreeState.isAllocated 0 = some true ∧
    doubleFreeState.isAllocated 2 = some true ∧
    doubleFreeState.liveIteration 6 = some [1] := by
  decide

/-- C6: after `reuseCalls` followed by `free(3)`, four ids have been created,
the live list holds one id, and the free list is the cycle `5 -> 5`: its
traversal never reaches the `-1` terminator, so the two lists do not partition
the four ids. -/
theorem C6_lists_do_not_partition_created_ids :
    runCalls empty (reuseCalls ++ [Call.free 3]) = some doubleFreeState ∧
    doubleFreeState._entry_list.length = 4 + 2 ∧
    doubleFreeState.traverseAllocated 6 = some [3] ∧
    entryAt doubleFreeState._entry_list 5 = some ⟨-1, 5, false⟩ ∧
    ∀ fuel, doubleFreeState.traverseUnallocated fuel = none := by
  refine ⟨by decide, by decide, by decide, by decide, fun fuel => ?_⟩
  have h : entryAt doubleFreeState._entry_list 0 = some ⟨-1, 5, false⟩ := by decide
  simp [traverseUnallocated, h, traverseFrom_doubleFreeState_loops]

/-- C7: with ids 0, 1, 2 live, `free(0)` returns without changing anything:
id 0 is still reported allocated and still yielded by the live iteration. -/
theorem C7_free_of_live_id_does_nothing :
    threeLiveState.isAllocated 0 = some true ∧
    threeLiveState.free 0 = some threeLiveState ∧
    threeLiveState.liveIteration 5 = some [2, 1, 0] := by
  decide

/-- C8: `free` is not a no-op on ids that are already free or out of range: on
`reuseState` id 3 is free and `free(3)` rewrites the entries (truncating the
live list and closing the free list into a cycle); on the empty allocator
`free(0)` and `free(-1)` index the deque out of range. -/
theorem C8_free_of_free_or_out_of_range_id_is_not_a_noop :
    reuseState.isAllocated 3 = some false ∧
    reuseState.free 3 = some doubleFreeState ∧
    doubleFreeState ≠ reuseState ∧
    reuseState.liveIteration 6 = some [1, 2, 0] ∧
    doubleFreeState.liveIteration 6 = some [1] ∧
    empty.free 0 = none ∧
    empty.free (-1) = none := by
  decide

/-- C9: in every allocator whose `_cur_max_id` equals the number of entries in
the deque (the constructor and `allocate` keep them equal), `isAllocated(N)`
for `N` = number of ids ever created passes the bounds check and reads
`_entry_list[N + 2]`, one past the end of the deque. -/
theorem C9_isAllocated_reads_one_past_the_end (a : IDAllocator)
    (hmax : a._cur_max_id = (a._entry_list.length : Int))
    (hlen : 2 ≤ a._entry_list.length) :
    a.isAllocated ((a._entry_list.length : Int) - 2) = none := by
  unfold isAllocated
  have h1 : ¬ ((a._entry_list.length : Int) - 2 + 2 < 2 ∨
      (a._entry_list.length : Int) - 2 + 2 > a._cur_max_id) := by omega
  simp only [h1, if_false]
  simp [entryAt]

theorem C9_isAllocated_reads_one_past_the_end_witness :
    empty._cur_max_id = (empty._entry_list.length : Int) ∧
    2 ≤ empty._entry_list.length ∧
    empty.isAllocated (((empty._entry_list.length : Nat) : Int) - 2) = none :=
  ⟨by decide, by decide,
   C9_isAllocated_reads_one_past_the_end empty (by decide) (by decide)⟩

/-- C10: the allocator rebuilt from the bitmap `[0, 1, 1]` still reports id 0
as allocated and yields it in the live iteration; for the bitmap `[1, 0, 1]`
the constructor reads `_entry_list[5]` of a five-entry deque. -/
theorem C10_ofBool8vec_does_not_match_bitmap :
    ofBool8vec [false, true, true] = some threeLiveState ∧
    threeLiveState.isAllocated 0 = some true ∧
    threeLiveState.liveIteration 5 = some [2, 1, 0] ∧
    ofBool8vec [true, false, true] = none := by
  decide

end MTB.IDAllocator
/-! ## Entry::set followed by Entry::get -/

namespace mygsql

open MTB MTB.FileMapper StorageTable

/-- C2: on any table whose columns carry the packed in-slot offsets, for a slot
whose bytes (flag and columns) lie inside the data mapping and a column `c`
found under `name`: if `c` is INT, `Entry::set(name, v)` succeeds for every
32-bit `v` and `Entry::get(name)` then returns `IntValue v`; if `c` is STRING,
`Entry::set(name, s)` succeeds for every `s` of at most 256 bytes and
`Entry::get(name)` then returns `StringValue s`. -/
theorem C2_set_then_get_returns_the_value (t : StorageTable) (e : StorageTable.Entry)
    (m : FileMapper) (name : List Byte) (pos : Nat) (c : StorageTypeItem)
    (hm : t._entry_mapper = some m)
    (hsize : m._size < 2147483648)
    (hlayout : offsetsFrom 4 t._type_item_list = true)
    (hslot : t._getEntryOffset e._header_index + slotWidth t._type_item_list ≤ m._size)
    (hname : t._type_item_map.lookup name = some pos)
    (hcol : t._type_item_list[pos]? = some c) :
    (c.type = ValueType.INT → ∀ v : Int, -2147483648 ≤ v → v < 2147483648 →
      ∃ t', Entry.set t e name (Value.IntValue v) = some (true, t') ∧
        Entry.get t' e name = some (some (Value.IntValue v))) ∧
    (c.type = ValueType.STRING → ∀ s : List Byte, s.length ≤ 256 →
      ∃ t', Entry.set t e name (Value.StringValue s) = some (true, t') ∧
        Entry.get t' e name = some (some (Value.StringValue s))) := by
  have hb := offsetsFrom_bounds _ 4 pos c hlayout hcol
  have hoff : t._getEntryOffset e._header_index = 4 + e._header_index * t._entry_size := by
    unfold _getEntryOffset; rw [i32size_eq]
  unfold slotWidth at hslot
  have hmul : e._header_index * t._entry_size = t._entry_size * e._header_index :=
    Nat.mul_comm _ _
  have hbase : 4 + t._entry_size * e._header_index < 2147483648 := by omega
  have hoffc : c.offset < 2147483648 := by omega
  have hset := Entry.set_target t e c.offset hbase
  have hget := Entry.get_target t e c.offset hbase hoffc
  have hA31 : 4 + t._entry_size * e._header_index + c.offset < 2147483648 := by
    clear hset hget; omega
  have hAI : c.type = ValueType.INT →
      4 + t._entry_size * e._header_index + c.offset + 4 ≤ m._size := by
    intro hty; rw [hty, DataTypeGetSize_INT] at hb; clear hset hget; omega
  have hAS : c.type = ValueType.STRING →
      4 + t._entry_size * e._header_index + c.offset + 260 ≤ m._size := by
    intro hty; rw [hty, DataTypeGetSize_STRING] at hb; clear hset hget; omega
  clear hb hoff hmul hbase hoffc hslot
  generalize 4 + t._entry_size * e._header_index + c.offset = A at hset hget hA31 hAI hAS
  constructor
  · intro hty v hv0 hv1
    have hA4 : A + 4 ≤ m._size := hAI hty
    refine ⟨{ t with _entry_mapper := some (m.poke A (be32Bytes (toUInt32 v))) }, ?_, ?_⟩
    · exact Entry.setInt_eq t e m name pos c A v hm hname hcol hty hset hA4
    · have h := Entry.get_int_eq
        { t with _entry_mapper := some (m.poke A (be32Bytes (toUInt32 v))) } e
        (m.poke A (be32Bytes (toUInt32 v))) name pos c A (toUInt32 v % 4294967296)
        rfl hname hcol hty hget (load32_poke_be32 m A (toUInt32 v) hA4)
      rw [h]
      have hv : toInt32 ((toUInt32 v % 4294967296 : Nat) : Int) = v := by
        have := toInt32_toUInt32 v hv0 hv1
        push_cast
        exact this
      rw [hv]
  · intro hty s hs
    have hA260 := hAS hty
    have hA4 : A + 4 ≤ m._size := by clear hset hget; omega
    have hAs : A + 4 + s.length ≤ m._size := by clear hset hget; omega
    refine
      ⟨{ t with _entry_mapper := some ((m.poke A (be32Bytes s.length)).poke (A + 4) s) }, ?_, ?_⟩
    · exact Entry.setString_eq t e m name pos c A s hm hname hcol hty hset hs hAs
    · have hl1 : ((m.poke A (be32Bytes s.length)).poke (A + 4) s).load32 (A : Int)
          = some s.length := by
        rw [load32_congr (m.poke A (be32Bytes s.length))
          ((m.poke A (be32Bytes s.length)).poke (A + 4) s) A rfl
          (fun x _ hx => poke_memory_outside (m.poke A (be32Bytes s.length)) (A + 4) s x
            (Or.inl hx)),
          load32_poke_be32 m A s.length hA4,
          Nat.mod_eq_of_lt (show s.length < 4294967296 by clear hset hget; omega)]
      have hrd := readBytes_poke (m.poke A (be32Bytes s.length)) (A + 4) s hAs
      exact Entry.get_string_eq
        { t with _entry_mapper := some ((m.poke A (be32Bytes s.length)).poke (A + 4) s) } e
        ((m.poke A (be32Bytes s.length)).poke (A + 4) s) name pos c A s.length s
        rfl hname hcol hty hget (by clear hset hget; omega) hl1 hrd

end mygsql
/-! ## The index file round trip -/

namespace mygsql

open MTB MTB.FileMapper IndexFile

/-- C3: for every index file whose `index_size` is its number of columns, with
column types INT or STRING, saved by `saveToBuffer` into a mapping that is large
enough for its serialised form, `LoadFromBuffer` on the written bytes returns
the same column count, the same primary ordinal and the same (name, type) of
every column in the same order. -/
theorem C3_load_after_save_round_trip (self : IndexFile) (m : FileMapper)
    (hcount : self.index_size = self.index_units.length)
    (hprimary : self.primary_index < 4294967296)
    (htypes : ∀ u ∈ self.index_units,
      u.data_type = ValueType.INT ∨ u.data_type = ValueType.STRING)
    (hfit : self.serializedSize ≤ m._size)
    (hsize : m._size < 2147483648) :
    ∃ saved m' loaded, self.saveToBuffer m 0 = some (saved, m') ∧
      LoadFromBuffer m' 0 = some loaded ∧
      loaded.index_size = self.index_size ∧
      loaded.primary_index = self.primary_index ∧
      loaded.columns = self.columns := by
  obtain ⟨saved, m', loaded, h1, _, _, h2, h3, h4, h5⟩ :=
    IndexFile.saveToBuffer_LoadFromBuffer self m hcount hprimary htypes hfit hsize
  exact ⟨saved, m', loaded, h1, h2, h3, h4, h5⟩

end mygsql
/-! ## Instances -/

namespace mygsql

open MTB MTB.FileMapper IndexFile StorageTable

/-- The creating constructor gives `peopleSchema` the schema part of
`peopleTable`. -/
theorem create_peopleSchema :
    (create false false 65536 peopleSchema).map (fun t => t._type_item_list)
      = some peopleTable._type_item_list ∧
    (create false false 65536 peopleSchema).map (fun t => t._type_item_map)
      = some peopleTable._type_item_map ∧
    (create false false 65536 peopleSchema).map (fun t => t._type_item_index_map)
      = some peopleTable._type_item_index_map ∧
    (create false false 65536 peopleSchema).map
        (fun t => (t._entry_size, t._primary_index_order, t._entry_list_num, t._has_error))
      = some (peopleTable._entry_size, peopleTable._primary_index_order,
          peopleTable._entry_list_num, peopleTable._has_error) := by
  decide

/-- C2 at slot 0 of `peopleTable`: the INT column `id` and the STRING column
`name`. -/
theorem C2_set_then_get_returns_the_value_witness :
    peopleTable._getEntryOffset 0 + slotWidth peopleTable._type_item_list ≤ 65536 ∧
    (∃ t', Entry.set peopleTable (Entry.ofIndex peopleTable 0) nameId (Value.IntValue 7)
        = some (true, t') ∧
      Entry.get t' (Entry.ofIndex peopleTable 0) nameId = some (some (Value.IntValue 7))) ∧
    (∃ t', Entry.set peopleTable (Entry.ofIndex peopleTable 0) nameName (Value.StringValue alice)
        = some (true, t') ∧
      Entry.get t' (Entry.ofIndex peopleTable 0) nameName
        = some (some (Value.StringValue alice))) :=
  ⟨by decide,
   (C2_set_then_get_returns_the_value peopleTable (Entry.ofIndex peopleTable 0)
      (FileMapper.ofCreated 65536) nameId 0 ⟨nameId, ValueType.INT, true, 4⟩
      rfl (by decide) (by decide) (by decide) (by decide) (by decide)).1 rfl 7
      (by decide) (by decide),
   (C2_set_then_get_returns_the_value peopleTable (Entry.ofIndex peopleTable 0)
      (FileMapper.ofCreated 65536) nameName 1 ⟨nameName, ValueType.STRING, false, 8⟩
      rfl (by decide) (by decide) (by decide) (by decide) (by decide)).2 rfl alice
      (by decide)⟩

/-- C3 on the index file of `abcSchema`, saved into a new one-block mapping. -/
theorem C3_load_after_save_round_trip_witness :
    (CreateFromTypeList abcSchema).index_size = (CreateFromTypeList abcSchema).index_units.length ∧
    (CreateFromTypeList abcSchema).serializedSize ≤ 65536 ∧
    ∃ saved m' loaded,
      (CreateFromTypeList abcSchema).saveToBuffer (FileMapper.ofCreated 65536) 0
        = some (saved, m') ∧
      LoadFromBuffer m' 0 = some loaded ∧
      loaded.index_size = 3 ∧
      loaded.primary_index = 0 ∧
      loaded.columns
        = [([97], ValueType.INT), ([98, 98], ValueType.STRING), ([99, 99, 99], ValueType.INT)] :=
  ⟨by decide, by decide,
   C3_load_after_save_round_trip (CreateFromTypeList abcSchema)
     (FileMapper.ofCreated 65536) (by decide) (by decide) (by decide) (by decide)
     (by decide)⟩

/-- C1: with a logical block of 64 bytes and the schema `[("s", STRING)]`,
appending a row with a 60-byte string writes the column outside the
64-byte data mapping, and after appending a row with the empty string the
reopened table is poisoned and has no allocator: `allocateEntry` grows the
mapping only until the first byte of the slot is inside it. -/
theorem C1_round_trip_fails_when_slot_exceeds_the_mapping :
    ((create false false 64 oneStringSchema).bind fun t =>
        t.appendEntry [Value.StringValue (List.replicate 60 120)]).isNone = true ∧
    (createAppendReopen 64 oneStringSchema [Value.StringValue []] 0).map
        (fun t => (t._has_error, t._entry_list_num, t._entry_allocator.isSome))
      = some (true, 1, false) := by
  decide

end mygsql
/-! ## Theorems: slots, allocation and deletion -/

namespace mygsql

open MTB MTB.FileMapper IndexFile StorageTable

/-- C11: for every schema of INT and STRING columns whose index file fits in one
block, the table the creating constructor builds reports `get_entry_size()` =
the sum of the column sizes,
without the 4 bytes of the allocation flag (so never `4 + S`), while
`_getEntryOffset(k)` is `4 + k * entry_size`: consecutive slots are `S` bytes
apart although each one occupies `4 + S` bytes. -/
theorem C11_created_table_entry_size_omits_the_flag (block : Nat)
    (items : List StorageTypeItem)
    (hblock : 4 ≤ block) (hcols : 4 + columnsSize items < 2147483648)
    (hfit : schemaIndexSize items < block) (hblk : block < 2147483648)
    (htypes : ∀ i ∈ items, i.type = ValueType.INT ∨ i.type = ValueType.STRING) :
    ∃ t, create false false block items = some t ∧
      t.get_entry_size = columnsSize items ∧
      t.get_entry_size ≠ 4 + columnsSize items ∧
      ∀ k, t._getEntryOffset k = 4 + k * t.get_entry_size := by
  obtain ⟨idxm, loaded, h, _⟩ := create_eq block items hblock hcols hfit hblk htypes
  refine ⟨createdTable block items idxm, h, rfl, ?_, fun k => ?_⟩
  · show columnsSize items ≠ 4 + columnsSize items
    omega
  · show i32size + k * columnsSize items = 4 + k * columnsSize items
    rw [i32size_eq]

/-- C11 at the schema `[id INT primary, name STRING]` with the default block:
the entry size is 264, not 268. -/
theorem C11_created_table_entry_size_omits_the_flag_witness :
    columnsSize peopleSchema = 264 ∧
    ∃ t, create false false 65536 peopleSchema = some t ∧
      t.get_entry_size = columnsSize peopleSchema ∧
      t.get_entry_size ≠ 4 + columnsSize peopleSchema ∧
      ∀ k, t._getEntryOffset k = 4 + k * t.get_entry_size :=
  ⟨by decide,
   C11_created_table_entry_size_omits_the_flag 65536 peopleSchema (by decide) (by decide)
     (by decide) (by decide) (by decide)⟩

/-- C12: on the table created from `[("k", INT)]`, after two `allocateEntry`
calls the allocation flag of slot 1 is 1; `Entry::set("k", 0)` on slot 0
succeeds and the allocation flag of slot 1 is 0 afterwards: the column of
slot 0 and the flag of slot 1 are the same four bytes of the data file. -/
theorem C12_set_overwrites_the_flag_of_the_next_slot :
    ((create false false 65536 oneIntSchema).bind fun t => allocateEntries t 2).map
        (fun t => (t.get_entry_size, t._getEntryOffset 0, t._getEntryOffset 1, t.slotFlag 1))
      = some (4, 4, 8, some 1) ∧
    (((create false false 65536 oneIntSchema).bind fun t => allocateEntries t 2).bind
        fun t => (Entry.set t (Entry.ofIndex t 0) [107] (Value.IntValue 0)).map
          fun r => (r.1, r.2.slotFlag 1))
      = some (true, some 0) := by
  decide

/-- C13: for a slot whose bytes lie in the data mapping of a table with the
packed column layout, `Entry::set(name, value)` returns, and it returns true
exactly when the name is found in the schema, the type of the value is the type
of the column found and, for a string, its length is at most 256; when it
returns false the table (hence every byte of the data file and the result of
every later `get`) is unchanged. -/
theorem C13_set_returns_true_iff_name_type_and_length_fit (t : StorageTable)
    (e : StorageTable.Entry) (m : FileMapper) (name : List Byte) (v : Value)
    (hm : t._entry_mapper = some m)
    (hsize : m._size < 2147483648)
    (hlayout : offsetsFrom 4 t._type_item_list = true)
    (hslot : t._getEntryOffset e._header_index + slotWidth t._type_item_list ≤ m._size)
    (hmap : ∀ p ∈ t._type_item_map, p.2 < t._type_item_list.length) :
    ∃ b t', Entry.set t e name v = some (b, t') ∧
      (b = true ↔ ∃ pos c, t._type_item_map.lookup name = some pos ∧
        t._type_item_list[pos]? = some c ∧ v.get_value_type = c.type ∧
        ∀ s, v = Value.StringValue s → s.length ≤ 256) ∧
      (b = false → t' = t ∧ ∀ n, Entry.get t' e n = Entry.get t e n) := by
  obtain ⟨b, t', h1, h2, h3⟩ := Entry.set_result t e m name v hm hsize hlayout hslot hmap
  refine ⟨b, t', h1, h2, fun hb => ?_⟩
  have ht := h3 hb
  subst ht
  exact ⟨rfl, fun _ => rfl⟩

set_option maxRecDepth 100000 in
/-- C13 at slot 0 of `peopleTable` and the STRING column `name`: a string of
256 bytes is accepted, one of 257 bytes is rejected. -/
theorem C13_set_returns_true_iff_name_type_and_length_fit_witness :
    (Entry.set peopleTable (Entry.ofIndex peopleTable 0) nameName
        (Value.StringValue (List.replicate 256 120))).map (fun r => r.1) = some true ∧
    (Entry.set peopleTable (Entry.ofIndex peopleTable 0) nameName
        (Value.StringValue (List.replicate 257 120))).map (fun r => r.1) = some false ∧
    ∃ b t', Entry.set peopleTable (Entry.ofIndex peopleTable 0) nameName
        (Value.StringValue (List.replicate 257 120)) = some (b, t') ∧
      (b = true ↔ ∃ pos c, peopleTable._type_item_map.lookup nameName = some pos ∧
        peopleTable._type_item_list[pos]? = some c ∧
        (Value.StringValue (List.replicate 257 120)).get_value_type = c.type ∧
        ∀ s, Value.StringValue (List.replicate 257 120) = Value.StringValue s →
          s.length ≤ 256) ∧
      (b = false → t' = peopleTable ∧
        ∀ n, Entry.get t' (Entry.ofIndex peopleTable 0) n
          = Entry.get peopleTable (Entry.ofIndex peopleTable 0) n) :=
  ⟨by decide, by decide,
   C13_set_returns_true_iff_name_type_and_length_fit peopleTable (Entry.ofIndex peopleTable 0)
     (FileMapper.ofCreated 65536) nameName
     (Value.StringValue (List.replicate 257 120)) rfl (by decide) (by decide) (by decide)
     (by decide)⟩

/-- C14: with the default block of 65536 bytes and a schema of eight STRING
columns, after 32 `allocateEntry` calls the data mapping still has 65536 bytes,
fewer than `4 + 32 * entry_size`, and a write into the last column of slot 31
falls outside the mapping; with a block of 64 bytes and the schema
`[("s", STRING)]` one `allocateEntry` leaves a 64-byte mapping for a slot of 264
bytes.  The grow loop stops as soon as the first byte of the slot is mapped. -/
theorem C14_grow_loop_maps_only_the_first_byte_of_the_slot :
    ((create false false 65536 eightStringSchema).bind fun t => allocateEntries t 32).map
        (fun t => (t.dataSize, t._entry_list_num, t.get_entry_size, t._getEntryOffset 31,
          t.dataSize.map fun s => decide (4 + t._entry_list_num * t.get_entry_size ≤ s)))
      = some (some 65536, 32, 2080, 64484, some false) ∧
    (((create false false 65536 eightStringSchema).bind fun t => allocateEntries t 32).bind
        fun t => Entry.set t (Entry.ofIndex t 31) [104] (Value.StringValue [])).isNone = true ∧
    ((create false false 64 oneStringSchema).bind fun t => allocateEntries t 1).map
        (fun t => (t.dataSize, t._entry_list_num, t.get_entry_size))
      = some (some 64, 1, 260) := by
  decide

/-- C15: with the three rows of `threeRows` (ids 0, 1, 2 live),
`deleteEntryByID(0)` returns true and clears the flag of slot 0 in the data
file, but the allocator still reports id 0 as allocated, the live iteration and
`traverseReadEntries` still yield it, and a second `deleteEntryByID(0)` returns
true again. -/
theorem C15_deleted_id_stays_live_in_the_allocator :
    ((peopleWith threeRows).bind fun t => t.deleteEntryByID 0).map
      (fun r => (r.1, r.2.slotFlag 0, r.2.idAllocated 0)) = some (true, some 0, some true) ∧
    ((peopleWith threeRows).bind fun t => t.deleteEntryByID 0).map
      (fun r => (r.2.liveIds 10, (r.2.traverseReadEntries 10).map fun es =>
          es.map fun e => e._header_index))
      = some (some [2, 1, 0], some [2, 1, 0]) ∧
    (((peopleWith threeRows).bind fun t => t.deleteEntryByID 0).bind fun r =>
      r.2.deleteEntryByID 0).map (fun r => r.1) = some true := by
  decide

/-- C16: on every table whose allocator has `_cur_max_id` equal to the length of
its deque (every allocator the constructors and `allocate` produce),
`deleteEntryByID(slot_count)` does not return false: `isAllocated` passes its
bounds check and reads `_entry_list[slot_count + 2]`, one past the end. -/
theorem C16_deleteEntryByID_of_slot_count_reads_past_the_allocator (t : StorageTable)
    (a : IDAllocator) (ha : t._entry_allocator = some a)
    (hmax : a._cur_max_id = (a._entry_list.length : Int))
    (hlen : 2 ≤ a._entry_list.length) :
    t.deleteEntryByID ((a._entry_list.length : Int) - 2) = none := by
  unfold deleteEntryByID
  simp only [Option.bind_eq_bind]
  rw [ha, Option.some_bind, IDAllocator.isAllocated_length a hmax hlen]
  rfl

/-- C16 on the new `peopleTable`: `deleteEntryByID(0)` with no slot created. -/
theorem C16_deleteEntryByID_of_slot_count_reads_past_the_allocator_witness :
    IDAllocator.empty._cur_max_id = (IDAllocator.empty._entry_list.length : Int) ∧
    2 ≤ IDAllocator.empty._entry_list.length ∧
    peopleTable.deleteEntryByID ((IDAllocator.empty._entry_list.length : Int) - 2) = none :=
  ⟨by decide, by decide,
   C16_deleteEntryByID_of_slot_count_reads_past_the_allocator peopleTable IDAllocator.empty rfl
     (by decide) (by decide)⟩

/-- C17: with the three rows of `threeRows`, after `deleteEntryByID(0)` has
returned true the next `allocateEntry` returns the new id 3, not the deleted
id 0; and `deleteEntryByID(1)` makes `IDAllocator::free` read `_entry_list[5]`
of a five-entry deque. -/
theorem C17_allocateEntry_after_delete_returns_a_new_id :
    ((peopleWith threeRows).bind fun t => t.deleteEntryByID 0).map (fun r => r.1)
      = some true ∧
    (((peopleWith threeRows).bind fun t => t.deleteEntryByID 0).bind fun r =>
        r.2.allocateEntry).map (fun x => x.1._header_index) = some 3 ∧
    ((peopleWith threeRows).bind fun t => t.deleteEntryByID 1).isNone = true := by
  decide

/-- C18: on a table whose slot count matches its allocator and whose data
mapping and entry size are multiples of 4 bytes, when the allocator hands out
id `k` and the first byte of slot `k` is mapped already or the data file is one
that existed when it was mapped, `allocateEntry` returns the entry with index
`k`, the four bytes at offset `4 + k * entry_size` of the data file are
`00 00 00 01`, and the first four bytes hold, big-endian, the slot count, which
is the number of ids the allocator has created.  When the first byte of slot
`k` lies outside the mapping of a data file the mapper created, `allocateEntry`
does not return (`resizeAppend` throws), as on the 16th call on the table
created from `[("k", INT)]` with a block of 64 bytes.  After creating the table
of `peopleSchema` and appending `(7, "alice")` the data file starts with
`00 00 00 01 00 00 00 01 00 00 00 07`. -/
theorem C18_allocateEntry_writes_the_flag_and_the_slot_count :
    (∀ (t : StorageTable) (a a' : IDAllocator) (m : FileMapper) (k : Nat),
      t._entry_allocator = some a → t._entry_mapper = some m →
      a.allocate = some ((k : Int), a') →
      t._entry_list_num + 2 = a._entry_list.length →
      t._entry_list_num + 1 < 4294967296 →
      0 < m._logical_block → m._logical_block % 4 = 0 → m._size % 4 = 0 →
      t._entry_size % 4 = 0 → 4 ≤ m._size → m._size < 2147483648 →
      4 + k * t._entry_size + m._logical_block < 2147483648 →
      (4 + k * t._entry_size < m._size ∨ ∃ s, m._file_stat = some s) →
      ∃ e t' m', t.allocateEntry = some (e, t') ∧ e._header_index = k ∧
        t'._entry_mapper = some m' ∧ t'._entry_size = t._entry_size ∧
        m'.readBytes ((4 + k * t._entry_size : Nat) : Int) 4 = some [0, 0, 0, 1] ∧
        m'.load32 0 = some t'._entry_list_num ∧
        t'._entry_allocator = some a' ∧
        t'._entry_list_num + 2 = a'._entry_list.length) ∧
    (∀ (t : StorageTable) (a a' : IDAllocator) (m : FileMapper) (k : Nat),
      t._entry_allocator = some a → t._entry_mapper = some m →
      a.allocate = some ((k : Int), a') → k < 2147483648 →
      m._file_stat = none → m._size < 2147483648 → m._size ≤ 4 + k * t._entry_size →
      t.allocateEntry = none) ∧
    ((create false false 64 oneIntSchema).bind fun t => allocateEntries t 15).map
        (fun t => (t.dataSize, t._entry_list_num, t.slotFlag 14)) = some (some 64, 15, some 1) ∧
    ((create false false 64 oneIntSchema).bind fun t => allocateEntries t 16).isNone = true ∧
    (((create false false 65536 peopleSchema).bind fun t =>
        t.appendEntry [Value.IntValue 7, Value.StringValue alice]).bind
      fun x => x.2._entry_mapper.bind fun m => m.readBytes 0 12)
      = some [0, 0, 0, 1, 0, 0, 0, 1, 0, 0, 0, 7] := by
  refine ⟨?_, ?_, by decide, by decide, by decide⟩
  · intro t a a' m k ha hm halloc hnum hnumlt hblock hb4 hs4 he4 hhdr hsize hrange hgrow
    obtain ⟨m1, n, _, hn, hnlt, hfit, heq⟩ := allocateEntry_eq t a a' m k ha hm halloc hnum
      hnumlt hblock hb4 hs4 he4 hhdr hsize hrange hgrow
    refine ⟨_, _, _, heq, rfl, rfl, rfl, ?_, ?_, rfl, hn⟩
    · rw [readBytes_congr (m1.poke (4 + k * t._entry_size) (be32Bytes 1))
        ((m1.poke (4 + k * t._entry_size) (be32Bytes 1)).poke 0 (be32Bytes n))
        (4 + k * t._entry_size) 4 rfl
        (fun x hx _ => poke_memory_outside _ 0 _ x (Or.inr (by rw [be32Bytes_length]; omega)))]
      exact readBytes_poke m1 (4 + k * t._entry_size) (be32Bytes 1) hfit
    · have h := load32_poke_be32 (m1.poke (4 + k * t._entry_size) (be32Bytes 1)) 0 n
        (by rw [poke_size]; omega)
      rw [Nat.mod_eq_of_lt hnlt] at h
      exact h
  · intro t a a' m k ha hm halloc hk hstat hsize hout
    exact allocateEntry_created_none t a a' m k ha hm halloc hk hstat hsize hout

/-- C18 on `peopleTable` with no slot created, where the allocator hands out
id 0 and nothing grows, and on a table over the 64-byte data file `emptyData`
with entry size 268 and one slot, where the allocator hands out id 1 and the
mapping grows to hold offset 272. -/
theorem C18_allocateEntry_writes_the_flag_and_the_slot_count_witness :
    (IDAllocator.empty.allocate = some (((0 : Nat) : Int), IDAllocator.oneLiveState) ∧
     ∃ e t' m', peopleTable.allocateEntry = some (e, t') ∧ e._header_index = 0 ∧
      t'._entry_mapper = some m' ∧ t'._entry_size = peopleTable._entry_size ∧
      m'.readBytes ((4 + 0 * peopleTable._entry_size : Nat) : Int) 4 = some [0, 0, 0, 1] ∧
      m'.load32 0 = some t'._entry_list_num ∧
      t'._entry_allocator = some IDAllocator.oneLiveState ∧
      t'._entry_list_num + 2 = IDAllocator.oneLiveState._entry_list.length) ∧
    (IDAllocator.oneLiveState.allocate = some (((1 : Nat) : Int), IDAllocator.twoLiveState) ∧
     ∃ e t' m', reopenedOneSlot.allocateEntry = some (e, t') ∧ e._header_index = 1 ∧
      t'._entry_mapper = some m' ∧ t'._entry_size = reopenedOneSlot._entry_size ∧
      m'.readBytes ((4 + 1 * reopenedOneSlot._entry_size : Nat) : Int) 4 = some [0, 0, 0, 1] ∧
      m'.load32 0 = some t'._entry_list_num ∧
      t'._entry_allocator = some IDAllocator.twoLiveState ∧
      t'._entry_list_num + 2 = IDAllocator.twoLiveState._entry_list.length) :=
  ⟨⟨by decide,
    C18_allocateEntry_writes_the_flag_and_the_slot_count.1 peopleTable IDAllocator.empty
      IDAllocator.oneLiveState (FileMapper.ofCreated 65536) 0 rfl rfl (by decide)
      (by decide) (by decide) (by decide) (by decide) (by decide) (by decide) (by decide)
      (by decide) (by decide) (Or.inl (by decide))⟩,
   ⟨by decide,
    C18_allocateEntry_writes_the_flag_and_the_slot_count.1 reopenedOneSlot
      IDAllocator.oneLiveState IDAllocator.twoLiveState (FileMapper.ofExisting emptyData 64) 1
      rfl rfl (by decide) (by decide) (by decide) (by decide) (by decide) (by decide)
      (by decide) (by decide) (by decide) (by decide) (Or.inr ⟨64, rfl⟩)⟩⟩

/-- C19: on the table created from `peopleSchema`, the entry `allocateEntry`
returns has its allocation flag set to 1 while `Entry::isAllocated()` answers
false (it reads the four bytes of the first column, which are 0); after
`(7, "alice")` has been appended and the entry deleted, the flag is 0 while
`Entry::isAllocated()` answers true (the first column holds 7). -/
theorem C19_isAllocated_reads_the_first_column :
    ((create false false 65536 peopleSchema).bind fun t => t.allocateEntry).map
        (fun x => (x.2.slotFlag x.1._header_index, Entry.isAllocated x.2 x.1))
      = some (some 1, some false) ∧
    (((create false false 65536 peopleSchema).bind fun t =>
        t.appendEntry [Value.IntValue 7, Value.StringValue alice]).bind fun x =>
          (x.2.deleteEntry x.1).map fun r => (r.1, r.2.slotFlag x.1._header_index,
            Entry.isAllocated r.2 x.1))
      = some (true, some 0, some true) := by
  decide

/-- C20: on the table of `peopleSchema` holding the one row `(7, "alice")`,
`deleteEntryByPrimaryKey(IntValue 8)` returns true and deletes the row whose
primary value is 7: its flag is 0, the allocator reports id 0 free and the live
iteration is empty. -/
theorem C20_deleteEntryByPrimaryKey_deletes_rows_with_another_key :
    ((peopleWith [[Value.IntValue 7, Value.StringValue alice]]).bind fun t =>
        Entry.get t (Entry.ofIndex t 0) nameId) = some (some (Value.IntValue 7)) ∧
    ((peopleWith [[Value.IntValue 7, Value.StringValue alice]]).bind fun t =>
        t.deleteEntryByPrimaryKey 10 (Value.IntValue 8)).map
      (fun r => (r.1, r.2.slotFlag 0, r.2.idAllocated 0, r.2.liveIds 10))
      = some (true, some 0, some false, some []) := by
  decide

end mygsql
/-! ## Theorems: primary keys, traversal order and block sizes -/

namespace mygsql

open MTB MTB.FileMapper IndexFile StorageTable

/-- C21: on every table whose primary ordinal is not the position of a column
(the sentinel `0xFFFFFFFF` of a schema without primary column, in particular),
`deleteEntryByPrimaryKey` does not reject the call: `getPrimaryIndex` indexes
`_type_item_list` out of range.  The table created from `[("s", STRING)]` is
such a table.  When the table has a primary column and the type of the value
differs from its type, the call returns false and deletes nothing. -/
theorem C21_deleteEntryByPrimaryKey_without_primary_column_reads_out_of_range :
    (∀ (t : StorageTable) (fuel : Nat) (value : Value),
      t._type_item_list.length ≤ t._primary_index_order →
      t.deleteEntryByPrimaryKey fuel value = none) ∧
    (create false false 65536 oneStringSchema).map
      (fun t => (t._primary_index_order, t._type_item_list.length,
        (t.deleteEntryByPrimaryKey 10 (Value.StringValue [])).isNone))
      = some (0xFFFFFFFF, 1, true) ∧
    ((peopleWith [[Value.IntValue 7, Value.StringValue alice]]).bind fun t =>
        t.deleteEntryByPrimaryKey 10 (Value.StringValue alice)).map
      (fun r => (r.1, r.2.slotFlag 0, r.2.idAllocated 0))
      = some (false, some 1, some true) := by
  refine ⟨?_, by decide, by decide⟩
  intro t fuel value h
  unfold deleteEntryByPrimaryKey getPrimaryIndex
  rw [List.getElem?_eq_none h]
  rfl

end mygsql

namespace MTB.IDAllocator

/-- C23: in every allocator state and for every bound on the number of steps,
the ids `traverseAllocated` passes to its callback are the ids the iteration
`begin() .. end()` yields, each plus 2: the callback receives the physical
index.  After three allocations the callback sees 4, 3, 2 and the iteration
yields 2, 1, 0. -/
theorem C23_traverseAllocated_passes_physical_indices :
    (∀ (a : IDAllocator) (fuel : Nat),
      a.traverseAllocated fuel = (a.liveIteration fuel).map (List.map (· + 2))) ∧
    runCalls empty [Call.allocate, Call.allocate, Call.allocate] = some threeLiveState ∧
    threeLiveState.traverseAllocated 5 = some [4, 3, 2] ∧
    threeLiveState.liveIteration 5 = some [2, 1, 0] := by
  refine ⟨?_, by decide, by decide, by decide⟩
  intro a fuel
  unfold traverseAllocated liveIteration begin
  cases entryAt a._entry_list 1 with
  | none => rfl
  | some h =>
    simp only [Option.some_bind, Option.map_some']
    exact traverseFrom_eq_iterateFrom a fuel h.next

end MTB.IDAllocator

namespace mygsql

open MTB MTB.FileMapper IndexFile StorageTable

/-- C27: for every column list (shorter than `2^31`, the range of the `int`
counter), `CreateFromTypeList` sets `index_size` to the number of columns, keeps
the (name, type) of every column in declaration order, sets `primary_index` to
the sentinel `0xFFFFFFFF` when no column is marked primary and to the position
of the first column marked primary otherwise. -/
theorem C27_CreateFromTypeList_records_the_first_primary_column
    (items : List StorageTypeItem) (hlen : items.length < 2147483648) :
    (CreateFromTypeList items).index_size = items.length ∧
    (CreateFromTypeList items).columns = items.map (fun i => (i.name, i.type)) ∧
    ((∀ i ∈ items, i.is_primary = false) →
      (CreateFromTypeList items).primary_index = 0xFFFFFFFF) ∧
    (∀ (k : Nat) (c : StorageTypeItem), items[k]? = some c → c.is_primary = true →
      (∀ j c', j < k → items[j]? = some c' → c'.is_primary = false) →
      (CreateFromTypeList items).primary_index = k) := by
  rw [CreateFromTypeList_eq items hlen]
  refine ⟨rfl, ?_, fun h => primaryOrdinal_none items 0 h, fun k c hk hc hfirst => ?_⟩
  · unfold columns ofSchema
    simp only [List.map_map]
    rfl
  · have := primaryOrdinal_first items 0 k c hk hc hfirst
    rw [Nat.zero_add] at this
    exact this

/-- C27 on `abcSchema`, whose first column is the primary one. -/
theorem C27_CreateFromTypeList_records_the_first_primary_column_witness :
    abcSchema.length < 2147483648 ∧
    (CreateFromTypeList abcSchema).index_size = 3 ∧
    (CreateFromTypeList abcSchema).primary_index = 0 ∧
    (CreateFromTypeList abcSchema).columns
      = [([97], ValueType.INT), ([98, 98], ValueType.STRING), ([99, 99, 99], ValueType.INT)] :=
  ⟨by decide,
   (C27_CreateFromTypeList_records_the_first_primary_column abcSchema (by decide)).1,
   (C27_CreateFromTypeList_records_the_first_primary_column abcSchema (by decide)).2.2.2 0
     ⟨[97], ValueType.INT, true, 0⟩ rfl rfl (fun j _ hj _ => absurd hj (Nat.not_lt_zero j)),
   (C27_CreateFromTypeList_records_the_first_primary_column abcSchema (by decide)).2.1⟩

end mygsql

namespace MTB.FileMapper

/-- C29 (counterexample): a mapper constructed on an existing file of 5 bytes
with a logical block of 65536 bytes reports a size of 5, which is not a multiple
of the block. -/
theorem C29_existing_file_keeps_its_size :
    (CreateFileMapper (some ⟨5, fun _ => 0⟩) 65536).map
        (fun m => (m.get_file_size, m._logical_block, m._size % 65536))
      = some (5, 65536, 5) := by
  decide

/-- C29 (amended): a mapper constructed (with a block that is not empty) on a
missing file has the size of one logical block, one constructed on an existing
file has the size of that file; every `resizeAppend` that returns adds exactly
one block of the captured size, so whenever `n` calls return the size is the
initial size plus `n` blocks; on a mapper of an existing file with a block that
is not empty they all return; `get_file_size()` reports the size while it is
below `2^31`.  A mapper that created its file keeps the size of one block:
`resizeAppend` does not return on it (it throws after reading the `_file_stat`
that `stat()` never filled), nor does it for a block of 0 bytes, and the
constructor throws on a missing file when the block is 0 bytes. -/
theorem C29_size_is_the_initial_size_plus_whole_blocks :
    (∀ block : Nat, block ≠ 0 →
      ∃ m, CreateFileMapper none block = some m ∧ m._size = block ∧ m._logical_block = block) ∧
    (∀ (f : File) (block : Nat),
      ∃ m, CreateFileMapper (some f) block = some m ∧ m._size = f.size ∧
        m._logical_block = block) ∧
    (∀ m m' : FileMapper, m.resizeAppend = some m' →
      m'._size = m._size + m._logical_block ∧ m'._logical_block = m._logical_block) ∧
    (∀ (n : Nat) (m m' : FileMapper), resizeAppends n m = some m' →
      m'._size = m._size + n * m._logical_block ∧ m'._logical_block = m._logical_block) ∧
    (∀ (f : File) (block n : Nat), block ≠ 0 →
      ∃ m m', CreateFileMapper (some f) block = some m ∧ resizeAppends n m = some m' ∧
        m'._size = f.size + n * block ∧ m'._logical_block = block) ∧
    (∀ m : FileMapper, m._size < 2147483648 → m.get_file_size = (m._size : Int)) ∧
    (∀ block : Nat, block ≠ 0 →
      ∃ m, CreateFileMapper none block = some m ∧ m.resizeAppend = none) ∧
    (∀ m : FileMapper, m._logical_block = 0 → m.resizeAppend = none) ∧
    CreateFileMapper none 0 = none := by
  refine ⟨fun block hb => ⟨ofCreated block, CreateFileMapper_none block hb, rfl, rfl⟩,
    fun f block => ⟨ofExisting f block, rfl, rfl, rfl⟩, fun m m' h => ?_, fun n m m' h => ?_,
    fun f block n hb => ?_, fun m h => toInt32_natCast _ h,
    fun block hb => ⟨ofCreated block, CreateFileMapper_none block hb,
      resizeAppend_created _ rfl⟩, fun m h => ?_, rfl⟩
  · obtain ⟨h1, h2, _⟩ := resizeAppend_eq_some m m' h
    exact ⟨h1, h2⟩
  · obtain ⟨h1, h2⟩ := resizeAppends_eq_some n m m' h
    exact ⟨h2, h1⟩
  · obtain ⟨m', hm'⟩ := resizeAppends_existing n (ofExisting f block) f.size
      (Nat.pos_of_ne_zero hb) rfl
    obtain ⟨h1, h2⟩ := resizeAppends_eq_some n _ m' hm'
    exact ⟨ofExisting f block, m', rfl, hm', h2, h1⟩
  · unfold resizeAppend
    rw [if_pos h]

/-- C29 (amended) on the existing file of 5 bytes mapped with a block of 64
bytes: three calls of `resizeAppend` return and the size is 5 + 3 * 64. -/
theorem C29_size_is_the_initial_size_plus_whole_blocks_witness :
    ∃ m m', CreateFileMapper (some ⟨5, fun _ => 0⟩) 64 = some m ∧ resizeAppends 3 m = some m' ∧
      m'._size = (⟨5, fun _ => 0⟩ : File).size + 3 * 64 ∧ m'._logical_block = 64 :=
  C29_size_is_the_initial_size_plus_whole_blocks.2.2.2.2.1 ⟨5, fun _ => 0⟩ 64 3 (by decide)

/-- C30: for every 32-bit `x`, `SetLogicalBlockSize(x)` returns true exactly
when `x` is 0 or a power of two; on true `GetLogicalBlockSize()` then returns
`x`, on false the global is unchanged.  In particular `SetLogicalBlockSize(0)`
returns true and sets the block size to 0. -/
theorem C30_SetLogicalBlockSize_accepts_zero :
    (∀ cur x : Nat, x < 4294967296 →
      ((SetLogicalBlockSize cur x).1 = true ↔ x = 0 ∨ ∃ k, x = 2 ^ k)) ∧
    (∀ cur x : Nat, (SetLogicalBlockSize cur x).1 = true →
      GetLogicalBlockSize (SetLogicalBlockSize cur x).2 = x) ∧
    (∀ cur x : Nat, (SetLogicalBlockSize cur x).1 = false →
      GetLogicalBlockSize (SetLogicalBlockSize cur x).2 = cur) ∧
    SetLogicalBlockSize 65536 0 = (true, 0) := by
  refine ⟨fun cur x hx => SetLogicalBlockSize_true_iff cur x hx, fun cur x h => ?_,
    fun cur x h => ?_, by decide⟩
  · unfold SetLogicalBlockSize at h ⊢
    split at h
    · cases h
    · rename_i hc
      rw [if_neg hc]
      rfl
  · unfold SetLogicalBlockSize at h ⊢
    split at h
    · rename_i hc
      rw [if_pos hc]
      rfl
    · cases h

end MTB.FileMapper

namespace MTB.IDAllocator

/-- C22: after four allocations, `free(3)`, `free(1)`, one allocation, a second
`free(3)` and one more allocation, the live iteration yields 3, 1; the next
`allocate()` returns 3, an id that is live already, and afterwards the live
iteration does not end, whatever the bound on its steps, instead of yielding
3, 3, 1.  In the states where `allocate()` hands out a non-negative id `k` that
was not live and the live iteration yields the non-negative ids `ids`, the
live iteration afterwards yields `k` followed by `ids`; after `n` allocations
on the empty allocator it yields `n - 1, ..., 1, 0`; `traverseReadEntries` hands
out the entries of the ids of the live iteration, in that order. -/
theorem C22_allocate_of_a_live_id_breaks_the_live_iteration :
    (runCalls empty (reuseCalls ++ [Call.free 3, Call.allocate])).map
        (fun a => (a.liveIteration 6, a.allocate)) =
      some (some [3, 1], some (3, cyclicLiveState)) ∧
    (∀ fuel, cyclicLiveState.liveIteration fuel = none) ∧
    (∀ (a a' : IDAllocator) (k : Int) (ids : List Int) (fuel : Nat),
      a.allocate = some (k, a') → 0 ≤ k → a.liveIteration fuel = some ids →
      (∀ x ∈ ids, 0 ≤ x) → k ∉ ids → a'.liveIteration (fuel + 1) = some (k :: ids)) ∧
    (∀ n : Nat, ∃ a, runCalls empty (List.replicate n Call.allocate) = some a ∧
      a.liveIteration (n + 1) = some (descending n)) ∧
    (∀ (t : mygsql.StorageTable) (a : IDAllocator) (fuel : Nat),
      t._entry_allocator = some a →
      t.traverseReadEntries fuel
        = (a.liveIteration fuel).map (List.map fun index => mygsql.StorageTable.Entry.ofIndex t index)) := by
  refine ⟨by decide, cyclicLiveState_liveIteration, fun a a' k ids fuel h hk hl hpos hnew =>
    liveIteration_allocate a a' k ids fuel h hk hl hpos hnew, fun n => ?_, fun t a fuel ha => ?_⟩
  · obtain ⟨a, h1, h2, _⟩ := runCalls_allocate_allLive n empty 0 allLive_empty
    rw [Nat.zero_add] at h2
    exact ⟨a, h1, h2.2.2⟩
  · unfold mygsql.StorageTable.traverseReadEntries
    rw [ha]
    simp only [Option.bind_eq_bind, Option.some_bind, Option.pure_def]
    cases a.liveIteration fuel <;> rfl

/-- C22 on `threeLiveState`: the fourth allocation hands out id 3, which was
not live, and the live iteration yields 3, 2, 1, 0. -/
theorem C22_allocate_of_a_live_id_breaks_the_live_iteration_witness :
    threeLiveState.liveIteration 4 = some [2, 1, 0] ∧
    ∃ a', threeLiveState.allocate = some (3, a') ∧ a'.liveIteration 5 = some [3, 2, 1, 0] :=
  ⟨by decide, fourLiveState, by decide,
   C22_allocate_of_a_live_id_breaks_the_live_iteration.2.2.1 threeLiveState fourLiveState 3
     [2, 1, 0] 4 (by decide) (by decide) (by decide) (by decide) (by decide)⟩

end MTB.IDAllocator

namespace mygsql

open MTB MTB.FileMapper IndexFile StorageTable

/-- C28: on the table created from `[("k", INT)]` with the default block of
65536 bytes, appending up to 16382 rows never grows the data mapping; after
8192 `appendEntry` calls the mapping still has 65536 bytes (the entry size is 4
and slot 8191 starts at offset 32768). -/
theorem C28_the_8192nd_append_does_not_grow_the_mapping :
    (∀ vs : List Int, vs.length ≤ 16382 →
      ∃ t, ((create false false 65536 oneIntSchema).bind fun t =>
          appendRows t (vs.map fun v => [Value.IntValue v])) = some t ∧
        t.dataSize = some 65536 ∧ t._entry_list_num = vs.length ∧ t.get_entry_size = 4) ∧
    ∃ t, ((create false false 65536 oneIntSchema).bind fun t =>
        appendRows t (List.replicate 8192 [Value.IntValue 1])) = some t ∧
      t.dataSize = some 65536 ∧ t._entry_list_num = 8192 ∧ t.get_entry_size = 4 ∧
      t._getEntryOffset 8191 = 32768 := by
  have key : ∀ vs : List Int, vs.length ≤ 16382 →
      ∃ t, ((create false false 65536 oneIntSchema).bind fun t =>
          appendRows t (vs.map fun v => [Value.IntValue v])) = some t ∧
        t.dataSize = some 65536 ∧ t._entry_list_num = vs.length ∧ t.get_entry_size = 4 := by
    intro vs hvs
    obtain ⟨t0, h0, hr0⟩ := create_oneIntSchema
    obtain ⟨t, ht, ⟨m, hm, hsize, _⟩, _, _, hes, hnum, _⟩ :=
      appendRows_oneIntRows vs t0 0 hr0 (by omega)
    refine ⟨t, ?_, ?_, by rw [hnum, Nat.zero_add], hes⟩
    · rw [h0, Option.some_bind]
      exact ht
    · unfold dataSize
      rw [hm, Option.map_some', hsize]
  refine ⟨key, ?_⟩
  obtain ⟨t, ht, hsz, hnum, hes⟩ := key (List.replicate 8192 1)
    (by rw [List.length_replicate]; omega)
  rw [List.map_replicate] at ht
  refine ⟨t, ht, hsz, by rw [hnum, List.length_replicate], hes, ?_⟩
  unfold _getEntryOffset
  have hes' : t._entry_size = 4 := hes
  rw [hes', i32size_eq]

end mygsql
/-! ## Theorems: the index file -/

namespace mygsql

open MTB MTB.FileMapper IndexFile StorageTable

/-- C25: for every index file whose `index_size` is its number of columns, with
INT or STRING columns, `saveToBuffer` at the start of a mapping that holds the
serialised size writes, big-endian: the column count at 0, the primary ordinal
at 4, for the `i`-th column at `8 + 12 * i` the name offset (the total length of
the names before it), the name length and the type tag (0 for INT, 1 for
STRING), and the name at its offset in the string area that starts at
`8 + 12 * column_count`; no byte at or above the serialised size is written, and
`get_storage_size()` is `8 + 12 * column_count` plus the lengths of the names.
The index file of `abcSchema` is written as the 50 bytes listed. -/
theorem C25_saveToBuffer_writes_the_index_file_layout :
    (∀ (self : IndexFile) (m : FileMapper),
      self.index_size = self.index_units.length → self.primary_index < 4294967296 →
      (∀ u ∈ self.index_units, u.data_type = ValueType.INT ∨ u.data_type = ValueType.STRING) →
      self.serializedSize ≤ m._size → m._size < 2147483648 →
      ∃ saved m', self.saveToBuffer m 0 = some (saved, m') ∧
        m'.load32 0 = some self.index_units.length ∧
        m'.load32 4 = some self.primary_index ∧
        (∀ i u, self.index_units[i]? = some u →
          m'.load32 ((8 + 12 * i : Nat) : Int)
            = some (namesLength (self.index_units.take i)) ∧
          m'.load32 ((8 + 12 * i + 4 : Nat) : Int) = some u.name.length ∧
          (u.data_type = ValueType.INT → m'.load32 ((8 + 12 * i + 8 : Nat) : Int) = some 0) ∧
          (u.data_type = ValueType.STRING →
            m'.load32 ((8 + 12 * i + 8 : Nat) : Int) = some 1) ∧
          m'.readBytes
              ((8 + 12 * self.index_units.length + namesLength (self.index_units.take i) : Nat)
                : Int) u.name.length
            = some u.name) ∧
        (∀ x, self.get_storage_size ≤ x → m'._memory x = m._memory x) ∧
        self.get_storage_size
          = 8 + 12 * self.index_units.length + namesLength self.index_units) ∧
    ((CreateFromTypeList abcSchema).saveToBuffer (FileMapper.ofCreated 65536) 0).bind
        (fun r => r.2.readBytes 0 50)
      = some [0, 0, 0, 3, 0, 0, 0, 0,
              0, 0, 0, 0, 0, 0, 0, 1, 0, 0, 0, 0,
              0, 0, 0, 1, 0, 0, 0, 2, 0, 0, 0, 1,
              0, 0, 0, 3, 0, 0, 0, 3, 0, 0, 0, 0,
              97, 98, 98, 99, 99, 99] := by
  refine ⟨?_, by decide⟩
  intro self m hcount hprimary htypes hfit hsize
  obtain ⟨saved, m', hsave, hl0, hl4, hread, hframe⟩ :=
    saveToBuffer_layout self m hcount hprimary htypes hfit hsize
  have hgs := get_storage_size_eq self (by omega)
  have hser : self.serializedSize
      = 8 + 12 * self.index_units.length + namesLength self.index_units := rfl
  refine ⟨saved, m', hsave, by rw [← hcount]; exact hl0, hl4, ?_, ?_, by rw [hgs, hser]⟩
  · intro i u hu
    have hb : 0 + namesLength self.index_units < 2147483648 := by omega
    have hlt : i < self.index_units.length := (List.getElem?_eq_some.mp hu).1
    have hex : (assignNameIndexes ((0 : Nat) : Int) self.index_units)[i]?
        = some ((assignNameIndexes ((0 : Nat) : Int) self.index_units).get
          ⟨i, by rw [assignNameIndexes_length]; exact hlt⟩) :=
      List.getElem?_eq_getElem _
    generalize (assignNameIndexes ((0 : Nat) : Int) self.index_units).get
      ⟨i, by rw [assignNameIndexes_length]; exact hlt⟩ = u' at hex
    obtain ⟨u0, hu0, h1, h2, h3, h4⟩ :=
      assignNameIndexes_getElem self.index_units 0 i u' hb hex
    rw [hu] at hu0
    cases hu0
    rw [Nat.zero_add] at h1
    obtain ⟨r1, r2, ⟨w, hw, hty⟩, r4⟩ := readUnits_getElem m' _ self.index_units.length 8
      (assignNameIndexes 0 self.index_units) (by omega) hread i u' hex
    rw [h1] at r1 r4
    rw [h2] at r2 r4
    rw [h4] at r4
    have hwlt := load32_lt m' _ w hw
    refine ⟨r1, r2, ?_, ?_, ?_⟩
    · intro hi
      rw [h3, hi] at hty
      have : toInt32 (w : Int) = 0 := by
        have := congrArg ValueType.tag hty
        exact this.symm
      have hw0 : w = 0 := by unfold toInt32 at this; omega
      rw [hw, hw0]
    · intro hs
      rw [h3, hs] at hty
      have : toInt32 (w : Int) = 1 := by
        have := congrArg ValueType.tag hty
        exact this.symm
      have hw1 : w = 1 := by unfold toInt32 at this; omega
      rw [hw, hw1]
    · have e : ((8 + 12 * self.index_units.length : Nat) : Int)
          + ((namesLength (List.take i self.index_units) : Nat) : Int)
          = ((8 + 12 * self.index_units.length
              + namesLength (List.take i self.index_units) : Nat) : Int) := by
        push_cast; rfl
      rw [← e]
      exact r4
  · intro x hx
    rw [hgs] at hx
    exact hframe x hx

/-- C25 on the index file of `abcSchema`, saved into a new mapping of one
block. -/
theorem C25_saveToBuffer_writes_the_index_file_layout_witness :
    (CreateFromTypeList abcSchema).index_size = (CreateFromTypeList abcSchema).index_units.length ∧
    (CreateFromTypeList abcSchema).serializedSize ≤ 65536 ∧
    ∃ saved m',
      (CreateFromTypeList abcSchema).saveToBuffer (FileMapper.ofCreated 65536) 0
        = some (saved, m') ∧
      m'.load32 0 = some 3 ∧ m'.load32 4 = some 0 :=
  ⟨by decide, by decide,
   let ⟨saved, m', h1, h2, h3, _⟩ :=
     C25_saveToBuffer_writes_the_index_file_layout.1 (CreateFromTypeList abcSchema)
       (FileMapper.ofCreated 65536) (by decide) (by decide) (by decide) (by decide)
       (by decide)
   ⟨saved, m', h1, h2, h3⟩⟩

end mygsql
/-! ## Theorems: error handling, reopening, comparisons -/

namespace mygsql

open MTB MTB.FileMapper IndexFile StorageTable

/-- C31 (counterexample): the table opened from the files of the schema
`[("x", INT), ("x", STRING)]` (with 4 as the value of the members the early
return leaves uninitialised) has `has_error()` true, and `allocateEntry` on it
returns slot 0, sets its allocation flag in the data mapping and raises the
slot count from 0 to 1. -/
theorem C31_allocateEntry_runs_on_a_poisoned_table :
    (sameNameTable 4).map (fun t => (t.has_error, t._entry_list_num, t.slotFlag 0))
      = some (true, 0, some 0) ∧
    ((sameNameTable 4).bind fun t => t.allocateEntry).map
        (fun x => (x.1._header_index, x.2.has_error, x.2._entry_list_num, x.2.slotFlag 0))
      = some (0, true, 1, some 1) := by
  decide

/-- C31 (amended): no operation reads `_has_error`.  For every table,
`allocateEntry`, `appendEntry`, `deleteEntryByID`, `deleteEntryByPrimaryKey`,
`traverseReadEntries` and `traverseRWEntries` do on the table with the flag set
to `b` exactly what they do with the flag as it was, and leave the flag alone:
a poisoned table is guarded by its caller or not at all.  A table without
allocator (the table opened from a directory without files, or an erased
table) makes every operation dereference a null pointer instead of
returning. -/
theorem C31_operations_do_not_read_has_error :
    (∀ (t : StorageTable) (b : Bool),
      ({ t with _has_error := b } : StorageTable).allocateEntry
        = t.allocateEntry.map fun x => (x.1, { x.2 with _has_error := b })) ∧
    (∀ (t : StorageTable) (b : Bool) (value_list : List Value),
      ({ t with _has_error := b } : StorageTable).appendEntry value_list
        = (t.appendEntry value_list).map fun x => (x.1, { x.2 with _has_error := b })) ∧
    (∀ (t : StorageTable) (b : Bool) (id : Int),
      ({ t with _has_error := b } : StorageTable).deleteEntryByID id
        = (t.deleteEntryByID id).map fun x => (x.1, { x.2 with _has_error := b })) ∧
    (∀ (t : StorageTable) (b : Bool) (fuel : Nat) (value : Value),
      ({ t with _has_error := b } : StorageTable).deleteEntryByPrimaryKey fuel value
        = (t.deleteEntryByPrimaryKey fuel value).map
            fun x => (x.1, { x.2 with _has_error := b })) ∧
    (∀ (t : StorageTable) (b : Bool) (fuel : Nat),
      ({ t with _has_error := b } : StorageTable).traverseReadEntries fuel
        = t.traverseReadEntries fuel ∧
      ({ t with _has_error := b } : StorageTable).traverseRWEntries fuel
        = t.traverseRWEntries fuel) ∧
    (∀ (t : StorageTable), t._entry_allocator = none →
      ∀ (fuel : Nat) (id : Int) (value_list : List Value),
        t.allocateEntry = none ∧ t.appendEntry value_list = none ∧
        t.deleteEntryByID id = none ∧ t.traverseReadEntries fuel = none ∧
        t.traverseRWEntries fuel = none) ∧
    (missingTable 0).map (fun t => (t.has_error, t._entry_allocator.isNone)) = some (true, true) ∧
    erasedTable.map (fun t => (t.has_error, t._entry_allocator.isNone)) = some (true, true) := by
  refine ⟨allocateEntry_has_error, appendEntry_has_error, deleteEntryByID_has_error,
    deleteEntryByPrimaryKey_has_error, traverseReadEntries_has_error,
    operations_without_allocator, by decide, by decide⟩

/-- C31 (amended) on `peopleTable` with its allocator pointer set to null:
`allocateEntry`, `appendEntry`, `deleteEntryByID` and the two traversals
dereference it. -/
theorem C31_operations_do_not_read_has_error_witness :
    ({ peopleTable with _entry_allocator := none } : StorageTable).allocateEntry = none ∧
    ({ peopleTable with _entry_allocator := none } : StorageTable).appendEntry
      [Value.IntValue 7, Value.StringValue alice] = none ∧
    ({ peopleTable with _entry_allocator := none } : StorageTable).deleteEntryByID 0 = none ∧
    ({ peopleTable with _entry_allocator := none } : StorageTable).traverseReadEntries 1 = none ∧
    ({ peopleTable with _entry_allocator := none } : StorageTable).traverseRWEntries 1 = none :=
  C31_operations_do_not_read_has_error.2.2.2.2.2.1
    ({ peopleTable with _entry_allocator := none } : StorageTable) rfl 1 0
    [Value.IntValue 7, Value.StringValue alice]

end mygsql

namespace mygsql

open MTB MTB.FileMapper IndexFile StorageTable

/-- C32 (counterexample): with the directory and both files present, the
opening constructor sets `has_error` on the index file of the columns `x` INT
and `x` STRING, and on the index file of `peopleSchema` with a 64-byte data file
that announces two slots. -/
theorem C32_existing_files_can_set_has_error :
    (StorageTable.open true (some sameNameBlob.close) (some emptyData) 64 0).map
        (fun t => t.has_error) = some true ∧
    (StorageTable.open true (some peopleIndexBlob.close) (some shortData) 64 0).map
        (fun t => (t.has_error, t._entry_list_num, t.get_entry_size)) = some (true, 2, 268) := by
  decide

/-- C32 (amended): the opening constructor returns with `has_error` set
whenever the directory, the index file or the data file is missing.  When they
all exist, it sets `has_error` exactly when the contents fail one of its two
checks: when the index file holds a column name twice, `has_error` is set
whenever the constructor returns; when the names are distinct, whenever it
returns `has_error` says that the data file is shorter than `4 + slot_count *
entry_size`, it returns with `has_error` set on such a file, and it returns with
`has_error` false on a file that is long enough and from whose flags the
allocator can be rebuilt.  The creating constructor returns with `has_error` set
whenever one of the two files exists; when neither exists it never sets
`has_error`, and it returns when the index file of the schema fits in one
block. -/
theorem C32_has_error_after_open_and_create :
    (∀ (dir_exists : Bool) (idx dat : Option File) (block uninit : Nat),
      dir_exists = false ∨ idx = none ∨ dat = none →
      ∃ t, StorageTable.open dir_exists idx dat block uninit = some t ∧ t.has_error = true) ∧
    (∀ (idx dat : File) (block uninit : Nat) (loaded : IndexFile),
      LoadFromBuffer (FileMapper.ofExisting idx block) 0 = some loaded →
      ¬ (loaded.index_units.map fun u => u.name).Nodup →
      ∀ t, StorageTable.open true (some idx) (some dat) block uninit = some t →
        t.has_error = true) ∧
    (∀ (idx dat : File) (block uninit : Nat) (loaded : IndexFile) (t : StorageTable),
      LoadFromBuffer (FileMapper.ofExisting idx block) 0 = some loaded →
      (loaded.index_units.map fun u => u.name).Nodup →
      4 + columnsSize (loaded.index_units.map itemOfUnit) < 4294967296 →
      (loaded.primary_index = 0xFFFFFFFF ∨ loaded.primary_index < loaded.index_units.length) →
      StorageTable.open true (some idx) (some dat) block uninit = some t →
      ∃ n, (FileMapper.ofExisting dat block).load32 0 = some n ∧
        (t.has_error = true ↔
          (n * (4 + columnsSize (loaded.index_units.map itemOfUnit))) % 4294967296 + 4
            > toSizeT (FileMapper.ofExisting dat block).get_file_size)) ∧
    (∀ (idx dat : File) (block uninit : Nat) (loaded : IndexFile) (n : Nat),
      LoadFromBuffer (FileMapper.ofExisting idx block) 0 = some loaded →
      (loaded.index_units.map fun u => u.name).Nodup →
      4 + columnsSize (loaded.index_units.map itemOfUnit) < 4294967296 →
      (loaded.primary_index = 0xFFFFFFFF ∨ loaded.primary_index < loaded.index_units.length) →
      (FileMapper.ofExisting dat block).load32 0 = some n →
      (n * (4 + columnsSize (loaded.index_units.map itemOfUnit))) % 4294967296 + 4
        > toSizeT (FileMapper.ofExisting dat block).get_file_size →
      ∃ t, StorageTable.open true (some idx) (some dat) block uninit = some t ∧
        t.has_error = true) ∧
    (∀ (idx dat : File) (block uninit : Nat) (loaded : IndexFile) (n : Nat) (vec : List Bool)
      (a : IDAllocator),
      LoadFromBuffer (FileMapper.ofExisting idx block) 0 = some loaded →
      (loaded.index_units.map fun u => u.name).Nodup →
      4 + columnsSize (loaded.index_units.map itemOfUnit) < 4294967296 →
      (loaded.primary_index = 0xFFFFFFFF ∨ loaded.primary_index < loaded.index_units.length) →
      (FileMapper.ofExisting dat block).load32 0 = some n →
      (n * (4 + columnsSize (loaded.index_units.map itemOfUnit))) % 4294967296 + 4
        ≤ toSizeT (FileMapper.ofExisting dat block).get_file_size →
      (∀ s : StorageTable,
        s._entry_size = 4 + columnsSize (loaded.index_units.map itemOfUnit) →
        loadFlags s (FileMapper.ofExisting dat block) n 0 = some vec) →
      IDAllocator.ofBool8vec vec = some a →
      ∃ t, StorageTable.open true (some idx) (some dat) block uninit = some t ∧
        t.has_error = false) ∧
    (∀ (idx_exists dat_exists : Bool) (block : Nat) (items : List StorageTypeItem),
      idx_exists = true ∨ dat_exists = true →
      ∃ t, create idx_exists dat_exists block items = some t ∧ t.has_error = true) ∧
    (∀ (block : Nat) (items : List StorageTypeItem) (t : StorageTable),
      create false false block items = some t → t.has_error = false) ∧
    (∀ (block : Nat) (items : List StorageTypeItem),
      4 ≤ block → 4 + columnsSize items < 2147483648 →
      schemaIndexSize items < block → block < 2147483648 →
      (∀ i ∈ items, i.type = ValueType.INT ∨ i.type = ValueType.STRING) →
      ∃ t, create false false block items = some t ∧ t.has_error = false) ∧
    (createAppendReopen 65536 peopleSchema [Value.IntValue 7, Value.StringValue alice] 0).map
        (fun t => t.has_error) = some false := by
  refine ⟨open_missing, ?_, ?_, ?_, ?_, create_existing, create_has_error, ?_, by decide⟩
  · intro idx dat block uninit loaded hload hdup
    exact (open_dup idx dat block uninit loaded hload hdup).1
  · intro idx dat block uninit loaded t hload hnd hb hprim h
    obtain ⟨n, hn, _, _, _, _, hiff⟩ := open_cases idx dat block uninit loaded t hload hnd hb
      hprim h
    exact ⟨n, hn, hiff⟩
  · intro idx dat block uninit loaded n hload hnd hb hprim hn hshort
    exact open_short idx dat block uninit loaded n hload hnd hb hprim hn hshort
  · intro idx dat block uninit loaded n vec a hload hnd hb hprim hn hfit hflags ha
    obtain ⟨L, h, _⟩ := open_eq idx dat block uninit loaded n vec a hload hnd hb hprim hn hfit
      hflags ha
    exact ⟨_, h, rfl⟩
  · intro block items hblock hcols hfit hblk htypes
    obtain ⟨idxm, loaded, h, _⟩ := create_eq block items hblock hcols hfit hblk htypes
    exact ⟨_, h, rfl⟩

/-- C32 (amended) on the index file of `peopleSchema` and the data file
`twoPeopleData` with its two allocated slots: the table opens without error. -/
theorem C32_has_error_after_open_and_create_witness :
    ∃ t, StorageTable.open true (some peopleIndexBlob.close) (some twoPeopleData) 64 0 = some t ∧
      t.has_error = false :=
  C32_has_error_after_open_and_create.2.2.2.2.1 peopleIndexBlob.close twoPeopleData 64 0
    ⟨2, 0, [⟨0, 2, ValueType.INT, nameId⟩, ⟨2, 4, ValueType.STRING, nameName⟩]⟩ 2 [true, true]
    IDAllocator.twoLiveState
    (by decide) (by decide) (by decide) (by decide) (by decide) (by decide)
    (fun s hs => (loadFlags_congr s reopenedOneSlot _ hs 2 0).trans (by decide)) (by decide)

/-- C33: when the index file decodes to units among which a name occurs twice,
the opening constructor never returns with `has_error()` false, whatever the
data file and whatever the uninitialised members hold, and it returns with
`has_error()` true when the slot count of the data file is 0.  Reopening the
table created from `[("x", INT), ("x", STRING)]` gives an erroring table. -/
theorem C33_open_with_a_duplicate_column_name_sets_has_error :
    (∀ (idx dat : File) (block uninit : Nat) (loaded : IndexFile),
      LoadFromBuffer (FileMapper.ofExisting idx block) 0 = some loaded →
      ¬ (loaded.index_units.map fun u => u.name).Nodup →
      (∀ t, StorageTable.open true (some idx) (some dat) block uninit = some t →
        t.has_error = true) ∧
      ((FileMapper.ofExisting dat block).load32 0 = some 0 →
        ∃ t, StorageTable.open true (some idx) (some dat) block uninit = some t ∧
          t.has_error = true)) ∧
    (sameNameTable 0).map (fun t => t.has_error) = some true := by
  refine ⟨?_, by decide⟩
  intro idx dat block uninit loaded hload hdup
  exact open_dup idx dat block uninit loaded hload hdup

/-- C33 on the 64-byte index file of the columns `x` INT and `x` STRING and a
data file without slots. -/
theorem C33_open_with_a_duplicate_column_name_sets_has_error_witness :
    ∃ t, StorageTable.open true (some sameNameBlob.close) (some emptyData) 64 0 = some t ∧
      t.has_error = true :=
  (C33_open_with_a_duplicate_column_name_sets_has_error.1 sameNameBlob.close emptyData 64 0
    ⟨2, 0xFFFFFFFF, [⟨0, 1, ValueType.INT, [120]⟩, ⟨1, 1, ValueType.STRING, [120]⟩]⟩
    (by decide) (by decide)).2 (by decide)

end mygsql

namespace mygsql

open MTB MTB.FileMapper IndexFile StorageTable

/-- C34: on every table with distinct column names whose name-to-index map has
been filled by `_initKeyIndexMap` from an empty map (the last step of both
constructors), `getTypeIndex(name)` is the zero-based position of the column
called `name`, and it is `-1` (the sentinel `0xFFFFFFFF` read as `int32_t`) when
no column has that name. -/
theorem C34_getTypeIndex_is_the_ordinal_or_minus_one (t : StorageTable)
    (hempty : t._type_item_index_map = [])
    (hnd : (t._type_item_list.map fun i => i.name).Nodup) (name : List Byte) :
    (∀ (k : Nat) (c : StorageTypeItem), t._type_item_list[k]? = some c → c.name = name →
      t._initKeyIndexMap.getTypeIndex name = (k : Int)) ∧
    ((∀ c ∈ t._type_item_list, c.name ≠ name) → t._initKeyIndexMap.getTypeIndex name = -1) := by
  constructor
  · intro k c hk hname
    have h := keyFold_lookup t._type_item_list [] 0 k c hnd (fun _ _ => rfl) hk
    unfold getTypeIndex _initKeyIndexMap
    simp only
    rw [hempty, ← hname, h]
    simp
  · intro hno
    have h := keyFold_absent t._type_item_list [] 0 name rfl hno
    unfold getTypeIndex _initKeyIndexMap
    simp only
    rw [hempty, h]
    decide

/-- C34 on the table of `peopleSchema`: `name` is column 1, `id` is column 0
and `age` is no column. -/
theorem C34_getTypeIndex_is_the_ordinal_or_minus_one_witness :
    ({ peopleTable with _type_item_index_map := [] } : StorageTable)._initKeyIndexMap.getTypeIndex
        nameName = 1 ∧
    ({ peopleTable with _type_item_index_map := [] } : StorageTable)._initKeyIndexMap.getTypeIndex
        [97, 103, 101] = -1 :=
  ⟨(C34_getTypeIndex_is_the_ordinal_or_minus_one
      { peopleTable with _type_item_index_map := [] } rfl (by decide) nameName).1 1
      ⟨nameName, ValueType.STRING, false, 8⟩ (by decide) rfl,
   (C34_getTypeIndex_is_the_ordinal_or_minus_one
      { peopleTable with _type_item_index_map := [] } rfl (by decide) [97, 103, 101]).2
      (by decide)⟩

/-- C39: when the difference of the two integers is an `int`,
`ValueMeetsCondition(r, a, b)` returns whether `a` stands in relation `r` to
`b`; when it is not, `IntValue::compare` overflows in `_value - ival->_value`
and the result is undefined.  `INT_MIN < 1` is such a pair. -/
theorem C39_ValueMeetsCondition_overflows_on_distant_integers :
    (∀ (r : TotalOrderRelation) (a b : Int),
      -2147483648 ≤ a - b → a - b < 2147483648 →
      ValueMeetsCondition r (Value.IntValue a) (Value.IntValue b)
        = some (MeetsResult.returned (r.holds a b))) ∧
    (∀ (r : TotalOrderRelation) (a b : Int),
      a - b < -2147483648 ∨ 2147483648 ≤ a - b →
      ValueMeetsCondition r (Value.IntValue a) (Value.IntValue b) = none) ∧
    TotalOrderRelation.LT.holds (-2147483648) 1 = true ∧
    ValueMeetsCondition TotalOrderRelation.LT (Value.IntValue (-2147483648)) (Value.IntValue 1)
      = none := by
  refine ⟨ValueMeetsCondition_int, ?_, by decide, by decide⟩
  intro r a b h
  have hc : (Value.IntValue a).compare (Value.IntValue b) = none := by
    show (if -2147483648 ≤ a - b ∧ a - b < 2147483648 then some (a - b) else none) = _
    rw [if_neg (by omega)]
  unfold ValueMeetsCondition
  simp only [Value.get_value_type, ne_eq, not_true_eq_false, if_false, Option.bind_eq_bind]
  rw [hc]
  rfl

end mygsql

namespace mygsql

open MTB MTB.FileMapper IndexFile StorageTable

/-- C35: the table created from `peopleSchema` returns `(8, "bob")` for slot 1
after the rows `(7, "alice")` and `(8, "bob")` have been appended.  After it
has been closed and reopened, the table is not erroring, its slot count is 2
and slot 0 still holds `7`, but its entry size is 268 where the creating
constructor used 264: the allocation flag of slot 1 reads 8, `get("id")` on
slot 1 returns 3 (the length of `"bob"`) and `get("name")` on slot 1 takes the
bytes `"bob"` for a length and reads outside the mapping. -/
theorem C35_reopened_table_misreads_the_second_row :
    ((peopleWith twoRows).bind fun t => Entry.get t (Entry.ofIndex t 1) nameId)
      = some (some (Value.IntValue 8)) ∧
    ((peopleWith twoRows).bind fun t => Entry.get t (Entry.ofIndex t 1) nameName)
      = some (some (Value.StringValue bob)) ∧
    ((peopleWith twoRows).map fun t => (t.get_entry_size, t.slotFlag 1)) = some (264, some 1) ∧
    (createAppendRowsReopen 65536 peopleSchema twoRows 0).map
        (fun t => (t.has_error, t._entry_list_num, t.get_entry_size, t.slotFlag 1))
      = some (false, 2, 268, some 8) ∧
    ((createAppendRowsReopen 65536 peopleSchema twoRows 0).bind fun t =>
        Entry.get t (Entry.ofIndex t 0) nameId) = some (some (Value.IntValue 7)) ∧
    ((createAppendRowsReopen 65536 peopleSchema twoRows 0).bind fun t =>
        Entry.get t (Entry.ofIndex t 1) nameId) = some (some (Value.IntValue 3)) ∧
    ((createAppendRowsReopen 65536 peopleSchema twoRows 0).map fun t =>
        (Entry.get t (Entry.ofIndex t 1) nameName).isNone) = some true := by
  decide

/-- C36: on the table created from `[("k", INT)]`, slot 0 holds `k = 7` after
`appendEntry([7])`; the next `allocateEntry` returns slot 1, and slot 0, which
is still live and whose flag is still 1, now holds `k = 1`: the allocation flag
of slot 1 is written over the column of slot 0. -/
theorem C36_allocateEntry_overwrites_the_last_column_of_the_previous_slot :
    (((create false false 65536 oneIntSchema).bind fun t =>
        t.appendEntry [Value.IntValue 7]).bind fun x => Entry.get x.2 x.1 [107])
      = some (some (Value.IntValue 7)) ∧
    (((create false false 65536 oneIntSchema).bind fun t =>
        t.appendEntry [Value.IntValue 7]).bind fun x => x.2.allocateEntry.map fun y =>
          (x.1._header_index, y.1._header_index, y.2.slotFlag 0, y.2.idAllocated 0))
      = some (0, 1, some 1, some true) ∧
    (((create false false 65536 oneIntSchema).bind fun t =>
        t.appendEntry [Value.IntValue 7]).bind fun x => x.2.allocateEntry.bind fun y =>
          Entry.get y.2 x.1 [107])
      = some (some (Value.IntValue 1)) := by
  decide

end mygsql

namespace mygsql

open MTB MTB.FileMapper IndexFile StorageTable

/-- C37: when the index file decodes to units with distinct names (and a
primary ordinal that is the sentinel or a position), `_loadIndexFile` returns
a table with `get_entry_size()` = 4 + the sum of the column sizes whose `k`-th
column has the name and type of the `k`-th unit and the offset 4 + the sizes of
the columns before it; whatever the data file is, whenever the opening
constructor returns, the opened table has that entry size and those columns;
and it returns when the data file is long enough for its slot count and the
allocator can be rebuilt from its flags.  The table the creating constructor
builds from a schema stores the same offset, 4 + the sizes of the columns
before, for its `k`-th column, whenever that constructor returns, and it
returns when the index file of the schema fits in one block. -/
theorem C37_opened_table_has_the_packed_layout :
    (∀ (self : StorageTable) (idx : File) (block : Nat) (loaded : IndexFile),
      self._type_item_map = [] → self._type_item_list = [] →
      LoadFromBuffer (FileMapper.ofExisting idx block) 0 = some loaded →
      (loaded.index_units.map fun u => u.name).Nodup →
      4 + columnsSize (loaded.index_units.map itemOfUnit) < 4294967296 →
      (loaded.primary_index = 0xFFFFFFFF ∨ loaded.primary_index < loaded.index_units.length) →
      ∃ t, self._loadIndexFile idx block = some t ∧
        t.get_entry_size = 4 + columnsSize (loaded.index_units.map itemOfUnit) ∧
        t._type_item_list.length = loaded.index_units.length ∧
        ∀ (k : Nat) (u : IndexUnit), loaded.index_units[k]? = some u →
          ∃ c, t._type_item_list[k]? = some c ∧ c.name = u.name ∧ c.type = u.data_type ∧
            c.offset = 4 + columnsSize ((loaded.index_units.map itemOfUnit).take k)) ∧
    (∀ (idx dat : File) (block uninit : Nat) (loaded : IndexFile) (t : StorageTable),
      LoadFromBuffer (FileMapper.ofExisting idx block) 0 = some loaded →
      (loaded.index_units.map fun u => u.name).Nodup →
      4 + columnsSize (loaded.index_units.map itemOfUnit) < 4294967296 →
      (loaded.primary_index = 0xFFFFFFFF ∨ loaded.primary_index < loaded.index_units.length) →
      StorageTable.open true (some idx) (some dat) block uninit = some t →
      t.get_entry_size = 4 + columnsSize (loaded.index_units.map itemOfUnit) ∧
      t._type_item_list.length = loaded.index_units.length ∧
      ∀ (k : Nat) (u : IndexUnit), loaded.index_units[k]? = some u →
        ∃ c, t._type_item_list[k]? = some c ∧ c.name = u.name ∧ c.type = u.data_type ∧
          c.offset = 4 + columnsSize ((loaded.index_units.map itemOfUnit).take k)) ∧
    (∀ (idx dat : File) (block uninit : Nat) (loaded : IndexFile) (n : Nat) (vec : List Bool)
      (a : IDAllocator),
      LoadFromBuffer (FileMapper.ofExisting idx block) 0 = some loaded →
      (loaded.index_units.map fun u => u.name).Nodup →
      4 + columnsSize (loaded.index_units.map itemOfUnit) < 4294967296 →
      (loaded.primary_index = 0xFFFFFFFF ∨ loaded.primary_index < loaded.index_units.length) →
      (FileMapper.ofExisting dat block).load32 0 = some n →
      (n * (4 + columnsSize (loaded.index_units.map itemOfUnit))) % 4294967296 + 4
        ≤ toSizeT (FileMapper.ofExisting dat block).get_file_size →
      (∀ s : StorageTable,
        s._entry_size = 4 + columnsSize (loaded.index_units.map itemOfUnit) →
        loadFlags s (FileMapper.ofExisting dat block) n 0 = some vec) →
      IDAllocator.ofBool8vec vec = some a →
      ∃ t, StorageTable.open true (some idx) (some dat) block uninit = some t ∧
        t.get_entry_size = 4 + columnsSize (loaded.index_units.map itemOfUnit) ∧
        t._type_item_list.length = loaded.index_units.length ∧
        ∀ (k : Nat) (u : IndexUnit), loaded.index_units[k]? = some u →
          ∃ c, t._type_item_list[k]? = some c ∧ c.name = u.name ∧ c.type = u.data_type ∧
            c.offset = 4 + columnsSize ((loaded.index_units.map itemOfUnit).take k)) ∧
    (∀ (block : Nat) (items : List StorageTypeItem),
      4 ≤ block → 4 + columnsSize items < 2147483648 →
      schemaIndexSize items < block → block < 2147483648 →
      (∀ i ∈ items, i.type = ValueType.INT ∨ i.type = ValueType.STRING) →
      ∃ t, create false false block items = some t ∧
        ∀ (k : Nat) (i : StorageTypeItem), items[k]? = some i →
          ∃ c, t._type_item_list[k]? = some c ∧ c.name = i.name ∧ c.type = i.type ∧
            c.offset = 4 + columnsSize (items.take k)) ∧
    (∀ (block : Nat) (items : List StorageTypeItem) (t : StorageTable),
      4 + columnsSize items < 2147483648 →
      create false false block items = some t →
      ∀ (k : Nat) (i : StorageTypeItem), items[k]? = some i →
        ∃ c, t._type_item_list[k]? = some c ∧ c.name = i.name ∧ c.type = i.type ∧
          c.offset = 4 + columnsSize (items.take k)) ∧
    (createAppendReopen 65536 peopleSchema [Value.IntValue 7, Value.StringValue alice] 0).map
        (fun t => (t.get_entry_size, t._type_item_list.map fun c => (c.name, c.offset)))
      = some (268, [(nameId, 4), (nameName, 8)]) ∧
    (create false false 65536 peopleSchema).map
        (fun t => t._type_item_list.map fun c => (c.name, c.offset))
      = some [(nameId, 4), (nameName, 8)] := by
  have key : ∀ (L : List StorageTypeItem) (loaded : IndexFile),
      L.map (fun i => (i.name, i.type, i.offset))
        = (withOffsets 4 (loaded.index_units.map itemOfUnit)).map
            (fun i => (i.name, i.type, i.offset)) →
      L.length = loaded.index_units.length ∧
      ∀ (k : Nat) (u : IndexUnit), loaded.index_units[k]? = some u →
        ∃ c, L[k]? = some c ∧ c.name = u.name ∧ c.type = u.data_type ∧
          c.offset = 4 + columnsSize ((loaded.index_units.map itemOfUnit).take k) := by
    intro L loaded hL
    constructor
    · have := congrArg List.length hL
      rw [List.length_map, List.length_map, withOffsets_length, List.length_map] at this
      exact this
    · intro k u hu
      have hk : (loaded.index_units.map itemOfUnit)[k]? = some (itemOfUnit u) := by
        rw [List.getElem?_map, hu]
        rfl
      exact layout_getElem? L _ 4 hL k (itemOfUnit u) hk
  refine ⟨?_, ?_, ?_, ?_, ?_, by decide, by decide⟩
  · intro self idx block loaded hmap hlist hload hnd hb hprim
    obtain ⟨L, h, hL⟩ := loadIndexFile_eq self idx block loaded hload hmap hlist hnd hb hprim
    exact ⟨_, h, rfl, (key L loaded hL).1, (key L loaded hL).2⟩
  · intro idx dat block uninit loaded t hload hnd hb hprim h
    obtain ⟨n, _, _, hes, _, hL, _⟩ := open_cases idx dat block uninit loaded t hload hnd hb
      hprim h
    exact ⟨hes, (key _ loaded hL).1, (key _ loaded hL).2⟩
  · intro idx dat block uninit loaded n vec a hload hnd hb hprim hn hfit hflags ha
    obtain ⟨L, h, hL⟩ := open_eq idx dat block uninit loaded n vec a hload hnd hb hprim hn hfit
      hflags ha
    exact ⟨_, h, rfl, (key L loaded hL).1, (key L loaded hL).2⟩
  · intro block items hblock hcols hfit hblk htypes
    obtain ⟨idxm, loaded, h, _⟩ := create_eq block items hblock hcols hfit hblk htypes
    refine ⟨_, h, ?_⟩
    intro k i hi
    exact layout_getElem? (withOffsets 4 items) items 4 rfl k i hi
  · intro block items t hcols h k i hi
    rw [create_layout block items t hcols h]
    exact layout_getElem? (withOffsets 4 items) items 4 rfl k i hi

/-- C37 on the index file of `peopleSchema` and the data file `twoPeopleData`
with its two allocated slots: the entry size is 4 + 4 + 260 and the columns
`id` and `name` are at the offsets 4 and 8. -/
theorem C37_opened_table_has_the_packed_layout_witness :
    columnsSize ([(⟨0, 2, ValueType.INT, nameId⟩ : IndexUnit),
      ⟨2, 4, ValueType.STRING, nameName⟩].map itemOfUnit) = 264 ∧
    ∃ t, StorageTable.open true (some peopleIndexBlob.close) (some twoPeopleData) 64 0 = some t ∧
      t.get_entry_size = 4 + columnsSize ([(⟨0, 2, ValueType.INT, nameId⟩ : IndexUnit),
        ⟨2, 4, ValueType.STRING, nameName⟩].map itemOfUnit) ∧
      t._type_item_list.length = 2 ∧
      ∀ (k : Nat) (u : IndexUnit),
        [(⟨0, 2, ValueType.INT, nameId⟩ : IndexUnit),
          ⟨2, 4, ValueType.STRING, nameName⟩][k]? = some u →
        ∃ c, t._type_item_list[k]? = some c ∧ c.name = u.name ∧ c.type = u.data_type ∧
          c.offset = 4 + columnsSize
            (([(⟨0, 2, ValueType.INT, nameId⟩ : IndexUnit),
              ⟨2, 4, ValueType.STRING, nameName⟩].map itemOfUnit).take k) :=
  ⟨by decide,
   C37_opened_table_has_the_packed_layout.2.2.1 peopleIndexBlob.close twoPeopleData 64 0
    ⟨2, 0, [⟨0, 2, ValueType.INT, nameId⟩, ⟨2, 4, ValueType.STRING, nameName⟩]⟩ 2 [true, true]
    IDAllocator.twoLiveState
    (by decide) (by decide) (by decide) (by decide) (by decide) (by decide)
    (fun s hs => (loadFlags_congr s reopenedOneSlot _ hs 2 0).trans (by decide)) (by decide)⟩

end mygsql

namespace mygsql

open MTB MTB.FileMapper IndexFile StorageTable

/-- C38: for every schema of INT and STRING columns whose index file fits in one
block, the table the creating constructor builds reports
`get_primary_index_order()` = 0 as soon as any column is primary (its counter `cnt` is never incremented) and the sentinel
otherwise, while the index file it writes records the ordinal of the first
primary column.  For `[("a", STRING), ("k", INT, primary)]` the created table
reports 0 and `getPrimaryIndex()` is the column `a`, which is not primary; the
index file records 1, and the reopened table reports 1 and the column `k`. -/
theorem C38_created_table_reports_primary_ordinal_zero :
    (∀ (block : Nat) (items : List StorageTypeItem),
      4 ≤ block → 4 + columnsSize items < 2147483648 →
      schemaIndexSize items < block → block < 2147483648 →
      (∀ i ∈ items, i.type = ValueType.INT ∨ i.type = ValueType.STRING) →
      ∃ t m loaded, create false false block items = some t ∧
        t._index_mapper = some m ∧ LoadFromBuffer m 0 = some loaded ∧
        loaded.primary_index = primaryOrdinal 0 items ∧
        t.get_primary_index_order
          = if items.any (fun i => i.is_primary) = true then 0 else 0xFFFFFFFF) ∧
    primaryOrdinal 0 secondPrimarySchema = 1 ∧
    (create false false 65536 secondPrimarySchema).map
        (fun t => (t.get_primary_index_order,
          t.getPrimaryIndex.map fun c => (c.name, c.is_primary)))
      = some (0, some ([97], false)) ∧
    ((create false false 65536 secondPrimarySchema).bind fun t =>
        t._index_mapper.bind fun m => (LoadFromBuffer m 0).map fun f => f.primary_index)
      = some 1 ∧
    (createAppendRowsReopen 65536 secondPrimarySchema [] 0).map
        (fun t => (t.has_error, t.get_primary_index_order,
          t.getPrimaryIndex.map fun c => (c.name, c.is_primary)))
      = some (false, 1, some ([107], true)) := by
  refine ⟨?_, by decide, by decide, by decide, by decide⟩
  intro block items hblock hcols hfit hblk htypes
  obtain ⟨idxm, loaded, h, _, _, hl, _, hp, _⟩ :=
    create_eq block items hblock hcols hfit hblk htypes
  exact ⟨createdTable block items idxm, idxm, loaded, h, rfl, hl, hp,
    createPrimary_sentinel items⟩

end mygsql

namespace MTB.IDAllocator

/-- C40: the calls `cyclicCalls` (four allocations, `free(3)`, `free(1)`, one
allocation, a second `free(3)` and two more allocations) lead from the empty
allocator to a state whose live list is cyclic, entry 5 being its own
successor: neither the iteration `begin() .. end()` nor `traverseAllocated`
ends, whatever the bound on the steps; and `free(0)` on the empty allocator
indexes the deque out of range. -/
theorem C40_reachable_state_with_a_cyclic_live_list :
    runCalls empty cyclicCalls = some cyclicLiveState ∧
    entryAt cyclicLiveState._entry_list 5 = some ⟨5, 5, true⟩ ∧
    (∀ fuel, cyclicLiveState.liveIteration fuel = none) ∧
    (∀ fuel, cyclicLiveState.traverseAllocated fuel = none) ∧
    cyclicLiveState.traverseUnallocated 6 = some [3] ∧
    runCalls empty [Call.free 0] = none := by
  have hl := cyclicLiveState_liveIteration
  refine ⟨by decide, by decide, hl, fun fuel => ?_, by decide, by decide⟩
  have h1 : entryAt cyclicLiveState._entry_list 1 = some ⟨-1, 5, true⟩ := by decide
  unfold traverseAllocated
  rw [h1, Option.some_bind, traverseFrom_eq_iterateFrom, iterateFrom_cyclicLiveState_loops]
  rfl

end MTB.IDAllocator

